import Mathlib

/-!
# PocketStriker network core: a shallow embedding

The definitions below transcribe the C++ of `Source/PocketStriker/Network` and of the
movement-simulation part of `Source/PocketStriker/Gameplay` into Lean functions.

* `uint32` / `uint8` values are natural numbers; a packet is well formed when every field
  is below `2 ^ 32` (respectively `2 ^ 8`).
* A `float` is represented by its raw IEEE-754 binary32 bit pattern (a natural number below
  `2 ^ 32`), which is what `reinterpret_cast<const uint32*>` reads.  Comparisons are the IEEE
  ones on bit patterns (a NaN compares false with everything, `-0 == +0`).
* Member functions take the object as first argument and return the updated object.
-/

namespace PocketStriker

/-! ## 32-bit floats as bit patterns -/

/-- Bit pattern of a binary32 value. -/
abbrev F32 := Nat

/-- Sign bit of a bit pattern. -/
def f32Sign (b : F32) : Bool := b / 2147483648 % 2 == 1

/-- The low 31 bits (biased exponent and mantissa). -/
def f32Mag (b : F32) : Nat := b % 2147483648

/-- A NaN has all exponent bits set and a non-zero mantissa. -/
def f32IsNaN (b : F32) : Bool := decide (0x7F800000 < f32Mag b)

/-- Order key of a non-NaN pattern: the sign-magnitude integer.  Both zeros map to `0`. -/
def f32Key (b : F32) : Int := if f32Sign b then -((f32Mag b : Nat) : Int) else ((f32Mag b : Nat) : Int)

/-- C++ `a < b` on floats. -/
def f32lt (a b : F32) : Bool := !f32IsNaN a && !f32IsNaN b && decide (f32Key a < f32Key b)

/-- C++ `a > b` on floats. -/
def f32gt (a b : F32) : Bool := f32lt b a

/-- C++ `a == b` on floats. -/
def f32eq (a b : F32) : Bool := !f32IsNaN a && !f32IsNaN b && decide (f32Key a = f32Key b)

/-- C++ `a <= b` on floats. -/
def f32le (a b : F32) : Bool := !f32IsNaN a && !f32IsNaN b && decide (f32Key a ≤ f32Key b)

/-- The literal `-1.0f`. -/
def f32NegOne : F32 := 0xBF800000
/-- The literal `1.0f`. -/
def f32One : F32 := 0x3F800000
/-- The literal `0.0f`. -/
def f32Zero : F32 := 0
/-- The literal `200.0f`. -/
def f32TwoHundred : F32 := 0x43480000

/-- The literal `1.0f / 60.0f` (folded at compile time). -/
def f32OneSixtieth : F32 := 0x3C888889
/-- The literal `10.0f`. -/
def f32Ten : F32 := 0x41200000

/-! ## Binary32 arithmetic, round to nearest even -/

/-- The default quiet NaN produced by invalid operations. -/
def f32QNaN : F32 := 0x7FC00000

/-- The bit pattern of an infinity. -/
def f32IsInf (b : F32) : Bool := f32Mag b == 0x7F800000

/-- Sign bit placed in front of a magnitude. -/
def f32Pack (sign : Bool) (mag : Nat) : F32 := (if sign then 2147483648 else 0) + mag

/-- Integer significand of a finite pattern: the value is `f32Sig b * 2 ^ (f32Scale b - 149)`. -/
def f32Sig (b : F32) : Nat :=
  if b / 8388608 % 256 = 0 then b % 8388608 else 8388608 + b % 8388608

/-- Exponent of the unit in the last place, offset by 149. -/
def f32Scale (b : F32) : Nat := b / 8388608 % 256 - 1

/-- Number of binary digits of `n` (at most `fuel`). -/
def bitLength : Nat → Nat → Nat
  | 0, _ => 0
  | fuel + 1, n => if n = 0 then 0 else bitLength fuel (n / 2) + 1

/-- Round-to-nearest-even of the positive quantity `(N + s) * 2 ^ (k - bias)` to binary32, where
`s` is zero when `sticky` is false and an unknown value strictly between 0 and 1 otherwise. -/
def f32Round (sign : Bool) (N : Nat) (sticky : Bool) (k bias : Nat) : F32 :=
  if N = 0 then f32Pack sign 0
  else
    let L := bitLength 512 N
    let T := max (L + k + 149) (bias + 24)
    let M :=
      if k + 173 ≤ T then
        let d := T - (k + 173)
        let M0 := N / 2 ^ d
        let r := N % 2 ^ d
        let half := 2 ^ (d - 1)
        let up : Bool := decide (1 ≤ d) &&
          (decide (half < r) || (decide (r = half) && (sticky || M0 % 2 == 1)))
        if up then M0 + 1 else M0
      else N * 2 ^ (k + 173 - T)
    let bits := (T - 24 - bias) * 8388608 + M
    f32Pack sign (if 0x7F800000 ≤ bits then 0x7F800000 else bits)

/-- C++ `a * b` on floats (round to nearest even; a NaN result is the canonical quiet NaN). -/
def f32mul (a b : F32) : F32 :=
  if f32IsNaN a || f32IsNaN b then f32QNaN
  else
    let sign := f32Sign a != f32Sign b
    if f32IsInf a || f32IsInf b then
      if f32Mag a = 0 || f32Mag b = 0 then f32QNaN else f32Pack sign 0x7F800000
    else f32Round sign (f32Sig a * f32Sig b) false (f32Scale a + f32Scale b) 298

/-- C++ `a + b` on floats (round to nearest even). -/
def f32add (a b : F32) : F32 :=
  if f32IsNaN a || f32IsNaN b then f32QNaN
  else if f32IsInf a then
    if f32IsInf b && (f32Sign a != f32Sign b) then f32QNaN else a % 4294967296
  else if f32IsInf b then b % 4294967296
  else
    let m := min (f32Scale a) (f32Scale b)
    let A := f32Sig a * 2 ^ (f32Scale a - m)
    let B := f32Sig b * 2 ^ (f32Scale b - m)
    if f32Sign a == f32Sign b then f32Round (f32Sign a) (A + B) false m 149
    else if A = B then f32Pack false 0
    else if B < A then f32Round (f32Sign a) (A - B) false m 149
    else f32Round (f32Sign b) (B - A) false m 149

/-- Unary minus on floats: flips the sign bit. -/
def f32neg (a : F32) : F32 := f32Pack (!f32Sign a) (f32Mag a)

/-- C++ `a - b` on floats (round to nearest even). -/
def f32sub (a b : F32) : F32 :=
  if f32IsNaN a || f32IsNaN b then f32QNaN else f32add a (f32neg b)

/-- C++ `a / b` on floats (round to nearest even). -/
def f32div (a b : F32) : F32 :=
  if f32IsNaN a || f32IsNaN b then f32QNaN
  else
    let sign := f32Sign a != f32Sign b
    if f32IsInf a then (if f32IsInf b then f32QNaN else f32Pack sign 0x7F800000)
    else if f32IsInf b then f32Pack sign 0
    else if f32Mag b = 0 then (if f32Mag a = 0 then f32QNaN else f32Pack sign 0x7F800000)
    else
      let num := f32Sig a * 2 ^ 64
      f32Round sign (num / f32Sig b) (num % f32Sig b != 0) (f32Scale a + (253 - f32Scale b)) 317

/-- Integer square root by binary search on the bits from `i - 1` down to `0`. -/
def isqrtBits (n : Nat) : Nat → Nat → Nat
  | 0, r => r
  | i + 1, r => if (r + 2 ^ i) * (r + 2 ^ i) ≤ n then isqrtBits n i (r + 2 ^ i) else isqrtBits n i r

/-- The engine call `FMath::Sqrt` (`sqrtf`, correctly rounded). -/
def f32sqrt (a : F32) : F32 :=
  if f32IsNaN a then f32QNaN
  else if f32Mag a = 0 then a % 4294967296
  else if f32Sign a then f32QNaN
  else if f32IsInf a then a % 4294967296
  else
    let s := if (f32Scale a + 1) % 2 = 0 then 120 else 121
    let n := f32Sig a * 2 ^ s
    let R := isqrtBits n 80 0
    f32Round false R (R * R != n) (300 - (149 + s - f32Scale a) / 2) 300


/-! ## Engine value types -/

/-- Modelled from the spec: `FVector2D` is an engine type that is not part of the repository;
its components are 32-bit floats as in the packet layout of the spec (section 6). -/
structure FVector2D where
  X : F32
  Y : F32
  deriving DecidableEq, Repr

/-- Modelled from the spec: `FVector` is an engine type that is not part of the repository;
its components are 32-bit floats as in the packet layout of the spec (section 6). -/
structure FVector where
  X : F32
  Y : F32
  Z : F32
  deriving DecidableEq, Repr

/-- The constant `FVector2D::ZeroVector`. -/
def FVector2D.ZeroVector : FVector2D := { X := 0, Y := 0 }

/-- The constant `FVector::ZeroVector`. -/
def FVector.ZeroVector : FVector := { X := 0, Y := 0, Z := 0 }

/-! ## The archive -/

/-- Modelled from the spec: `FArchive` is an engine class that is not part of the repository.
Following the wire layout of the spec (section 6) it is a byte stream: a saving archive appends
the little-endian bytes of each value to `Data`, a loading archive consumes bytes from the front
of `Data`.  A read past the end sets the error flag and leaves the destination untouched, as the
engine's memory reader does. -/
structure FArchive where
  bLoading : Bool
  Data : List Nat
  bError : Bool
  deriving DecidableEq, Repr

/-- A fresh saving archive. -/
def FArchive.writer : FArchive := { bLoading := false, Data := [], bError := false }

/-- A loading archive over the given bytes. -/
def FArchive.reader (bytes : List Nat) : FArchive := { bLoading := true, Data := bytes, bError := false }

/-- The member `FArchive::IsSaving`. -/
def FArchive.IsSaving (Ar : FArchive) : Bool := !Ar.bLoading

/-- The member `FArchive::IsLoading`. -/
def FArchive.IsLoading (Ar : FArchive) : Bool := Ar.bLoading

/-- The operator `Ar << Value` for a 32-bit value (`uint32`, or a `float` through its bit pattern). -/
def FArchive.serialize32 (Ar : FArchive) (Value : Nat) : FArchive × Nat :=
  if Ar.bLoading then
    if Ar.bError then (Ar, Value)
    else
      match Ar.Data with
      | b0 :: b1 :: b2 :: b3 :: rest =>
          ({ Ar with Data := rest },
            b0 % 256 + 256 * (b1 % 256) + 65536 * (b2 % 256) + 16777216 * (b3 % 256))
      | _ => ({ Ar with bError := true }, Value)
  else
    ({ Ar with Data := Ar.Data ++
        [Value % 256, Value / 256 % 256, Value / 65536 % 256, Value / 16777216 % 256] }, Value)

/-- The operator `Ar << Value` for a `uint8`. -/
def FArchive.serialize8 (Ar : FArchive) (Value : Nat) : FArchive × Nat :=
  if Ar.bLoading then
    if Ar.bError then (Ar, Value)
    else
      match Ar.Data with
      | b0 :: rest => ({ Ar with Data := rest }, b0 % 256)
      | _ => ({ Ar with bError := true }, Value)
  else
    ({ Ar with Data := Ar.Data ++ [Value % 256] }, Value)

/-! ## NetworkTypes.h / NetworkTypes.cpp -/

/-- The struct `FInputPacket`. -/
structure FInputPacket where
  SequenceNumber : Nat
  ClientTimestamp : F32
  MovementInput : FVector2D
  LookInput : FVector2D
  ActionFlags : Nat
  Checksum : Nat
  deriving DecidableEq, Repr

namespace FInputPacket

/-- Every field fits its 32-bit C++ type. -/
def WellFormed (p : FInputPacket) : Prop :=
  p.SequenceNumber < 2 ^ 32 ∧ p.ClientTimestamp < 2 ^ 32 ∧
  p.MovementInput.X < 2 ^ 32 ∧ p.MovementInput.Y < 2 ^ 32 ∧
  p.LookInput.X < 2 ^ 32 ∧ p.LookInput.Y < 2 ^ 32 ∧
  p.ActionFlags < 2 ^ 32 ∧ p.Checksum < 2 ^ 32

instance (p : FInputPacket) : Decidable p.WellFormed := by
  unfold WellFormed; infer_instance

def FLAG_SPRINT : Nat := 1 <<< 0
def FLAG_TACKLE : Nat := 1 <<< 1
def FLAG_KICK : Nat := 1 <<< 2
def FLAG_PASS : Nat := 1 <<< 3

/-- The member `FInputPacket::CalculateChecksum`. -/
def CalculateChecksum (self : FInputPacket) : Nat :=
  let Hash : Nat := 0
  let Hash := Hash ^^^ self.SequenceNumber
  let Hash := Hash ^^^ self.ClientTimestamp
  let Hash := Hash ^^^ self.MovementInput.X
  let Hash := Hash ^^^ self.MovementInput.Y
  let Hash := Hash ^^^ self.LookInput.X
  let Hash := Hash ^^^ self.LookInput.Y
  let Hash := Hash ^^^ self.ActionFlags
  Hash

/-- The member `FInputPacket::IsValid`. -/
def IsValid (self : FInputPacket) : Bool :=
  if self.Checksum != self.CalculateChecksum then false
  else if f32lt self.MovementInput.X f32NegOne || f32gt self.MovementInput.X f32One ||
      f32lt self.MovementInput.Y f32NegOne || f32gt self.MovementInput.Y f32One then false
  else if f32lt self.LookInput.X f32NegOne || f32gt self.LookInput.X f32One ||
      f32lt self.LookInput.Y f32NegOne || f32gt self.LookInput.Y f32One then false
  else true

/-- The member `FInputPacket::Serialize`: returns the packet after the call, the archive after the
call, and the C++ return value. -/
def Serialize (self : FInputPacket) (Ar : FArchive) : FInputPacket × FArchive × Bool :=
  let (Ar, SequenceNumber) := Ar.serialize32 self.SequenceNumber
  let (Ar, ClientTimestamp) := Ar.serialize32 self.ClientTimestamp
  let (Ar, MovementX) := Ar.serialize32 self.MovementInput.X
  let (Ar, MovementY) := Ar.serialize32 self.MovementInput.Y
  let (Ar, LookX) := Ar.serialize32 self.LookInput.X
  let (Ar, LookY) := Ar.serialize32 self.LookInput.Y
  let (Ar, ActionFlags) := Ar.serialize32 self.ActionFlags
  let self : FInputPacket :=
    { SequenceNumber := SequenceNumber, ClientTimestamp := ClientTimestamp,
      MovementInput := { X := MovementX, Y := MovementY },
      LookInput := { X := LookX, Y := LookY },
      ActionFlags := ActionFlags, Checksum := self.Checksum }
  let self := if Ar.IsSaving then { self with Checksum := self.CalculateChecksum } else self
  let (Ar, Checksum) := Ar.serialize32 self.Checksum
  let self := { self with Checksum := Checksum }
  if Ar.IsLoading then (self, Ar, self.IsValid) else (self, Ar, true)

end FInputPacket

/-- The struct `FStateUpdatePacket`. -/
structure FStateUpdatePacket where
  AcknowledgedSequence : Nat
  ServerTimestamp : F32
  AuthoritativePosition : FVector
  AuthoritativeVelocity : FVector
  AuthoritativeState : Nat
  AuthoritativeStamina : F32
  Checksum : Nat
  deriving DecidableEq, Repr

namespace FStateUpdatePacket

/-- Every field fits its C++ type (`AuthoritativeState` is a `uint8`). -/
def WellFormed (p : FStateUpdatePacket) : Prop :=
  p.AcknowledgedSequence < 2 ^ 32 ∧ p.ServerTimestamp < 2 ^ 32 ∧
  p.AuthoritativePosition.X < 2 ^ 32 ∧ p.AuthoritativePosition.Y < 2 ^ 32 ∧
  p.AuthoritativePosition.Z < 2 ^ 32 ∧
  p.AuthoritativeVelocity.X < 2 ^ 32 ∧ p.AuthoritativeVelocity.Y < 2 ^ 32 ∧
  p.AuthoritativeVelocity.Z < 2 ^ 32 ∧
  p.AuthoritativeState < 2 ^ 8 ∧ p.AuthoritativeStamina < 2 ^ 32 ∧ p.Checksum < 2 ^ 32

instance (p : FStateUpdatePacket) : Decidable p.WellFormed := by
  unfold WellFormed; infer_instance

/-- The member `FStateUpdatePacket::CalculateChecksum`. -/
def CalculateChecksum (self : FStateUpdatePacket) : Nat :=
  let Hash : Nat := 0
  let Hash := Hash ^^^ self.AcknowledgedSequence
  let Hash := Hash ^^^ self.ServerTimestamp
  let Hash := Hash ^^^ self.AuthoritativePosition.X
  let Hash := Hash ^^^ self.AuthoritativePosition.Y
  let Hash := Hash ^^^ self.AuthoritativePosition.Z
  let Hash := Hash ^^^ self.AuthoritativeVelocity.X
  let Hash := Hash ^^^ self.AuthoritativeVelocity.Y
  let Hash := Hash ^^^ self.AuthoritativeVelocity.Z
  let Hash := Hash ^^^ self.AuthoritativeState
  let Hash := Hash ^^^ self.AuthoritativeStamina
  Hash

/-- The member `FStateUpdatePacket::IsValid`. -/
def IsValid (self : FStateUpdatePacket) : Bool :=
  if self.Checksum != self.CalculateChecksum then false
  else if f32lt self.AuthoritativeStamina f32Zero || f32gt self.AuthoritativeStamina f32TwoHundred then false
  else if decide (self.AuthoritativeState > 5) then false
  else true

/-- The member `FStateUpdatePacket::Serialize`: returns the packet after the call, the archive
after the call, and the C++ return value. -/
def Serialize (self : FStateUpdatePacket) (Ar : FArchive) : FStateUpdatePacket × FArchive × Bool :=
  let (Ar, AcknowledgedSequence) := Ar.serialize32 self.AcknowledgedSequence
  let (Ar, ServerTimestamp) := Ar.serialize32 self.ServerTimestamp
  let (Ar, PositionX) := Ar.serialize32 self.AuthoritativePosition.X
  let (Ar, PositionY) := Ar.serialize32 self.AuthoritativePosition.Y
  let (Ar, PositionZ) := Ar.serialize32 self.AuthoritativePosition.Z
  let (Ar, VelocityX) := Ar.serialize32 self.AuthoritativeVelocity.X
  let (Ar, VelocityY) := Ar.serialize32 self.AuthoritativeVelocity.Y
  let (Ar, VelocityZ) := Ar.serialize32 self.AuthoritativeVelocity.Z
  let (Ar, AuthoritativeState) := Ar.serialize8 self.AuthoritativeState
  let (Ar, AuthoritativeStamina) := Ar.serialize32 self.AuthoritativeStamina
  let self : FStateUpdatePacket :=
    { AcknowledgedSequence := AcknowledgedSequence, ServerTimestamp := ServerTimestamp,
      AuthoritativePosition := { X := PositionX, Y := PositionY, Z := PositionZ },
      AuthoritativeVelocity := { X := VelocityX, Y := VelocityY, Z := VelocityZ },
      AuthoritativeState := AuthoritativeState, AuthoritativeStamina := AuthoritativeStamina,
      Checksum := self.Checksum }
  let self := if Ar.IsSaving then { self with Checksum := self.CalculateChecksum } else self
  let (Ar, Checksum) := Ar.serialize32 self.Checksum
  let self := { self with Checksum := Checksum }
  if Ar.IsLoading then (self, Ar, self.IsValid) else (self, Ar, true)

end FStateUpdatePacket


/-! ## Engine math used by the gameplay code

`FMath` and the inline members of `FVector` belong to the engine, not to the repository; they
are modelled by their usual definitions on binary32 values. -/

/-- The engine constant `SMALL_NUMBER` (`1.e-8f`). -/
def SMALL_NUMBER : F32 := 0x322BCC77
/-- The engine constant `KINDA_SMALL_NUMBER` (`1.e-4f`). -/
def KINDA_SMALL_NUMBER : F32 := 0x38D1B717

/-- The engine call `FMath::Abs` on a float: clears the sign bit. -/
def FMath.Abs (A : F32) : F32 := f32Mag A

/-- The engine call `FMath::Max`: `(B < A) ? A : B`. -/
def FMath.Max (A B : F32) : F32 := if f32lt B A then A else B

/-- The engine call `FMath::Min`: `(A < B) ? A : B`. -/
def FMath.Min (A B : F32) : F32 := if f32lt A B then A else B

/-- The engine call `FMath::Square`. -/
def FMath.Square (A : F32) : F32 := f32mul A A

namespace FVector

/-- The operator `FVector + FVector`. -/
def add (a b : FVector) : FVector :=
  { X := f32add a.X b.X, Y := f32add a.Y b.Y, Z := f32add a.Z b.Z }

/-- The operator `FVector - FVector`. -/
def sub (a b : FVector) : FVector :=
  { X := f32sub a.X b.X, Y := f32sub a.Y b.Y, Z := f32sub a.Z b.Z }

/-- The operator `FVector * float`. -/
def scale (a : FVector) (s : F32) : FVector :=
  { X := f32mul a.X s, Y := f32mul a.Y s, Z := f32mul a.Z s }

/-- The member `FVector::SizeSquared`. -/
def SizeSquared (a : FVector) : F32 :=
  f32add (f32add (f32mul a.X a.X) (f32mul a.Y a.Y)) (f32mul a.Z a.Z)

/-- The member `FVector::Size`. -/
def Size (a : FVector) : F32 := f32sqrt a.SizeSquared

/-- The static member `FVector::DistSquared`. -/
def DistSquared (V1 V2 : FVector) : F32 :=
  f32add (f32add (FMath.Square (f32sub V2.X V1.X)) (FMath.Square (f32sub V2.Y V1.Y)))
    (FMath.Square (f32sub V2.Z V1.Z))

/-- The static member `FVector::Dist`. -/
def Dist (V1 V2 : FVector) : F32 := f32sqrt (DistSquared V1 V2)

/-- The member `FVector::IsNearlyZero` with its default tolerance. -/
def IsNearlyZero (a : FVector) : Bool :=
  f32le (FMath.Abs a.X) KINDA_SMALL_NUMBER && f32le (FMath.Abs a.Y) KINDA_SMALL_NUMBER &&
    f32le (FMath.Abs a.Z) KINDA_SMALL_NUMBER

end FVector

/-- The engine struct `FHitResult`, reduced to the members the movement code reads. -/
structure FHitResult where
  bBlockingHit : Bool
  bStartPenetrating : Bool
  Time : F32
  Normal : FVector
  deriving DecidableEq, Repr

/-- The member `FHitResult::IsValidBlockingHit`. -/
def FHitResult.IsValidBlockingHit (Hit : FHitResult) : Bool := Hit.bBlockingHit && !Hit.bStartPenetrating

/-- The engine services whose result depends on the platform or on the level geometry.  They are
parameters of the model: every statement about the gameplay code holds for any choice of them.

* `InvSqrt` is `FMath::InvSqrt`;
* `SafeMoveUpdatedComponent Location Delta` is the sweep of the updated component from `Location`
  by `Delta`: it returns the location reached and the hit;
* `SlideAlongSurface Location Delta Time Normal Hit` returns the location after sliding. -/
structure Engine where
  InvSqrt : F32 → F32
  SafeMoveUpdatedComponent : FVector → FVector → FVector × FHitResult
  SlideAlongSurface : FVector → FVector → F32 → FVector → FHitResult → FVector

/-- An engine instance: exact reciprocal square root and a level without obstacles. -/
def Engine.openField : Engine :=
  { InvSqrt := fun x => f32div f32One (f32sqrt x)
    SafeMoveUpdatedComponent := fun Location Delta =>
      (Location.add Delta,
        { bBlockingHit := false, bStartPenetrating := false, Time := f32One,
          Normal := FVector.ZeroVector })
    SlideAlongSurface := fun Location _ _ _ _ => Location }

/-- The member `FVector::Normalize` with its default tolerance: returns the vector after the call. -/
def FVector.Normalize (E : Engine) (a : FVector) : FVector :=
  let SquareSum := a.SizeSquared
  if f32gt SquareSum SMALL_NUMBER then
    let Scale := E.InvSqrt SquareSum
    { X := f32mul a.X Scale, Y := f32mul a.Y Scale, Z := f32mul a.Z Scale }
  else a

/-- The member `FVector::GetSafeNormal` with its default tolerance. -/
def FVector.GetSafeNormal (E : Engine) (a : FVector) : FVector :=
  let SquareSum := a.SizeSquared
  if f32eq SquareSum f32One then a
  else if f32lt SquareSum SMALL_NUMBER then FVector.ZeroVector
  else
    let Scale := E.InvSqrt SquareSum
    { X := f32mul a.X Scale, Y := f32mul a.Y Scale, Z := f32mul a.Z Scale }

/-- Increment of an `int32` counter.  Signed overflow is undefined in C++; the model wraps as
two's complement hardware does. -/
def int32Increment (x : Int) : Int := if x = 2147483647 then -2147483648 else x + 1

/-! ## GameplayTypes.h -/

/-- The struct `FInputCommand`. -/
structure FInputCommand where
  SequenceNumber : Nat
  ClientTimestamp : F32
  MovementInput : FVector2D
  LookInput : FVector2D
  ActionFlags : Nat
  deriving DecidableEq, Repr

namespace FInputCommand
def FLAG_SPRINT : Nat := 1 <<< 0
def FLAG_TACKLE : Nat := 1 <<< 1
def FLAG_KICK : Nat := 1 <<< 2
def FLAG_PASS : Nat := 1 <<< 3
end FInputCommand

/-! ## PlayerMovementComponent.h / PlayerMovementComponent.cpp -/

/-- The class `UPlayerMovementComponent`: its own members and the members of the engine base
class that `SimulateMovement` uses.  `UpdatedComponent` records whether the pointer is non-null;
the location of the updated component is the location of the owning actor and is passed
separately. -/
structure UPlayerMovementComponent where
  UpdatedComponent : Bool
  Velocity : FVector
  CurrentStamina : F32
  MaxWalkSpeed : F32
  MaxAcceleration : F32
  BrakingDecelerationWalking : F32
  MaxSprintSpeed : F32
  MaxStamina : F32
  SprintStaminaCostPerSecond : F32
  StaminaRegenRate : F32
  bIsSprinting : Bool
  deriving DecidableEq, Repr

/-- Outcome of one call of `SimulateMovement`: the component and the actor location after the
call, and the value of the local variable `Delta` (`none` when the call returned before
computing it). -/
structure FSimulateMovementResult where
  Component : UPlayerMovementComponent
  Location : FVector
  Delta : Option FVector
  deriving DecidableEq, Repr

namespace UPlayerMovementComponent

/-- The member `UPlayerMovementComponent::ConsumeStamina`. -/
def ConsumeStamina (self : UPlayerMovementComponent) (Amount : F32) : UPlayerMovementComponent :=
  let self := { self with CurrentStamina := FMath.Max f32Zero (f32sub self.CurrentStamina Amount) }
  if f32le self.CurrentStamina f32Zero then { self with bIsSprinting := false } else self

/-- The member `UPlayerMovementComponent::RegenerateStamina`. -/
def RegenerateStamina (self : UPlayerMovementComponent) (DeltaTime : F32) : UPlayerMovementComponent :=
  { self with CurrentStamina :=
      FMath.Min self.MaxStamina (f32add self.CurrentStamina (f32mul self.StaminaRegenRate DeltaTime)) }

/-- The member `UPlayerMovementComponent::SimulateMovement`, acting on the component and on the
location of the actor it moves. -/
def SimulateMovement (E : Engine) (self : UPlayerMovementComponent) (Location : FVector)
    (Input : FInputCommand) (DeltaTime : F32) : FSimulateMovementResult :=
  if !self.UpdatedComponent then { Component := self, Location := Location, Delta := none }
  else
    let InputVector : FVector := { X := Input.MovementInput.Y, Y := Input.MovementInput.X, Z := f32Zero }
    let InputVector := if f32gt InputVector.SizeSquared f32One then InputVector.Normalize E else InputVector
    let self := { self with bIsSprinting := (Input.ActionFlags &&& FInputCommand.FLAG_SPRINT) != 0 }
    let TargetSpeed := self.MaxWalkSpeed
    let Sprint :=
      if self.bIsSprinting && f32gt self.CurrentStamina f32Zero then
        (self.ConsumeStamina (f32mul self.SprintStaminaCostPerSecond DeltaTime), self.MaxSprintSpeed)
      else
        ({ self with bIsSprinting := false }, TargetSpeed)
    let self := Sprint.1
    let TargetSpeed := Sprint.2
    let DesiredVelocity := InputVector.scale TargetSpeed
    let CurrentVelocity := self.Velocity
    let VelocityDelta := DesiredVelocity.sub CurrentVelocity
    let AccelRate :=
      if f32gt InputVector.SizeSquared f32Zero then self.MaxAcceleration else self.BrakingDecelerationWalking
    let MaxVelocityChange := f32mul AccelRate DeltaTime
    let VelocityDelta :=
      if f32gt VelocityDelta.SizeSquared (f32mul MaxVelocityChange MaxVelocityChange) then
        (VelocityDelta.GetSafeNormal E).scale MaxVelocityChange
      else VelocityDelta
    let self := { self with Velocity := CurrentVelocity.add VelocityDelta }
    let self :=
      if f32gt self.Velocity.SizeSquared (f32mul TargetSpeed TargetSpeed) then
        { self with Velocity := (self.Velocity.GetSafeNormal E).scale TargetSpeed }
      else self
    let Delta := self.Velocity.scale DeltaTime
    if !Delta.IsNearlyZero then
      let Moved := E.SafeMoveUpdatedComponent Location Delta
      let Location := Moved.1
      let Hit := Moved.2
      if Hit.IsValidBlockingHit then
        { Component := self,
          Location := E.SlideAlongSurface Location Delta (f32sub f32One Hit.Time) Hit.Normal Hit,
          Delta := some Delta }
      else { Component := self, Location := Location, Delta := some Delta }
    else { Component := self, Location := Location, Delta := some Delta }

end UPlayerMovementComponent

/-! ## PlayerStateMachine.h, PerformanceProfiler, PocketStrikerPlayerController -/

/-- The class `UPlayerStateMachine`, reduced to `CurrentState` (an `EPlayerState`, stored as its
`uint8` value: Idle 0, Move 1, Sprint 2, Tackle 3, Kick 4, Pass 5). -/
structure UPlayerStateMachine where
  CurrentState : Nat
  deriving DecidableEq, Repr

/-- The class `UPerformanceProfiler`, reduced to what `RecordNetworkCorrection` touches (the
wall-clock time stamps it also records are left out). -/
structure UPerformanceProfiler where
  bIsProfiling : Bool
  CorrectionMagnitudes : List F32
  deriving DecidableEq, Repr

/-- The member `UPerformanceProfiler::RecordNetworkCorrection`. -/
def UPerformanceProfiler.RecordNetworkCorrection (self : UPerformanceProfiler)
    (CorrectionMagnitude : F32) : UPerformanceProfiler :=
  if self.bIsProfiling then
    { self with CorrectionMagnitudes := self.CorrectionMagnitudes ++ [CorrectionMagnitude] }
  else self

/-- The client-side prediction members of `APocketStrikerPlayerController`. -/
structure APocketStrikerPlayerController where
  InputBuffer : List FInputCommand
  CurrentInputSequence : Nat
  LastAcknowledgedSequence : Nat
  bIsSprintPressed : Bool
  deriving DecidableEq, Repr

/-- The member `APocketStrikerPlayerController::AcknowledgeInput`. -/
def APocketStrikerPlayerController.AcknowledgeInput (self : APocketStrikerPlayerController)
    (SequenceNumber : Nat) : APocketStrikerPlayerController :=
  { self with
    LastAcknowledgedSequence := SequenceNumber
    InputBuffer := self.InputBuffer.filter (fun Input => !decide (Input.SequenceNumber ≤ SequenceNumber)) }

/-! ## NetworkPrediction.h / NetworkPrediction.cpp -/

/-- The struct `FPredictionState`. -/
structure FPredictionState where
  SequenceNumber : Nat
  Position : FVector
  Velocity : FVector
  State : Nat
  Stamina : F32
  Timestamp : F32
  deriving DecidableEq, Repr

/-- The default constructor of `FPredictionState`. -/
def FPredictionState.init : FPredictionState :=
  { SequenceNumber := 0, Position := FVector.ZeroVector, Velocity := FVector.ZeroVector,
    State := 0, Stamina := 0x42C80000, Timestamp := f32Zero }

/-- The class `UNetworkPrediction`.  `MovementComponent` and `StateMachine` record whether the
cached pointers are non-null; when they are, they point to the components of the owner. -/
structure UNetworkPrediction where
  MaxInputBufferSize : Int
  MaxStateHistorySize : Int
  InputBuffer : List FInputPacket
  StateHistory : List FPredictionState
  CurrentSequence : Nat
  MovementComponent : Bool
  StateMachine : Bool
  PredictedPath : List FVector
  deriving DecidableEq, Repr

namespace UNetworkPrediction

/-- The constant `UNetworkPrediction::MaxPathPoints`. -/
def MaxPathPoints : Nat := 100

/-- The member `UNetworkPrediction::BufferInput`.  `RemoveAt(0, NumToRemove)` drops the first
`NumToRemove` entries. -/
def BufferInput (self : UNetworkPrediction) (Input : FInputPacket) : UNetworkPrediction :=
  let self := { self with InputBuffer := self.InputBuffer ++ [Input] }
  if (self.InputBuffer.length : Int) > self.MaxInputBufferSize then
    let NumToRemove : Int := (self.InputBuffer.length : Int) - self.MaxInputBufferSize
    { self with InputBuffer := self.InputBuffer.drop NumToRemove.toNat }
  else self

/-- The member `UNetworkPrediction::GetUnacknowledgedInputs`. -/
def GetUnacknowledgedInputs (self : UNetworkPrediction) (LastAckedSequence : Nat) : List FInputPacket :=
  self.InputBuffer.filter (fun Input => decide (Input.SequenceNumber > LastAckedSequence))

/-- The member `UNetworkPrediction::ClearAcknowledgedInputs`. -/
def ClearAcknowledgedInputs (self : UNetworkPrediction) (AckedSequence : Nat) : UNetworkPrediction :=
  { self with InputBuffer :=
      self.InputBuffer.filter (fun Input => !decide (Input.SequenceNumber ≤ AckedSequence)) }

/-- The member `UNetworkPrediction::GetStateAtSequence`. -/
def GetStateAtSequence (self : UNetworkPrediction) (SequenceNumber : Nat) : FPredictionState :=
  match self.StateHistory.find? (fun State => State.SequenceNumber == SequenceNumber) with
  | some State => State
  | none => FPredictionState.init

/-- The member `UNetworkPrediction::ClearOldStates`. -/
def ClearOldStates (self : UNetworkPrediction) (OldestNeededSequence : Nat) : UNetworkPrediction :=
  { self with StateHistory :=
      self.StateHistory.filter (fun State => !decide (State.SequenceNumber < OldestNeededSequence)) }

end UNetworkPrediction

/-! ## NetworkReconciler.h -/

/-- The class `UNetworkReconciler`.  `PredictionComponent`, `MovementComponent` and `StateMachine`
record whether the cached pointers are non-null; when they are, they point to the components of
the owner. -/
structure UNetworkReconciler where
  CorrectionThreshold : F32
  SmoothingSpeed : F32
  bEnableSmoothing : Bool
  LastCorrectionDelta : FVector
  LastCorrectionTime : F32
  TotalCorrections : Int
  PredictionComponent : Bool
  MovementComponent : Bool
  StateMachine : Bool
  SmoothingTarget : FVector
  bIsSmoothing : Bool
  ReconciledPath : List FVector
  deriving DecidableEq, Repr

/-- The client side of one player: the owning actor, its components, its controller and the
world clock.

* `Owner` records whether `GetOwner()` is non-null, `Location` is `Owner->GetActorLocation()`;
* `WorldTime` is `GetWorld()->GetTimeSeconds()`, `none` when `GetWorld()` is null;
* `Controller` is `Cast<APocketStrikerPlayerController>(Owner->GetInstigatorController())`;
* `Profiler` is `Owner->FindComponentByClass<UPerformanceProfiler>()`. -/
structure FClient where
  Owner : Bool
  Location : FVector
  WorldTime : Option F32
  Movement : UPlayerMovementComponent
  StateMachine : UPlayerStateMachine
  Prediction : UNetworkPrediction
  Reconciler : UNetworkReconciler
  Controller : Option APocketStrikerPlayerController
  Profiler : Option UPerformanceProfiler
  deriving DecidableEq, Repr

namespace UNetworkPrediction

/-- The member `UNetworkPrediction::CaptureCurrentState`: returns the captured state and the
client after the update of the mutable `PredictedPath`. -/
def CaptureCurrentState (W : FClient) (SequenceNumber : Nat) : FPredictionState × FClient :=
  let State := { FPredictionState.init with SequenceNumber := SequenceNumber }
  let State := { State with Timestamp := match W.WorldTime with | some t => t | none => f32Zero }
  let State :=
    if W.Owner then
      let State := { State with Position := W.Location }
      let State :=
        if W.Prediction.MovementComponent then
          { State with Velocity := W.Movement.Velocity, Stamina := W.Movement.CurrentStamina }
        else State
      if W.Prediction.StateMachine then { State with State := W.StateMachine.CurrentState } else State
    else State
  let PredictedPath := W.Prediction.PredictedPath ++ [State.Position]
  let PredictedPath := if PredictedPath.length > MaxPathPoints then PredictedPath.drop 1 else PredictedPath
  (State, { W with Prediction := { W.Prediction with PredictedPath := PredictedPath } })

/-- The member `UNetworkPrediction::SavePredictionState`. -/
def SavePredictionState (W : FClient) (SequenceNumber : Nat) : FClient :=
  let (State, W) := CaptureCurrentState W SequenceNumber
  let StateHistory := W.Prediction.StateHistory ++ [State]
  let StateHistory :=
    if (StateHistory.length : Int) > W.Prediction.MaxStateHistorySize then
      let NumToRemove : Int := (StateHistory.length : Int) - W.Prediction.MaxStateHistorySize
      StateHistory.drop NumToRemove.toNat
    else StateHistory
  { W with Prediction := { W.Prediction with StateHistory := StateHistory } }

/-- The member `UNetworkPrediction::SimulateInput`. -/
def SimulateInput (E : Engine) (W : FClient) (Input : FInputPacket) (DeltaTime : F32) : FClient :=
  if !W.Prediction.MovementComponent || !W.Prediction.StateMachine then W
  else
    let Command : FInputCommand :=
      { SequenceNumber := Input.SequenceNumber, ClientTimestamp := Input.ClientTimestamp,
        MovementInput := Input.MovementInput, LookInput := Input.LookInput,
        ActionFlags := Input.ActionFlags }
    let r := W.Movement.SimulateMovement E W.Location Command DeltaTime
    let W := { W with Movement := r.Component, Location := r.Location }
    SavePredictionState W Input.SequenceNumber

end UNetworkPrediction

/-! ## NetworkReconciler.cpp -/

namespace UNetworkReconciler

/-- The member `UNetworkReconciler::NeedsReconciliation`. -/
def NeedsReconciliation (W : FClient) (ServerState : FStateUpdatePacket) : Bool :=
  if !W.Owner then false
  else
    let CurrentPosition := W.Location
    let PositionError := FVector.Dist CurrentPosition ServerState.AuthoritativePosition
    f32gt PositionError W.Reconciler.CorrectionThreshold

/-- The inputs over which the loop of `UNetworkReconciler::ReplayInputs` runs, each of which it
passes to `SimulateInput`: none when one of the guards returns early, otherwise the array
returned by `GetUnacknowledgedInputs(FromSequence)`. -/
def ReplayInputs.UnackedInputs (W : FClient) (FromSequence : Nat) : List FInputPacket :=
  if !W.Reconciler.PredictionComponent || !W.Reconciler.MovementComponent then []
  else if !W.Owner then []
  else if W.Controller.isNone then []
  else W.Prediction.GetUnacknowledgedInputs FromSequence

/-- The member `UNetworkReconciler::ReplayInputs`. -/
def ReplayInputs (E : Engine) (W : FClient) (_CorrectedPosition : FVector) (FromSequence : Nat) : FClient :=
  (ReplayInputs.UnackedInputs W FromSequence).foldl
    (fun W Input => UNetworkPrediction.SimulateInput E W Input f32OneSixtieth) W

/-- The member `UNetworkReconciler::OnServerCorrection`. -/
def OnServerCorrection (E : Engine) (W : FClient) (Correction : FStateUpdatePacket) : FClient :=
  if !W.Reconciler.PredictionComponent || !W.Reconciler.MovementComponent ||
      !W.Reconciler.StateMachine then W
  else if !W.Owner then W
  else if !NeedsReconciliation W Correction then
    match W.Controller with
    | some PC => { W with Controller := some (PC.AcknowledgeInput Correction.AcknowledgedSequence) }
    | none => W
  else
    let CurrentPosition := W.Location
    let W := { W with Reconciler :=
      { W.Reconciler with
        LastCorrectionDelta := Correction.AuthoritativePosition.sub CurrentPosition
        LastCorrectionTime := match W.WorldTime with | some t => t | none => f32Zero
        TotalCorrections := int32Increment W.Reconciler.TotalCorrections } }
    let CorrectionMagnitude := W.Reconciler.LastCorrectionDelta.Size
    let W :=
      match W.Profiler with
      | some Profiler => { W with Profiler := some (Profiler.RecordNetworkCorrection CorrectionMagnitude) }
      | none => W
    let W := { W with Location := Correction.AuthoritativePosition }
    let W := { W with Movement :=
      { W.Movement with
        Velocity := Correction.AuthoritativeVelocity
        CurrentStamina := Correction.AuthoritativeStamina } }
    let W := { W with StateMachine := { W.StateMachine with CurrentState := Correction.AuthoritativeState } }
    let W := ReplayInputs E W Correction.AuthoritativePosition Correction.AcknowledgedSequence
    let W :=
      match W.Controller with
      | some PC => { W with Controller := some (PC.AcknowledgeInput Correction.AcknowledgedSequence) }
      | none => W
    { W with Prediction := W.Prediction.ClearOldStates Correction.AcknowledgedSequence }

end UNetworkReconciler

/-! ## NetworkGameState.h / NetworkGameState.cpp -/

/-- The server-side `ACharacter` a controller possesses: its location and the components that
`FindComponentByClass` finds (`none` when the character has no such component). -/
structure ACharacter where
  Location : FVector
  MovementComponent : Option UPlayerMovementComponent
  StateMachine : Option UPlayerStateMachine
  deriving DecidableEq, Repr

/-- The engine container `TMap<Key, uint32>` with keys stood for by numbers: `Add` replaces the
value of a key that is present and appends the pair otherwise. -/
def TMap.Add (m : List (Nat × Nat)) (Key Value : Nat) : List (Nat × Nat) :=
  if m.any (fun e => e.1 == Key) then m.map (fun e => if e.1 == Key then (Key, Value) else e)
  else m ++ [(Key, Value)]

/-- The engine container member `TMap::Find`. -/
def TMap.Find (m : List (Nat × Nat)) (Key : Nat) : Option Nat :=
  (m.find? (fun e => e.1 == Key)).map (fun e => e.2)

/-- The class `ANetworkGameState` together with the part of the world it reaches: controllers
(`APocketStrikerPlayerController*`) are stood for by numbers, `Characters` gives the result of
`Controller->GetCharacter()` for the controllers that have one, and `bHasAuthority` is the result
of `HasAuthority()`. -/
structure ANetworkGameState where
  bHasAuthority : Bool
  StateUpdateRate : F32
  bEnableInputValidation : Bool
  TotalInputsProcessed : Int
  InvalidInputsRejected : Int
  TimeSinceLastUpdate : F32
  UpdateInterval : F32
  ClientAcknowledgedSequences : List (Nat × Nat)
  Characters : List (Nat × ACharacter)
  deriving DecidableEq, Repr

namespace ANetworkGameState

/-- The call `Controller->GetCharacter()`. -/
def GetCharacter (self : ANetworkGameState) (Controller : Nat) : Option ACharacter :=
  (self.Characters.find? (fun e => e.1 == Controller)).map (fun e => e.2)

/-- Writes back the state of the character of `Controller`. -/
def SetCharacter (self : ANetworkGameState) (Controller : Nat) (Character : ACharacter) :
    ANetworkGameState :=
  { self with Characters :=
      self.Characters.map (fun e => if e.1 == Controller then (Controller, Character) else e) }

/-- The member `ANetworkGameState::ValidateInput`. -/
def ValidateInput (self : ANetworkGameState) (Input : FInputPacket) : Bool :=
  if !self.bEnableInputValidation then true
  else if !Input.IsValid then false
  else if f32gt (FMath.Abs Input.MovementInput.X) f32One ||
      f32gt (FMath.Abs Input.MovementInput.Y) f32One then false
  else if f32gt (FMath.Abs Input.LookInput.X) f32One ||
      f32gt (FMath.Abs Input.LookInput.Y) f32One then false
  else
    let ValidFlags : Nat := FInputPacket.FLAG_SPRINT ||| FInputPacket.FLAG_TACKLE |||
      FInputPacket.FLAG_KICK ||| FInputPacket.FLAG_PASS
    if (Input.ActionFlags &&& (4294967295 - ValidFlags)) != 0 then false
    else true

/-- The member `ANetworkGameState::ProcessClientInput`; a null `Controller` is `none`. -/
def ProcessClientInput (E : Engine) (self : ANetworkGameState) (Controller : Option Nat)
    (Input : FInputPacket) : ANetworkGameState :=
  match Controller with
  | none => self
  | some Controller =>
    if !self.bHasAuthority then self
    else if !self.ValidateInput Input then
      { self with InvalidInputsRejected := int32Increment self.InvalidInputsRejected }
    else
      let self := { self with TotalInputsProcessed := int32Increment self.TotalInputsProcessed }
      match self.GetCharacter Controller with
      | none => self
      | some Character =>
        match Character.MovementComponent with
        | none => self
        | some MovementComp =>
          let Command : FInputCommand :=
            { SequenceNumber := Input.SequenceNumber, ClientTimestamp := Input.ClientTimestamp,
              MovementInput := Input.MovementInput, LookInput := Input.LookInput,
              ActionFlags := Input.ActionFlags }
          let DeltaTime := self.UpdateInterval
          let r := MovementComp.SimulateMovement E Character.Location Command DeltaTime
          let self := self.SetCharacter Controller
            { Character with Location := r.Location, MovementComponent := some r.Component }
          { self with ClientAcknowledgedSequences :=
              TMap.Add self.ClientAcknowledgedSequences Controller Input.SequenceNumber }

end ANetworkGameState

/-! ## Sample data -/

/-- An input packet with axes on the boundary of the accepted range and a stale checksum. -/
def sampleInput : FInputPacket :=
  { SequenceNumber := 7, ClientTimestamp := 0x3F000000,
    MovementInput := { X := f32One, Y := f32NegOne },
    LookInput := { X := 0x80000000, Y := 0x3E800000 },
    ActionFlags := 5, Checksum := 123456 }

/-- A state update with stamina 150 and state 2 and a stale checksum. -/
def sampleUpdate : FStateUpdatePacket :=
  { AcknowledgedSequence := 41, ServerTimestamp := 0x41200000,
    AuthoritativePosition := { X := 0x41A00000, Y := 0, Z := 0xC2C80000 },
    AuthoritativeVelocity := { X := 0x44160000, Y := 0x80000000, Z := 0 },
    AuthoritativeState := 2, AuthoritativeStamina := 0x43160000, Checksum := 99 }

/-- The default constructor of `FInputPacket`. -/
def FInputPacket.init : FInputPacket :=
  { SequenceNumber := 0, ClientTimestamp := f32Zero, MovementInput := FVector2D.ZeroVector,
    LookInput := FVector2D.ZeroVector, ActionFlags := 0, Checksum := 0 }

/-- The default constructor of `FStateUpdatePacket`. -/
def FStateUpdatePacket.init : FStateUpdatePacket :=
  { AcknowledgedSequence := 0, ServerTimestamp := f32Zero,
    AuthoritativePosition := FVector.ZeroVector, AuthoritativeVelocity := FVector.ZeroVector,
    AuthoritativeState := 0, AuthoritativeStamina := 0x42C80000, Checksum := 0 }

/-- The state update `sampleUpdate` with a NaN in the stamina field and the checksum that
`CalculateChecksum` gives for it. -/
def nanStaminaUpdate : FStateUpdatePacket :=
  { sampleUpdate with AuthoritativeStamina := 0x7FC00000, Checksum := 2040397867 }

/-- An input packet with bit 4 of the action flags set, neutral axes and a matching checksum. -/
def unknownFlagInput : FInputPacket :=
  { SequenceNumber := 1, ClientTimestamp := f32Zero, MovementInput := FVector2D.ZeroVector,
    LookInput := FVector2D.ZeroVector, ActionFlags := 16, Checksum := 17 }

/-! ## Auxiliary definitions for the statements -/

/-- Little-endian bytes of a 32-bit value. -/
def bytes32 (v : Nat) : List Nat := [v % 256, v / 256 % 256, v / 65536 % 256, v / 16777216 % 256]

/-- Value a loading archive reads back from the bytes of `v`. -/
def reread32 (v : Nat) : Nat :=
  v % 256 % 256 + 256 * (v / 256 % 256 % 256) + 65536 * (v / 65536 % 256 % 256) +
    16777216 * (v / 16777216 % 256 % 256)

/-- The range check of the spec on an axis or on the stamina: `lo <= x` and `x <= hi`. -/
def f32InRange (lo hi x : F32) : Prop := f32le lo x = true ∧ f32le x hi = true

instance (lo hi x : F32) : Decidable (f32InRange lo hi x) := by
  unfold f32InRange; infer_instance

/-- All four axes of an input packet lie in `[-1, 1]`. -/
def FInputPacket.AxesInRange (p : FInputPacket) : Prop :=
  f32InRange f32NegOne f32One p.MovementInput.X ∧ f32InRange f32NegOne f32One p.MovementInput.Y ∧
  f32InRange f32NegOne f32One p.LookInput.X ∧ f32InRange f32NegOne f32One p.LookInput.Y

instance (p : FInputPacket) : Decidable p.AxesInRange := by
  unfold FInputPacket.AxesInRange; infer_instance

/-- Some axis of an input packet is below `-1` or above `1`. -/
def FInputPacket.AxisOutOfRange (p : FInputPacket) : Prop :=
  f32lt p.MovementInput.X f32NegOne = true ∨ f32gt p.MovementInput.X f32One = true ∨
  f32lt p.MovementInput.Y f32NegOne = true ∨ f32gt p.MovementInput.Y f32One = true ∨
  f32lt p.LookInput.X f32NegOne = true ∨ f32gt p.LookInput.X f32One = true ∨
  f32lt p.LookInput.Y f32NegOne = true ∨ f32gt p.LookInput.Y f32One = true

instance (p : FInputPacket) : Decidable p.AxisOutOfRange := by
  unfold FInputPacket.AxisOutOfRange; infer_instance

/-- Some bit of the action flags is set outside bits 0 to 3. -/
def FInputPacket.HasUnknownFlag (p : FInputPacket) : Prop :=
  ∃ i, 4 ≤ i ∧ p.ActionFlags.testBit i = true


/-- The conversion of an `FInputPacket` to an `FInputCommand` that `SimulateInput` and
`ProcessClientInput` write out field by field. -/
def FInputPacket.ToCommand (Input : FInputPacket) : FInputCommand :=
  { SequenceNumber := Input.SequenceNumber, ClientTimestamp := Input.ClientTimestamp,
    MovementInput := Input.MovementInput, LookInput := Input.LookInput,
    ActionFlags := Input.ActionFlags }

/-- A movement component as its constructor and the header defaults leave it, attached to an
updated component. -/
def sampleMovement : UPlayerMovementComponent :=
  { UpdatedComponent := true, Velocity := FVector.ZeroVector, CurrentStamina := 0x42C80000,
    MaxWalkSpeed := 0x44160000, MaxAcceleration := 0x44FA0000,
    BrakingDecelerationWalking := 0x457A0000, MaxSprintSpeed := 0x44610000,
    MaxStamina := 0x42C80000, SprintStaminaCostPerSecond := 0x41A00000,
    StaminaRegenRate := 0x41700000, bIsSprinting := false }

/-- A server with one connected controller (number 1) that has a character. -/
def sampleGameState : ANetworkGameState :=
  { bHasAuthority := true, StateUpdateRate := 0x42700000, bEnableInputValidation := true,
    TotalInputsProcessed := 3, InvalidInputsRejected := 1, TimeSinceLastUpdate := f32Zero,
    UpdateInterval := f32OneSixtieth, ClientAcknowledgedSequences := [(1, 5)],
    Characters := [(1, { Location := FVector.ZeroVector, MovementComponent := some sampleMovement,
                         StateMachine := some { CurrentState := 0 } })] }

/-! ### The stages of `SimulateMovement`

The body of `SimulateMovement` cut into its consecutive parts, for the proofs. -/

/-- The input direction: the first statements of `SimulateMovement`. -/
def SimulateMovementInputVector (E : Engine) (Input : FInputCommand) : FVector :=
  let InputVector : FVector := { X := Input.MovementInput.Y, Y := Input.MovementInput.X, Z := f32Zero }
  if f32gt InputVector.SizeSquared f32One then InputVector.Normalize E else InputVector

/-- The sprint decision of `SimulateMovement`: the component after it and `TargetSpeed`. -/
def SimulateMovementSprint (self : UPlayerMovementComponent) (Input : FInputCommand)
    (DeltaTime : F32) : UPlayerMovementComponent × F32 :=
  let self := { self with bIsSprinting := (Input.ActionFlags &&& FInputCommand.FLAG_SPRINT) != 0 }
  let TargetSpeed := self.MaxWalkSpeed
  if self.bIsSprinting && f32gt self.CurrentStamina f32Zero then
    (self.ConsumeStamina (f32mul self.SprintStaminaCostPerSecond DeltaTime), self.MaxSprintSpeed)
  else
    ({ self with bIsSprinting := false }, TargetSpeed)

/-- The velocity update of `SimulateMovement`: acceleration toward the desired velocity, then the
clamp to the target speed. -/
def SimulateMovementAccelerate (E : Engine) (self : UPlayerMovementComponent)
    (InputVector : FVector) (TargetSpeed DeltaTime : F32) : UPlayerMovementComponent :=
  let DesiredVelocity := InputVector.scale TargetSpeed
  let CurrentVelocity := self.Velocity
  let VelocityDelta := DesiredVelocity.sub CurrentVelocity
  let AccelRate :=
    if f32gt InputVector.SizeSquared f32Zero then self.MaxAcceleration else self.BrakingDecelerationWalking
  let MaxVelocityChange := f32mul AccelRate DeltaTime
  let VelocityDelta :=
    if f32gt VelocityDelta.SizeSquared (f32mul MaxVelocityChange MaxVelocityChange) then
      (VelocityDelta.GetSafeNormal E).scale MaxVelocityChange
    else VelocityDelta
  let self := { self with Velocity := CurrentVelocity.add VelocityDelta }
  if f32gt self.Velocity.SizeSquared (f32mul TargetSpeed TargetSpeed) then
    { self with Velocity := (self.Velocity.GetSafeNormal E).scale TargetSpeed }
  else self

/-- The end of `SimulateMovement`: `Delta` and its application to the location. -/
def SimulateMovementMove (E : Engine) (self : UPlayerMovementComponent) (Location : FVector)
    (DeltaTime : F32) : FSimulateMovementResult :=
  let Delta := self.Velocity.scale DeltaTime
  if !Delta.IsNearlyZero then
    let Moved := E.SafeMoveUpdatedComponent Location Delta
    let Location := Moved.1
    let Hit := Moved.2
    if Hit.IsValidBlockingHit then
      { Component := self,
        Location := E.SlideAlongSurface Location Delta (f32sub f32One Hit.Time) Hit.Normal Hit,
        Delta := some Delta }
    else { Component := self, Location := Location, Delta := some Delta }
  else { Component := self, Location := Location, Delta := some Delta }

/-! ### The stages of `OnServerCorrection`

The above-threshold path of `OnServerCorrection` cut into the part before the replay and the part
after it, for the proofs. -/

/-- The part of `OnServerCorrection` from the computation of the correction delta to the
application of the server state. -/
def OnServerCorrectionSnap (W : FClient) (Correction : FStateUpdatePacket) : FClient :=
  let CurrentPosition := W.Location
  let W := { W with Reconciler :=
    { W.Reconciler with
      LastCorrectionDelta := Correction.AuthoritativePosition.sub CurrentPosition
      LastCorrectionTime := match W.WorldTime with | some t => t | none => f32Zero
      TotalCorrections := int32Increment W.Reconciler.TotalCorrections } }
  let CorrectionMagnitude := W.Reconciler.LastCorrectionDelta.Size
  let W :=
    match W.Profiler with
    | some Profiler => { W with Profiler := some (Profiler.RecordNetworkCorrection CorrectionMagnitude) }
    | none => W
  let W := { W with Location := Correction.AuthoritativePosition }
  let W := { W with Movement :=
    { W.Movement with
      Velocity := Correction.AuthoritativeVelocity
      CurrentStamina := Correction.AuthoritativeStamina } }
  { W with StateMachine := { W.StateMachine with CurrentState := Correction.AuthoritativeState } }

/-- The part of `OnServerCorrection` after the replay: the acknowledgement and the clean-up of the
prediction history. -/
def OnServerCorrectionFinish (W : FClient) (Correction : FStateUpdatePacket) : FClient :=
  let W :=
    match W.Controller with
    | some PC => { W with Controller := some (PC.AcknowledgeInput Correction.AcknowledgedSequence) }
    | none => W
  { W with Prediction := W.Prediction.ClearOldStates Correction.AcknowledgedSequence }

/-- One replay step on the kinematic pair (movement component, actor location): the call of
`SimulateMovement` that `SimulateInput` makes with the fixed step of `ReplayInputs`. -/
def ReplayStep (E : Engine) (s : UPlayerMovementComponent × FVector) (Input : FInputPacket) :
    UPlayerMovementComponent × FVector :=
  ((s.1.SimulateMovement E s.2 Input.ToCommand f32OneSixtieth).Component,
    (s.1.SimulateMovement E s.2 Input.ToCommand f32OneSixtieth).Location)

/-- The sequence numbers of a list of inputs increase strictly from each input to the next. -/
def StrictlyAscending : List FInputPacket → Prop
  | a :: b :: rest => a.SequenceNumber < b.SequenceNumber ∧ StrictlyAscending (b :: rest)
  | _ => True

/-- Decision procedure for `StrictlyAscending`. -/
def StrictlyAscending.decide : (l : List FInputPacket) → Decidable (StrictlyAscending l)
  | [] => isTrue trivial
  | [_] => isTrue trivial
  | a :: b :: rest =>
    match StrictlyAscending.decide (b :: rest) with
    | isTrue h =>
      if hab : a.SequenceNumber < b.SequenceNumber then isTrue ⟨hab, h⟩
      else isFalse (fun hc => hab hc.1)
    | isFalse h => isFalse (fun hc => h hc.2)

instance (l : List FInputPacket) : Decidable (StrictlyAscending l) := StrictlyAscending.decide l

/-- A prediction component with three buffered inputs (sequences 41, 42, 43). -/
def samplePrediction : UNetworkPrediction :=
  { MaxInputBufferSize := 128, MaxStateHistorySize := 128,
    InputBuffer := [{ sampleInput with SequenceNumber := 41 },
                    { sampleInput with SequenceNumber := 42 },
                    { sampleInput with SequenceNumber := 43 }],
    StateHistory := [], CurrentSequence := 0, MovementComponent := true, StateMachine := true,
    PredictedPath := [] }

/-- A reconciler with the default threshold of 10 units and all its component pointers set. -/
def sampleReconciler : UNetworkReconciler :=
  { CorrectionThreshold := f32Ten, SmoothingSpeed := f32Ten, bEnableSmoothing := true,
    LastCorrectionDelta := FVector.ZeroVector, LastCorrectionTime := f32Zero, TotalCorrections := 0,
    PredictionComponent := true, MovementComponent := true, StateMachine := true,
    SmoothingTarget := FVector.ZeroVector, bIsSmoothing := false, ReconciledPath := [] }

/-- A fully wired client standing at the origin. -/
def sampleClient : FClient :=
  { Owner := true, Location := FVector.ZeroVector, WorldTime := some f32Ten,
    Movement := sampleMovement, StateMachine := { CurrentState := 1 },
    Prediction := samplePrediction, Reconciler := sampleReconciler,
    Controller := some { InputBuffer := [], CurrentInputSequence := 43,
                         LastAcknowledgedSequence := 40, bIsSprintPressed := false },
    Profiler := none }

/-- A state update that places the player at the given position. -/
def updateAt (X Y Z : F32) : FStateUpdatePacket :=
  { sampleUpdate with AuthoritativePosition := { X := X, Y := Y, Z := Z } }

/-- Two inputs created out of order: sequence 5, then sequence 3. -/
def outOfOrderInputs : List FInputPacket :=
  [{ sampleInput with SequenceNumber := 5 }, { sampleInput with SequenceNumber := 3 }]

/-- Four inputs with the sequence numbers 1, 2, 3, 5. -/
def sparseInputs : List FInputPacket :=
  [{ sampleInput with SequenceNumber := 1 }, { sampleInput with SequenceNumber := 2 },
   { sampleInput with SequenceNumber := 3 }, { sampleInput with SequenceNumber := 5 }]

/-- A controller that still holds the commands 40 and 42 in its own input buffer. -/
def busyController : APocketStrikerPlayerController :=
  { InputBuffer := [{ sampleInput.ToCommand with SequenceNumber := 40 },
                    { sampleInput.ToCommand with SequenceNumber := 42 }],
    CurrentInputSequence := 43, LastAcknowledgedSequence := 40, bIsSprintPressed := false }

/-- A state update that acknowledges sequence 41 and places the player 5 units from the origin,
within the default threshold of 10 units. -/
def nearUpdate : FStateUpdatePacket := updateAt 0x40A00000 f32Zero f32Zero

/-- Three prediction snapshots with the sequence numbers 4, 5, 6. -/
def sampleHistory : List FPredictionState :=
  [{ FPredictionState.init with SequenceNumber := 4 },
   { FPredictionState.init with SequenceNumber := 5 },
   { FPredictionState.init with SequenceNumber := 6 }]

/-- The last `k` elements of a list, in their order (the whole list when it has fewer). -/
def lastElements {α : Type} (k : Nat) (l : List α) : List α := l.drop (l.length - k)

/-- The numbers of a list increase strictly from each one to the next. -/
def StrictlyIncreasing : List Nat → Prop
  | a :: b :: rest => a < b ∧ StrictlyIncreasing (b :: rest)
  | _ => True

/-- Decision procedure for `StrictlyIncreasing`. -/
def StrictlyIncreasing.decide : (l : List Nat) → Decidable (StrictlyIncreasing l)
  | [] => isTrue trivial
  | [_] => isTrue trivial
  | a :: b :: rest =>
    match StrictlyIncreasing.decide (b :: rest) with
    | isTrue h =>
      if hab : a < b then isTrue ⟨hab, h⟩
      else isFalse (fun hc => hab hc.1)
    | isFalse h => isFalse (fun hc => h hc.2)

instance (l : List Nat) : Decidable (StrictlyIncreasing l) := StrictlyIncreasing.decide l

/-- The sequence numbers of a prediction history, in storage order. -/
def historySequences (W : FClient) : List Nat :=
  W.Prediction.StateHistory.map (fun State => State.SequenceNumber)

/-- A fully wired client at the origin whose predictor has an empty input buffer and an empty
history. -/
def freshClient : FClient :=
  { sampleClient with Prediction := { samplePrediction with InputBuffer := [] } }

/-- One predicted frame as the owner of the predictor drives it: the input is buffered with
`BufferInput` and then simulated with `SimulateInput` at the fixed step. -/
def bufferAndSimulate (E : Engine) (W : FClient) (Input : FInputPacket) : FClient :=
  UNetworkPrediction.SimulateInput E
    { W with Prediction := W.Prediction.BufferInput Input } Input f32OneSixtieth

/-- The `freshClient` after it has buffered and simulated the inputs 1, 2 and 3. -/
def clientAfterThreeInputs : FClient :=
  [{ sampleInput with SequenceNumber := 1 }, { sampleInput with SequenceNumber := 2 },
   { sampleInput with SequenceNumber := 3 }].foldl (bufferAndSimulate Engine.openField) freshClient

/-- A state update that acknowledges sequence 1 and lies far from the predicted position. -/
def ackOneUpdate : FStateUpdatePacket := { sampleUpdate with AcknowledgedSequence := 1 }

/-! ## NetworkInterpolation.h / NetworkInterpolation.cpp -/

/-- The C++ comparison `a >= b` on floats. -/
def f32ge (a b : F32) : Bool := f32le b a

/-- The engine call `FMath::Clamp` on floats: `X < Min ? Min : X < Max ? X : Max`. -/
def FMath.Clamp (X Min Max : F32) : F32 :=
  if f32lt X Min then Min else if f32lt X Max then X else Max

/-- The engine call `FMath::Lerp` on vectors: `A + Alpha * (B - A)`. -/
def FMath.Lerp (A B : FVector) (Alpha : F32) : FVector := A.add ((B.sub A).scale Alpha)

/-- The element access `TArray::operator[]`, which checks its index: `none` when the index is out
of range. -/
def TArray.Get {α : Type} (A : List α) (Index : Int) : Option α :=
  if 0 ≤ Index then A[Index.toNat]? else none

/-- The class `UNetworkInterpolation`. -/
structure UNetworkInterpolation where
  InterpolationDelay : F32
  MaxBufferSize : Int
  bEnableExtrapolation : Bool
  CurrentBufferSize : Int
  TimeSinceLastPacket : F32
  StateBuffer : List FStateUpdatePacket
  LastPacketTime : F32
  CurrentRenderTime : F32
  deriving DecidableEq, Repr

namespace UNetworkInterpolation

/-- The member `UNetworkInterpolation::TrimOldStates`. -/
def TrimOldStates (self : UNetworkInterpolation) : UNetworkInterpolation :=
  if (self.StateBuffer.length : Int) ≤ self.MaxBufferSize then self
  else
    let NumToRemove : Int := (self.StateBuffer.length : Int) - self.MaxBufferSize
    { self with StateBuffer := self.StateBuffer.drop NumToRemove.toNat }

/-- The member `UNetworkInterpolation::AddServerState`.

`SortBuffer` is the rearrangement that the engine call `TArray::Sort` makes of the buffer under the
predicate `A.ServerTimestamp < B.ServerTimestamp`; the algorithm belongs to the engine, so it is a
parameter (what is assumed of it is `IsTimestampSort`).  `WorldTime` is
`GetWorld()->GetTimeSeconds()`, `none` when `GetWorld()` is null. -/
def AddServerState (SortBuffer : List FStateUpdatePacket → List FStateUpdatePacket)
    (WorldTime : Option F32) (self : UNetworkInterpolation) (State : FStateUpdatePacket) :
    UNetworkInterpolation :=
  let self := { self with StateBuffer := self.StateBuffer ++ [State] }
  let self :=
    match WorldTime with
    | some t => { self with LastPacketTime := t }
    | none => self
  let self := { self with StateBuffer := SortBuffer self.StateBuffer }
  self.TrimOldStates

/-- The search loop of `GetInterpolationStates` at index `i` with `n` iterations left: the index
at which the loop breaks (`none` when it runs to its end), or `none` at the outer level when an
element access is out of range. -/
def GetInterpolationStates.Loop (StateBuffer : List FStateUpdatePacket) (TargetTime : F32) :
    Nat → Nat → Option (Option Nat)
  | 0, _ => some none
  | n + 1, i =>
    match TArray.Get StateBuffer i with
    | none => none
    | some A =>
      if f32le A.ServerTimestamp TargetTime then
        match TArray.Get StateBuffer ((i : Int) + 1) with
        | none => none
        | some B =>
          if f32ge B.ServerTimestamp TargetTime then some (some i)
          else GetInterpolationStates.Loop StateBuffer TargetTime n (i + 1)
      else GetInterpolationStates.Loop StateBuffer TargetTime n (i + 1)

/-- The member `UNetworkInterpolation::GetInterpolationStates`: returns `OutFrom`, `OutTo` and
`OutAlpha`, or `none` when an element access is out of range. -/
def GetInterpolationStates (self : UNetworkInterpolation) (RenderTime : F32) :
    Option (FStateUpdatePacket × FStateUpdatePacket × F32) :=
  let TargetTime := f32sub RenderTime self.InterpolationDelay
  match GetInterpolationStates.Loop self.StateBuffer TargetTime
      ((self.StateBuffer.length : Int) - 1).toNat 0 with
  | none => none
  | some Found =>
    let FromIndex : Int := match Found with | some i => (i : Int) | none => 0
    let ToIndex : Int :=
      match Found with
      | some i => (i : Int) + 1
      | none => min 1 ((self.StateBuffer.length : Int) - 1)
    match TArray.Get self.StateBuffer FromIndex, TArray.Get self.StateBuffer ToIndex with
    | some OutFrom, some OutTo =>
      let TimeDiff := f32sub OutTo.ServerTimestamp OutFrom.ServerTimestamp
      let OutAlpha :=
        if f32gt TimeDiff f32Zero then
          FMath.Clamp (f32div (f32sub TargetTime OutFrom.ServerTimestamp) TimeDiff) f32Zero f32One
        else f32Zero
      some (OutFrom, OutTo, OutAlpha)
    | _, _ => none

/-- The member `UNetworkInterpolation::GetInterpolatedPosition`: `none` when an element access is
out of range. -/
def GetInterpolatedPosition (self : UNetworkInterpolation) (RenderTime : F32) : Option FVector :=
  if self.StateBuffer.length = 0 then some FVector.ZeroVector
  else if self.StateBuffer.length = 1 then
    (TArray.Get self.StateBuffer 0).map (fun State => State.AuthoritativePosition)
  else
    (self.GetInterpolationStates RenderTime).map
      (fun r => FMath.Lerp r.1.AuthoritativePosition r.2.1.AuthoritativePosition r.2.2)

/-- The member `UNetworkInterpolation::GetInterpolatedVelocity`: `none` when an element access is
out of range. -/
def GetInterpolatedVelocity (self : UNetworkInterpolation) (RenderTime : F32) : Option FVector :=
  if self.StateBuffer.length = 0 then some FVector.ZeroVector
  else if self.StateBuffer.length = 1 then
    (TArray.Get self.StateBuffer 0).map (fun State => State.AuthoritativeVelocity)
  else
    (self.GetInterpolationStates RenderTime).map
      (fun r => FMath.Lerp r.1.AuthoritativeVelocity r.2.1.AuthoritativeVelocity r.2.2)

/-- The member `UNetworkInterpolation::ExtrapolatePosition`: `none` when `Last()` is called on an
empty array. -/
def ExtrapolatePosition (self : UNetworkInterpolation) (DeltaTime : F32) : Option FVector :=
  if !self.bEnableExtrapolation || self.StateBuffer.length = 0 then some FVector.ZeroVector
  else
    self.StateBuffer.getLast?.map (fun LatestState =>
      LatestState.AuthoritativePosition.add (LatestState.AuthoritativeVelocity.scale DeltaTime))

end UNetworkInterpolation

/-! ### Sorting by time stamp -/

/-- A buffer is sorted ascending by `ServerTimestamp`: each entry's time stamp is at most that of
the next entry. -/
def TimestampAscending : List FStateUpdatePacket → Prop
  | A :: B :: rest =>
    f32le A.ServerTimestamp B.ServerTimestamp = true ∧ TimestampAscending (B :: rest)
  | _ => True

/-- Decision procedure for `TimestampAscending`. -/
def TimestampAscending.decide : (l : List FStateUpdatePacket) → Decidable (TimestampAscending l)
  | [] => isTrue trivial
  | [_] => isTrue trivial
  | A :: B :: rest =>
    match TimestampAscending.decide (B :: rest) with
    | isTrue h =>
      if hab : f32le A.ServerTimestamp B.ServerTimestamp = true then isTrue ⟨hab, h⟩
      else isFalse (fun hc => hab hc.1)
    | isFalse h => isFalse (fun hc => h hc.2)

instance (l : List FStateUpdatePacket) : Decidable (TimestampAscending l) :=
  TimestampAscending.decide l

/-- What the model assumes of the engine's `TArray::Sort` under the predicate of `AddServerState`:
it rearranges the array, and when no time stamp is a NaN (the predicate is then a strict weak
order) the result is sorted ascending by `ServerTimestamp`. -/
def IsTimestampSort (SortBuffer : List FStateUpdatePacket → List FStateUpdatePacket) : Prop :=
  (∀ l, (SortBuffer l).Perm l) ∧
  (∀ l, (∀ s ∈ l, f32IsNaN s.ServerTimestamp = false) → TimestampAscending (SortBuffer l))

/-- Insertion of a state in front of the first entry with a greater time stamp. -/
def insertByTimestamp (State : FStateUpdatePacket) :
    List FStateUpdatePacket → List FStateUpdatePacket
  | [] => [State]
  | A :: rest =>
    if f32lt State.ServerTimestamp A.ServerTimestamp then State :: A :: rest
    else A :: insertByTimestamp State rest

/-- A sorting function for the predicate `A.ServerTimestamp < B.ServerTimestamp`: insertion sort. -/
def sortByTimestamp : List FStateUpdatePacket → List FStateUpdatePacket
  | [] => []
  | A :: rest => insertByTimestamp A (sortByTimestamp rest)

/-- A state update with the given time stamp and position. -/
def stateAt (ServerTimestamp : F32) (Position : FVector) : FStateUpdatePacket :=
  { sampleUpdate with ServerTimestamp := ServerTimestamp, AuthoritativePosition := Position }

/-- An interpolation component with the default configuration (delay 0.1 s, 32 entries) and an
empty buffer. -/
def sampleInterpolation : UNetworkInterpolation :=
  { InterpolationDelay := 0x3DCCCCCD, MaxBufferSize := 32, bEnableExtrapolation := true,
    CurrentBufferSize := 0, TimeSinceLastPacket := f32Zero, StateBuffer := [],
    LastPacketTime := f32Zero, CurrentRenderTime := f32Zero }

/-- An interpolation component without delay that holds a state at t = 0 with position (0,0,0)
and a state at t = 1 with position (10,0,0). -/
def twoStateInterpolation : UNetworkInterpolation :=
  { sampleInterpolation with
    InterpolationDelay := f32Zero
    StateBuffer := [stateAt f32Zero FVector.ZeroVector,
                    stateAt f32One { X := f32Ten, Y := f32Zero, Z := f32Zero }] }

/-- A two-state interpolation component that is full: its capacity is 2. -/
def fullInterpolation : UNetworkInterpolation := { twoStateInterpolation with MaxBufferSize := 2 }

/-- An interpolation component without delay that holds a state at the most negative finite time
stamp with position (0,0,0) and a state at the greatest finite time stamp with position
(10,0,0). -/
def extremeInterpolation : UNetworkInterpolation :=
  { sampleInterpolation with
    InterpolationDelay := f32Zero
    StateBuffer := [stateAt 0xFF7FFFFF FVector.ZeroVector,
                    stateAt 0x7F7FFFFF { X := f32Ten, Y := f32Zero, Z := f32Zero }] }

/-- The interpolation factor that `GetInterpolationStates` computes from the target time and the
time stamps of `OutFrom` and `OutTo` (its last statements). -/
def interpolationAlpha (TargetTime FromTime ToTime : F32) : F32 :=
  if f32gt (f32sub ToTime FromTime) f32Zero then
    FMath.Clamp (f32div (f32sub TargetTime FromTime) (f32sub ToTime FromTime)) f32Zero f32One
  else f32Zero

/-- The fields that `FInputPacket::CalculateChecksum` hashes, as 32-bit patterns in the order of
the hashing statements. -/
def FInputPacket.ChecksummedFields (p : FInputPacket) : List Nat :=
  [p.SequenceNumber, p.ClientTimestamp, p.MovementInput.X, p.MovementInput.Y, p.LookInput.X,
   p.LookInput.Y, p.ActionFlags]

/-- The fields that `FStateUpdatePacket::CalculateChecksum` hashes, as 32-bit patterns in the
order of the hashing statements (the `uint8` state zero-extended). -/
def FStateUpdatePacket.ChecksummedFields (s : FStateUpdatePacket) : List Nat :=
  [s.AcknowledgedSequence, s.ServerTimestamp, s.AuthoritativePosition.X,
   s.AuthoritativePosition.Y, s.AuthoritativePosition.Z, s.AuthoritativeVelocity.X,
   s.AuthoritativeVelocity.Y, s.AuthoritativeVelocity.Z, s.AuthoritativeState,
   s.AuthoritativeStamina]

/-- Two lists of field values agree everywhere except at exactly one position, where the values
differ. -/
def DifferInOneField (l1 l2 : List Nat) : Prop :=
  ∃ (before : List Nat) (x y : Nat) (after : List Nat),
    x ≠ y ∧ l1 = before ++ x :: after ∧ l2 = before ++ y :: after

/-- The packet `sampleInput` with its checksum set, which passes validation. -/
def validInput : FInputPacket := { sampleInput with Checksum := sampleInput.CalculateChecksum }

/-- The statements of `UPlayerMovementComponent::TickComponent` that follow the call of the base
class member (which belongs to the engine): stamina regenerates when not sprinting. -/
def UPlayerMovementComponent.TickComponent (self : UPlayerMovementComponent) (DeltaTime : F32) :
    UPlayerMovementComponent :=
  if !self.bIsSprinting then self.RegenerateStamina DeltaTime else self

/-- An input command with the sprint flag set and the stick pushed forward. -/
def sprintCommand : FInputCommand :=
  { SequenceNumber := 1, ClientTimestamp := f32Zero,
    MovementInput := { X := f32Zero, Y := f32One }, LookInput := { X := f32Zero, Y := f32Zero },
    ActionFlags := FInputCommand.FLAG_SPRINT }

/-- An input command without any action flag and the stick pushed forward. -/
def walkCommand : FInputCommand := { sprintCommand with ActionFlags := 0 }

/-- A movement component with a quarter unit of stamina left, less than one sprinting step at
1/60 s costs. -/
def tiredMovement : UPlayerMovementComponent := { sampleMovement with CurrentStamina := 0x3E800000 }

/-- A movement component with the stamina at half of its maximum. -/
def halfStaminaMovement : UPlayerMovementComponent :=
  { sampleMovement with CurrentStamina := 0x42480000 }

/-- Whether the rounding of `z` with `d` discarded digits goes up (round to nearest even). -/
def f32RoundUp (z d : Nat) : Bool :=
  decide (1 ≤ d) &&
    (decide (2 ^ (d - 1) < z % 2 ^ d) || (decide (z % 2 ^ d = 2 ^ (d - 1)) && z / 2 ^ d % 2 == 1))

/-- Exponent and mantissa bits of `z` units of `2 ^ (-149)` rounded to 24 digits, before the
overflow check. -/
def f32RoundBits (z : Nat) : Nat :=
  let d := bitLength 512 z - 24
  d * 8388608 + (if f32RoundUp z d then z / 2 ^ d + 1 else z / 2 ^ d)

/-- Magnitude bits of the binary32 value nearest to `z` units of `2 ^ (-149)`. -/
def f32RoundMag (z : Nat) : Nat :=
  if z = 0 then 0
  else if 0x7F800000 ≤ f32RoundBits z then 0x7F800000 else f32RoundBits z

/-- A finite pattern as a number of units of `2 ^ (-149)`. -/
def f32Units (a : F32) : Nat := f32Sig a * 2 ^ f32Scale a

/-- Magnitude of a pattern that is not a NaN as a number of units of `2 ^ (-149)`; an infinity
counts as `2 ^ 300` units, beyond everything that rounds to a finite value. -/
def f32ExtUnits (a : F32) : Nat := if f32IsInf a then 2 ^ 300 else f32Units a

/-- Signed number of units of `2 ^ (-149)` that a pattern stands for. -/
def f32Val (a : F32) : Int :=
  if f32Sign a then -((f32ExtUnits a : Nat) : Int) else ((f32ExtUnits a : Nat) : Int)

/-- Order key of the binary32 value nearest to `v` units of `2 ^ (-149)`. -/
def f32RoundInt (v : Int) : Int :=
  if v < 0 then -((f32RoundMag (-v).toNat : Nat) : Int) else ((f32RoundMag v.toNat : Nat) : Int)

/-- The stamina invariant of the movement component: `0 <= CurrentStamina <= MaxStamina`. -/
def UPlayerMovementComponent.StaminaInRange (self : UPlayerMovementComponent) : Prop :=
  f32le f32Zero self.CurrentStamina = true ∧ f32le self.CurrentStamina self.MaxStamina = true

instance (self : UPlayerMovementComponent) : Decidable self.StaminaInRange := by
  unfold UPlayerMovementComponent.StaminaInRange; infer_instance

/-- The sample component with a stamina regeneration rate of zero. -/
def noRegenMovement : UPlayerMovementComponent := { sampleMovement with StaminaRegenRate := f32Zero }

/-- The bit pattern of positive infinity. -/
def f32Infinity : F32 := 0x7F800000

/-- No component of the vector is a NaN. -/
def FVector.NoNaN (a : FVector) : Prop :=
  f32IsNaN a.X = false ∧ f32IsNaN a.Y = false ∧ f32IsNaN a.Z = false

instance (a : FVector) : Decidable a.NoNaN := by
  unfold FVector.NoNaN; infer_instance

/-- Every component of the vector is finite: neither a NaN nor an infinity. -/
def FVector.IsFinite (a : FVector) : Prop :=
  a.NoNaN ∧ f32IsInf a.X = false ∧ f32IsInf a.Y = false ∧ f32IsInf a.Z = false

instance (a : FVector) : Decidable a.IsFinite := by
  unfold FVector.IsFinite; infer_instance

/-- The operator `FVector == FVector`: the components compare equal as floats. -/
def FVector.EqualTo (a b : FVector) : Prop :=
  f32eq a.X b.X = true ∧ f32eq a.Y b.Y = true ∧ f32eq a.Z b.Z = true

instance (a b : FVector) : Decidable (a.EqualTo b) := by
  unfold FVector.EqualTo; infer_instance

/-- A state update at t = 1 with position (10,0,0) whose velocity has an infinite X component. -/
def infiniteVelocityState : FStateUpdatePacket :=
  { stateAt f32One { X := f32Ten, Y := f32Zero, Z := f32Zero } with
    AuthoritativeVelocity := { X := f32Infinity, Y := f32Zero, Z := f32Zero } }

/-- A state update at t = 10 with position (10,0,0) and velocity (200,0,0). -/
def movingState : FStateUpdatePacket :=
  { stateAt f32Ten { X := f32Ten, Y := f32Zero, Z := f32Zero } with
    AuthoritativeVelocity := { X := f32TwoHundred, Y := f32Zero, Z := f32Zero } }

/-- An interpolation component without delay that holds a state at t = 0 with position (600,0,0)
and a state at t = 1 with position (0.1,0,0). -/
def unevenInterpolation : UNetworkInterpolation :=
  { sampleInterpolation with
    InterpolationDelay := f32Zero
    StateBuffer := [stateAt f32Zero { X := 0x44160000, Y := f32Zero, Z := f32Zero },
                    stateAt f32One { X := 0x3DCCCCCD, Y := f32Zero, Z := f32Zero }] }

/-- The sample Input Packet with a NaN on the X axis of the movement input and the checksum of
its fields. -/
def nanAxisInput : FInputPacket :=
  { sampleInput with MovementInput := { X := f32QNaN, Y := f32NegOne }, Checksum := 1103101954 }

/-- Following the spec's words ("Euclidean distance"): the exact square of the Euclidean distance
between two points with finite coordinates, in units of `2 ^ (-298)` (the coordinates are taken as
integer numbers of units of `2 ^ (-149)`, without rounding). -/
def exactDistSquared (A B : FVector) : Int :=
  (f32Val B.X - f32Val A.X) ^ 2 + (f32Val B.Y - f32Val A.Y) ^ 2 + (f32Val B.Z - f32Val A.Z) ^ 2

/-- Following the spec's words: the exact Euclidean distance between two points with finite
coordinates is strictly greater than the finite threshold (a negative threshold is below every
distance; otherwise the squares are compared). -/
def ExactDistExceeds (A B : FVector) (Threshold : F32) : Prop :=
  f32Val Threshold < 0 ∨ f32Val Threshold ^ 2 < exactDistSquared A B

instance (A B : FVector) (Threshold : F32) : Decidable (ExactDistExceeds A B Threshold) := by
  unfold ExactDistExceeds; infer_instance

/-- Following the spec's words: the Euclidean distance `sqrt(dx * dx + dy * dy + dz * dz)` between
two points, every operation rounded to binary32. -/
def roundedEuclideanDistance (A B : FVector) : F32 :=
  f32sqrt (f32add (f32add (f32mul (f32sub B.X A.X) (f32sub B.X A.X))
    (f32mul (f32sub B.Y A.Y) (f32sub B.Y A.Y))) (f32mul (f32sub B.Z A.Z) (f32sub B.Z A.Z)))

/-- The sample client with a correction threshold of 1e30. -/
def lenientClient : FClient :=
  { sampleClient with Reconciler := { sampleReconciler with CorrectionThreshold := 0x7149F2CA } }

/-- The sample client at the position (1,2,3) with a correction threshold of 7. -/
def offsetClient : FClient :=
  { sampleClient with
    Location := { X := f32One, Y := 0x40000000, Z := 0x40400000 }
    Reconciler := { sampleReconciler with CorrectionThreshold := 0x40E00000 } }

/-! # Theorems -/

/-! ## Lemmas on the float order -/

theorem f32lt_false_of_le {a b : F32} (h : f32le a b = true) : f32lt b a = false := by
  simp only [f32le, f32lt, Bool.and_eq_true, Bool.not_eq_true', decide_eq_true_eq] at *
  obtain ⟨⟨ha, hb⟩, hk⟩ := h
  simp [ha, hb, not_lt.mpr hk]

theorem f32InRange_not_lt {lo hi x : F32} (h : f32InRange lo hi x) :
    f32lt x lo = false ∧ f32gt x hi = false :=
  ⟨f32lt_false_of_le h.1, f32lt_false_of_le h.2⟩

/-! ## Lemmas on the packet codec -/

theorem reread32_eq {v : Nat} (h : v < 4294967296) : reread32 v = v := by
  unfold reread32; omega

theorem input_checksum_eq (p : FInputPacket) :
    p.CalculateChecksum = p.SequenceNumber ^^^ p.ClientTimestamp ^^^ p.MovementInput.X ^^^
      p.MovementInput.Y ^^^ p.LookInput.X ^^^ p.LookInput.Y ^^^ p.ActionFlags := by
  simp only [FInputPacket.CalculateChecksum, Nat.zero_xor]

theorem state_checksum_eq (s : FStateUpdatePacket) :
    s.CalculateChecksum = s.AcknowledgedSequence ^^^ s.ServerTimestamp ^^^
      s.AuthoritativePosition.X ^^^ s.AuthoritativePosition.Y ^^^ s.AuthoritativePosition.Z ^^^
      s.AuthoritativeVelocity.X ^^^ s.AuthoritativeVelocity.Y ^^^ s.AuthoritativeVelocity.Z ^^^
      s.AuthoritativeState ^^^ s.AuthoritativeStamina := by
  simp only [FStateUpdatePacket.CalculateChecksum, Nat.zero_xor]

theorem input_checksum_lt {p : FInputPacket} (h : p.WellFormed) :
    p.CalculateChecksum < 4294967296 := by
  unfold FInputPacket.WellFormed at h
  obtain ⟨h1, h2, h3, h4, h5, h6, h7, -⟩ := h
  rw [input_checksum_eq]
  show _ < 2 ^ 32
  exact Nat.xor_lt_two_pow (Nat.xor_lt_two_pow (Nat.xor_lt_two_pow (Nat.xor_lt_two_pow
    (Nat.xor_lt_two_pow (Nat.xor_lt_two_pow h1 h2) h3) h4) h5) h6) h7

theorem state_checksum_lt {s : FStateUpdatePacket} (h : s.WellFormed) :
    s.CalculateChecksum < 4294967296 := by
  unfold FStateUpdatePacket.WellFormed at h
  obtain ⟨h1, h2, h3, h4, h5, h6, h7, h8, h9, h10, -⟩ := h
  have h9' : s.AuthoritativeState < 2 ^ 32 := lt_trans h9 (by norm_num)
  rw [state_checksum_eq]
  show _ < 2 ^ 32
  exact Nat.xor_lt_two_pow (Nat.xor_lt_two_pow (Nat.xor_lt_two_pow (Nat.xor_lt_two_pow
    (Nat.xor_lt_two_pow (Nat.xor_lt_two_pow (Nat.xor_lt_two_pow (Nat.xor_lt_two_pow
    (Nat.xor_lt_two_pow h1 h2) h3) h4) h5) h6) h7) h8) h9') h10

theorem input_isValid_of_inRange {p : FInputPacket} (hc : p.Checksum = p.CalculateChecksum)
    (h : p.AxesInRange) : p.IsValid = true := by
  obtain ⟨h1, h2, h3, h4⟩ := h
  simp [FInputPacket.IsValid, hc, f32InRange_not_lt h1, f32InRange_not_lt h2,
    f32InRange_not_lt h3, f32InRange_not_lt h4]

theorem state_isValid_of_inRange {s : FStateUpdatePacket}
    (hc : s.Checksum = s.CalculateChecksum)
    (h : f32InRange f32Zero f32TwoHundred s.AuthoritativeStamina) (hs : s.AuthoritativeState ≤ 5) :
    s.IsValid = true := by
  simp [FStateUpdatePacket.IsValid, hc, f32InRange_not_lt h, hs]

theorem input_serialize_save (p : FInputPacket) (d : List Nat) :
    p.Serialize { bLoading := false, Data := d, bError := false } =
      ({ p with Checksum := p.CalculateChecksum },
       { bLoading := false,
         Data := d ++ bytes32 p.SequenceNumber ++ bytes32 p.ClientTimestamp ++
           bytes32 p.MovementInput.X ++ bytes32 p.MovementInput.Y ++
           bytes32 p.LookInput.X ++ bytes32 p.LookInput.Y ++ bytes32 p.ActionFlags ++
           bytes32 p.CalculateChecksum,
         bError := false }, true) := by
  rfl

theorem input_serialize_load (q : FInputPacket) (a b c d e f g h : Nat) (rest : List Nat) :
    q.Serialize { bLoading := true,
                  Data := bytes32 a ++ (bytes32 b ++ (bytes32 c ++ (bytes32 d ++ (bytes32 e ++
                    (bytes32 f ++ (bytes32 g ++ (bytes32 h ++ rest))))))),
                  bError := false } =
      (({ SequenceNumber := reread32 a, ClientTimestamp := reread32 b,
          MovementInput := { X := reread32 c, Y := reread32 d },
          LookInput := { X := reread32 e, Y := reread32 f },
          ActionFlags := reread32 g, Checksum := reread32 h } : FInputPacket),
       { bLoading := true, Data := rest, bError := false },
       FInputPacket.IsValid
        { SequenceNumber := reread32 a, ClientTimestamp := reread32 b,
          MovementInput := { X := reread32 c, Y := reread32 d },
          LookInput := { X := reread32 e, Y := reread32 f },
          ActionFlags := reread32 g, Checksum := reread32 h }) := by
  rfl

theorem state_serialize_save (s : FStateUpdatePacket) (d : List Nat) :
    s.Serialize { bLoading := false, Data := d, bError := false } =
      ({ s with Checksum := s.CalculateChecksum },
       { bLoading := false,
         Data := d ++ bytes32 s.AcknowledgedSequence ++ bytes32 s.ServerTimestamp ++
           bytes32 s.AuthoritativePosition.X ++ bytes32 s.AuthoritativePosition.Y ++
           bytes32 s.AuthoritativePosition.Z ++ bytes32 s.AuthoritativeVelocity.X ++
           bytes32 s.AuthoritativeVelocity.Y ++ bytes32 s.AuthoritativeVelocity.Z ++
           [s.AuthoritativeState % 256] ++ bytes32 s.AuthoritativeStamina ++
           bytes32 s.CalculateChecksum,
         bError := false }, true) := by
  rfl

theorem state_serialize_load (t : FStateUpdatePacket)
    (a b c d e f g h i j k : Nat) (rest : List Nat) :
    t.Serialize { bLoading := true,
                  Data := bytes32 a ++ (bytes32 b ++ (bytes32 c ++ (bytes32 d ++ (bytes32 e ++
                    (bytes32 f ++ (bytes32 g ++ (bytes32 h ++ ([i % 256] ++ (bytes32 j ++
                    (bytes32 k ++ rest)))))))))),
                  bError := false } =
      (({ AcknowledgedSequence := reread32 a, ServerTimestamp := reread32 b,
          AuthoritativePosition := { X := reread32 c, Y := reread32 d, Z := reread32 e },
          AuthoritativeVelocity := { X := reread32 f, Y := reread32 g, Z := reread32 h },
          AuthoritativeState := i % 256 % 256, AuthoritativeStamina := reread32 j,
          Checksum := reread32 k } : FStateUpdatePacket),
       { bLoading := true, Data := rest, bError := false },
       FStateUpdatePacket.IsValid
        { AcknowledgedSequence := reread32 a, ServerTimestamp := reread32 b,
          AuthoritativePosition := { X := reread32 c, Y := reread32 d, Z := reread32 e },
          AuthoritativeVelocity := { X := reread32 f, Y := reread32 g, Z := reread32 h },
          AuthoritativeState := i % 256 % 256, AuthoritativeStamina := reread32 j,
          Checksum := reread32 k }) := by
  rfl

theorem input_roundtrip (p q : FInputPacket) (rest : List Nat) (hwf : p.WellFormed)
    (hr : p.AxesInRange) :
    q.Serialize (FArchive.reader ((p.Serialize FArchive.writer).2.1.Data ++ rest)) =
      ({ p with Checksum := p.CalculateChecksum }, FArchive.reader rest, true) := by
  have hc := input_checksum_lt hwf
  unfold FInputPacket.WellFormed at hwf
  obtain ⟨h1, h2, h3, h4, h5, h6, h7, -⟩ := hwf
  simp only [FArchive.writer, FArchive.reader, input_serialize_save, List.nil_append,
    List.append_assoc, input_serialize_load]
  rw [reread32_eq h1, reread32_eq h2, reread32_eq h3, reread32_eq h4, reread32_eq h5,
    reread32_eq h6, reread32_eq h7, reread32_eq hc]
  have hv : FInputPacket.IsValid { p with Checksum := p.CalculateChecksum } = true :=
    input_isValid_of_inRange rfl hr
  exact Prod.ext rfl (Prod.ext rfl hv)

theorem state_roundtrip (s t : FStateUpdatePacket) (rest : List Nat)
    (hwf : s.WellFormed) (hr : f32InRange f32Zero f32TwoHundred s.AuthoritativeStamina)
    (hs : s.AuthoritativeState ≤ 5) :
    t.Serialize (FArchive.reader ((s.Serialize FArchive.writer).2.1.Data ++ rest)) =
      ({ s with Checksum := s.CalculateChecksum }, FArchive.reader rest, true) := by
  have hc := state_checksum_lt hwf
  unfold FStateUpdatePacket.WellFormed at hwf
  obtain ⟨h1, h2, h3, h4, h5, h6, h7, h8, -, h10, -⟩ := hwf
  have h9 : s.AuthoritativeState % 256 % 256 = s.AuthoritativeState := by omega
  simp only [FArchive.writer, FArchive.reader, state_serialize_save, List.nil_append,
    List.append_assoc, state_serialize_load]
  rw [reread32_eq h1, reread32_eq h2, reread32_eq h3, reread32_eq h4, reread32_eq h5,
    reread32_eq h6, reread32_eq h7, reread32_eq h8, reread32_eq h10, reread32_eq hc, h9]
  have hv : FStateUpdatePacket.IsValid { s with Checksum := s.CalculateChecksum } = true :=
    state_isValid_of_inRange rfl hr hs
  exact Prod.ext rfl (Prod.ext rfl hv)

theorem state_isValid_iff (s : FStateUpdatePacket) :
    s.IsValid = true ↔
      s.Checksum = s.CalculateChecksum ∧ f32lt s.AuthoritativeStamina f32Zero = false ∧
        f32gt s.AuthoritativeStamina f32TwoHundred = false ∧ s.AuthoritativeState ≤ 5 := by
  unfold FStateUpdatePacket.IsValid
  by_cases hc : s.Checksum = s.CalculateChecksum <;>
    by_cases h1 : f32lt s.AuthoritativeStamina f32Zero = true <;>
    by_cases h2 : f32gt s.AuthoritativeStamina f32TwoHundred = true <;>
    by_cases h3 : s.AuthoritativeState ≤ 5 <;>
    simp_all

theorem f32InRange_iff_of_not_nan {lo hi x : F32} (hlo : f32IsNaN lo = false)
    (hhi : f32IsNaN hi = false) (hx : f32IsNaN x = false) :
    f32InRange lo hi x ↔ f32lt x lo = false ∧ f32gt x hi = false := by
  simp only [f32InRange, f32le, f32lt, f32gt, hlo, hhi, hx, Bool.not_false, Bool.true_and,
    decide_eq_true_eq, decide_eq_false_iff_not, not_lt]

theorem testBit_mask_of_unknown {flags i : Nat} (hlt : flags < 4294967296) (hi : 4 ≤ i)
    (hb : flags.testBit i = true) : (4294967280 : Nat).testBit i = true := by
  have hge : 2 ^ i ≤ flags := Nat.testBit_implies_ge hb
  have hi32 : i < 32 := by
    by_contra hcon
    have h32 : 32 ≤ i := Nat.le_of_not_lt hcon
    have : 2 ^ 32 ≤ 2 ^ i := Nat.pow_le_pow_right (by norm_num) h32
    omega
  interval_cases i <;> decide

theorem land_mask_ne_zero {flags : Nat} (hlt : flags < 4294967296)
    (hf : ∃ i, 4 ≤ i ∧ flags.testBit i = true) : flags &&& 4294967280 ≠ 0 := by
  obtain ⟨i, hi, hb⟩ := hf
  intro h0
  have hm := testBit_mask_of_unknown hlt hi hb
  have h := congrArg (fun n => Nat.testBit n i) h0
  simp only [Nat.testBit_and, hb, hm, Bool.and_self, Nat.zero_testBit] at h
  exact Bool.noConfusion h

theorem validateInput_unknown_flag {gs : ANetworkGameState} {p : FInputPacket}
    (hv : gs.bEnableInputValidation = true) (hlt : p.ActionFlags < 4294967296)
    (hf : p.HasUnknownFlag) : gs.ValidateInput p = false := by
  have hm : p.ActionFlags &&& 4294967280 ≠ 0 := land_mask_ne_zero hlt hf
  have hflags : (4294967295 - (FInputPacket.FLAG_SPRINT ||| FInputPacket.FLAG_TACKLE |||
      FInputPacket.FLAG_KICK ||| FInputPacket.FLAG_PASS)) = 4294967280 := by decide
  unfold ANetworkGameState.ValidateInput
  simp only [hv, Bool.not_true, Bool.false_eq_true, if_false, hflags]
  split_ifs <;> simp_all

/-! ## The packet codec (C1 to C5) -/

/-- C1: for every well-formed Input Packet whose four axes lie in [-1,1], and every well-formed
State Update Packet whose stamina lies in [0,200] and whose state is at most 5, whatever the
Checksum field held, saving with `Serialize` and loading the written bytes back with `Serialize`
(into any packet, with any bytes following in the archive) yields the original packet with
Checksum replaced by `CalculateChecksum`, consumes exactly the written bytes, and returns true. -/
theorem serialize_roundtrip :
    (∀ (p q : FInputPacket) (rest : List Nat), p.WellFormed → p.AxesInRange →
      q.Serialize (FArchive.reader ((p.Serialize FArchive.writer).2.1.Data ++ rest)) =
        ({ p with Checksum := p.CalculateChecksum }, FArchive.reader rest, true)) ∧
    (∀ (s t : FStateUpdatePacket) (rest : List Nat), s.WellFormed →
      f32InRange f32Zero f32TwoHundred s.AuthoritativeStamina → s.AuthoritativeState ≤ 5 →
      t.Serialize (FArchive.reader ((s.Serialize FArchive.writer).2.1.Data ++ rest)) =
        ({ s with Checksum := s.CalculateChecksum }, FArchive.reader rest, true)) :=
  ⟨fun p q rest hwf hr => input_roundtrip p q rest hwf hr,
   fun s t rest hwf hr hs => state_roundtrip s t rest hwf hr hs⟩

/-- Witness of C1 on `sampleInput` and `sampleUpdate`, loaded into default-constructed packets. -/
theorem serialize_roundtrip_witness :
    (sampleInput.WellFormed ∧ sampleInput.AxesInRange ∧
      FInputPacket.init.Serialize
          (FArchive.reader ((sampleInput.Serialize FArchive.writer).2.1.Data ++ [])) =
        ({ sampleInput with Checksum := sampleInput.CalculateChecksum }, FArchive.reader [], true)) ∧
    (sampleUpdate.WellFormed ∧ f32InRange f32Zero f32TwoHundred sampleUpdate.AuthoritativeStamina ∧
      sampleUpdate.AuthoritativeState ≤ 5 ∧
      FStateUpdatePacket.init.Serialize
          (FArchive.reader ((sampleUpdate.Serialize FArchive.writer).2.1.Data ++ [])) =
        ({ sampleUpdate with Checksum := sampleUpdate.CalculateChecksum }, FArchive.reader [], true)) :=
  ⟨⟨by decide, by decide,
      serialize_roundtrip.1 sampleInput FInputPacket.init [] (by decide) (by decide)⟩,
   ⟨by decide, by decide, by decide,
      serialize_roundtrip.2 sampleUpdate FStateUpdatePacket.init [] (by decide) (by decide)
        (by decide)⟩⟩

/-- C2: `CalculateChecksum` is the XOR of the 32-bit patterns of all the other fields, in
declaration order, for Input Packets and for State Update Packets (the `uint8` state enters with
its value, that is zero-extended), and it does not depend on the Checksum field. -/
theorem checksum_is_xor_of_fields :
    (∀ p : FInputPacket,
      p.CalculateChecksum = p.SequenceNumber ^^^ p.ClientTimestamp ^^^ p.MovementInput.X ^^^
        p.MovementInput.Y ^^^ p.LookInput.X ^^^ p.LookInput.Y ^^^ p.ActionFlags ∧
      ∀ c : Nat, FInputPacket.CalculateChecksum { p with Checksum := c } = p.CalculateChecksum) ∧
    (∀ s : FStateUpdatePacket,
      s.CalculateChecksum = s.AcknowledgedSequence ^^^ s.ServerTimestamp ^^^
        s.AuthoritativePosition.X ^^^ s.AuthoritativePosition.Y ^^^ s.AuthoritativePosition.Z ^^^
        s.AuthoritativeVelocity.X ^^^ s.AuthoritativeVelocity.Y ^^^ s.AuthoritativeVelocity.Z ^^^
        s.AuthoritativeState ^^^ s.AuthoritativeStamina ∧
      ∀ c : Nat, FStateUpdatePacket.CalculateChecksum { s with Checksum := c } =
        s.CalculateChecksum) :=
  ⟨fun p => ⟨input_checksum_eq p, fun _ => rfl⟩,
   fun s => ⟨state_checksum_eq s, fun _ => rfl⟩⟩

/-- C3 (evaluation at the failing input): the well-formed State Update Packet `nanStaminaUpdate`
has a matching checksum and a state in 0..5, its stamina (a NaN) does not satisfy
`0 <= stamina <= 200`, and `FStateUpdatePacket::IsValid` nevertheless returns true. -/
theorem state_update_nan_stamina_accepted :
    nanStaminaUpdate.WellFormed ∧
    nanStaminaUpdate.Checksum = nanStaminaUpdate.CalculateChecksum ∧
    nanStaminaUpdate.AuthoritativeState ≤ 5 ∧
    ¬ f32InRange f32Zero f32TwoHundred nanStaminaUpdate.AuthoritativeStamina ∧
    nanStaminaUpdate.IsValid = true := by
  refine ⟨by decide, by decide, by decide, by decide, by decide⟩

/-- Away from NaN the validity check of a State Update Packet is the range check of the spec:
for a stamina that is not a NaN, `IsValid` holds exactly when the checksum matches, the stamina
lies in [0,200] and the state is at most 5.  Stamina 250 is rejected and stamina 150 accepted. -/
theorem state_isValid_iff_of_not_nan :
    (∀ s : FStateUpdatePacket, f32IsNaN s.AuthoritativeStamina = false →
      (s.IsValid = true ↔ s.Checksum = s.CalculateChecksum ∧
        f32InRange f32Zero f32TwoHundred s.AuthoritativeStamina ∧ s.AuthoritativeState ≤ 5)) ∧
    (∀ s : FStateUpdatePacket, s.AuthoritativeStamina = 0x437A0000 → s.IsValid = false) ∧
    (∀ s : FStateUpdatePacket, s.Checksum = s.CalculateChecksum → s.AuthoritativeState ≤ 5 →
      s.AuthoritativeStamina = 0x43160000 → s.IsValid = true) := by
  refine ⟨fun s hn => ?_, fun s h => ?_, fun s hc hs h => ?_⟩
  · rw [state_isValid_iff, f32InRange_iff_of_not_nan (by decide) (by decide) hn]
    tauto
  · have hgt : f32gt s.AuthoritativeStamina f32TwoHundred = true := by rw [h]; decide
    simp [FStateUpdatePacket.IsValid, hgt]
  · exact state_isValid_of_inRange hc (by rw [h]; decide) hs

/-- C4: `FInputPacket::IsValid` returns false when the Checksum field differs from
`CalculateChecksum`, returns false when some movement or look axis is below -1 or above 1, and
returns true for a packet with matching checksum whose axes are each exactly -1 or 1. -/
theorem input_isValid_rejects :
    (∀ p : FInputPacket, p.Checksum ≠ p.CalculateChecksum → p.IsValid = false) ∧
    (∀ p : FInputPacket, p.AxisOutOfRange → p.IsValid = false) ∧
    (∀ p : FInputPacket, p.Checksum = p.CalculateChecksum →
      (p.MovementInput.X = f32NegOne ∨ p.MovementInput.X = f32One) →
      (p.MovementInput.Y = f32NegOne ∨ p.MovementInput.Y = f32One) →
      (p.LookInput.X = f32NegOne ∨ p.LookInput.X = f32One) →
      (p.LookInput.Y = f32NegOne ∨ p.LookInput.Y = f32One) → p.IsValid = true) := by
  refine ⟨fun p hc => ?_, fun p hr => ?_, fun p hc h1 h2 h3 h4 => ?_⟩
  · simp [FInputPacket.IsValid, hc]
  · unfold FInputPacket.AxisOutOfRange at hr
    unfold FInputPacket.IsValid
    rcases hr with h | h | h | h | h | h | h | h <;> simp [h]
  · have hb : ∀ x : F32, x = f32NegOne ∨ x = f32One → f32InRange f32NegOne f32One x := by
      intro x hx
      rcases hx with rfl | rfl <;> decide
    exact input_isValid_of_inRange hc ⟨hb _ h1, hb _ h2, hb _ h3, hb _ h4⟩

/-- A packet with a stale checksum, one with an axis of 1.5, and one with boundary axes. -/
theorem input_isValid_rejects_witness :
    (sampleInput.Checksum ≠ sampleInput.CalculateChecksum ∧ sampleInput.IsValid = false) ∧
    (FInputPacket.AxisOutOfRange { FInputPacket.init with LookInput := { X := 0x3FC00000, Y := 0 } } ∧
      FInputPacket.IsValid { FInputPacket.init with LookInput := { X := 0x3FC00000, Y := 0 } } = false) ∧
    FInputPacket.IsValid { sampleInput with
      LookInput := { X := f32NegOne, Y := f32One }, Checksum := 1056964610 } = true :=
  ⟨⟨by decide, input_isValid_rejects.1 sampleInput (by decide)⟩,
   ⟨by decide, input_isValid_rejects.2.1 _ (by decide)⟩,
   input_isValid_rejects.2.2 _ (by decide) (by decide) (by decide) (by decide) (by decide)⟩

/-- C5 (counterexample): `unknownFlagInput` is well formed, has bit 4 of ActionFlags set, a
matching checksum and axes in range, yet `FInputPacket::IsValid` accepts it and `Serialize`
returns true when loading its bytes. -/
theorem input_isValid_accepts_unknown_flag :
    unknownFlagInput.WellFormed ∧ unknownFlagInput.HasUnknownFlag ∧
    unknownFlagInput.Checksum = unknownFlagInput.CalculateChecksum ∧
    unknownFlagInput.AxesInRange ∧ unknownFlagInput.IsValid = true ∧
    (FInputPacket.init.Serialize
      (FArchive.reader (unknownFlagInput.Serialize FArchive.writer).2.1.Data)).2.2 = true :=
  ⟨by decide, ⟨4, by decide, by decide⟩, by decide, by decide, by decide, by decide⟩

/-- C5 (amended): the server-side check `ANetworkGameState::ValidateInput`, with input validation
enabled, rejects every Input Packet whose ActionFlags (a 32-bit value) has a bit set outside
bits 0 to 3, whatever its checksum and axes; `FInputPacket::IsValid` itself accepts every packet
with matching checksum and axes in [-1,1], whatever its ActionFlags. -/
theorem validateInput_rejects_unknown_flag :
    (∀ (gs : ANetworkGameState) (p : FInputPacket), gs.bEnableInputValidation = true →
      p.ActionFlags < 4294967296 → p.HasUnknownFlag → gs.ValidateInput p = false) ∧
    (∀ p : FInputPacket, p.Checksum = p.CalculateChecksum → p.AxesInRange → p.IsValid = true) :=
  ⟨fun _ _ hv hlt hf => validateInput_unknown_flag hv hlt hf,
   fun _ hc hr => input_isValid_of_inRange hc hr⟩

/-! ## Server-side validation (C6) -/

theorem int32Increment_eq {x : Int} (h : x < 2147483647) : int32Increment x = x + 1 := by
  unfold int32Increment
  rw [if_neg (by omega)]

theorem input_isValid_false_of_bad {p : FInputPacket}
    (h : p.Checksum ≠ p.CalculateChecksum ∨ p.AxisOutOfRange) : p.IsValid = false := by
  rcases h with hc | hr
  · simp [FInputPacket.IsValid, hc]
  · unfold FInputPacket.AxisOutOfRange at hr
    unfold FInputPacket.IsValid
    rcases hr with h | h | h | h | h | h | h | h <;> simp [h]

theorem validateInput_false_of_bad {gs : ANetworkGameState} {p : FInputPacket}
    (hv : gs.bEnableInputValidation = true) (hwf : p.WellFormed)
    (h : p.Checksum ≠ p.CalculateChecksum ∨ p.AxisOutOfRange ∨ p.HasUnknownFlag) :
    gs.ValidateInput p = false := by
  rcases h with hc | hr | hf
  · have hi := input_isValid_false_of_bad (Or.inl hc)
    simp [ANetworkGameState.ValidateInput, hv, hi]
  · have hi := input_isValid_false_of_bad (Or.inr hr)
    simp [ANetworkGameState.ValidateInput, hv, hi]
  · unfold FInputPacket.WellFormed at hwf
    exact validateInput_unknown_flag hv hwf.2.2.2.2.2.2.1 hf

/-- Witness of the amended C5 on `sampleGameState` and `unknownFlagInput`. -/
theorem validateInput_rejects_unknown_flag_witness :
    (sampleGameState.bEnableInputValidation = true ∧ unknownFlagInput.ActionFlags < 4294967296 ∧
      unknownFlagInput.HasUnknownFlag ∧ sampleGameState.ValidateInput unknownFlagInput = false) ∧
    (unknownFlagInput.Checksum = unknownFlagInput.CalculateChecksum ∧
      unknownFlagInput.AxesInRange ∧ unknownFlagInput.IsValid = true) :=
  ⟨⟨by decide, by decide, ⟨4, by decide, by decide⟩,
      validateInput_rejects_unknown_flag.1 sampleGameState unknownFlagInput (by decide) (by decide)
        ⟨4, by decide, by decide⟩⟩,
   ⟨by decide, by decide,
      validateInput_rejects_unknown_flag.2 unknownFlagInput (by decide) (by decide)⟩⟩

set_option maxRecDepth 100000 in
/-- The validation gate and the guards of `ProcessClientInput` (used for C6): `sampleInput` is
well formed and its checksum does not match.  On `sampleGameState` with
`bEnableInputValidation` switched off it is processed all the same:
`InvalidInputsRejected` keeps its value 1, `TotalInputsProcessed` goes from 3 to 4, the
acknowledged sequence of controller 1 goes from 5 to 7 and the velocity of its character changes.
With validation on, nothing is counted for a null controller or without authority, and a
rejection counter at the `int32` maximum does not increase. -/
theorem processClientInput_validation_disabled :
    sampleInput.WellFormed ∧ sampleInput.Checksum ≠ sampleInput.CalculateChecksum ∧
    (ANetworkGameState.ProcessClientInput Engine.openField
        { sampleGameState with bEnableInputValidation := false } (some 1)
        sampleInput).InvalidInputsRejected = 1 ∧
    (ANetworkGameState.ProcessClientInput Engine.openField
        { sampleGameState with bEnableInputValidation := false } (some 1)
        sampleInput).TotalInputsProcessed = 4 ∧
    TMap.Find (ANetworkGameState.ProcessClientInput Engine.openField
        { sampleGameState with bEnableInputValidation := false } (some 1)
        sampleInput).ClientAcknowledgedSequences 1 = some 7 ∧
    ((ANetworkGameState.ProcessClientInput Engine.openField
        { sampleGameState with bEnableInputValidation := false } (some 1)
        sampleInput).GetCharacter 1).map (fun c => c.MovementComponent.map (fun m => m.Velocity)) ≠
      (sampleGameState.GetCharacter 1).map (fun c => c.MovementComponent.map (fun m => m.Velocity)) ∧
    (ANetworkGameState.ProcessClientInput Engine.openField sampleGameState none
        sampleInput).InvalidInputsRejected = 1 ∧
    (ANetworkGameState.ProcessClientInput Engine.openField
        { sampleGameState with bHasAuthority := false } (some 1)
        sampleInput).InvalidInputsRejected = 1 ∧
    (ANetworkGameState.ProcessClientInput Engine.openField
        { sampleGameState with InvalidInputsRejected := 2147483647 } (some 1)
        sampleInput).InvalidInputsRejected = -2147483648 := by
  refine ⟨by decide, by decide, by decide, by decide, by decide, by decide, by decide, by decide,
    by decide⟩

/-- The rejection path of `ProcessClientInput` (used for C6): on the authority, for a non-null
controller, with input validation enabled and the rejection counter below the `int32` maximum,
`ProcessClientInput` on a well-formed Input Packet whose checksum does not match, or one of whose
axes compares below -1 or above 1, or whose action flags have a bit set outside bits 0 to 3,
increments `InvalidInputsRejected` by exactly one and leaves the rest of the server state
(characters, acknowledged sequences, `TotalInputsProcessed`) unchanged.  An axis that is a NaN
compares neither below -1 nor above 1 and is not covered. -/
theorem processClientInput_rejects_invalid (E : Engine) (gs : ANetworkGameState)
    (Controller : Nat) (p : FInputPacket)
    (hauth : gs.bHasAuthority = true) (hval : gs.bEnableInputValidation = true)
    (hcnt : gs.InvalidInputsRejected < 2147483647) (hwf : p.WellFormed)
    (hbad : p.Checksum ≠ p.CalculateChecksum ∨ p.AxisOutOfRange ∨ p.HasUnknownFlag) :
    gs.ProcessClientInput E (some Controller) p =
      { gs with InvalidInputsRejected := gs.InvalidInputsRejected + 1 } := by
  have hv := validateInput_false_of_bad hval hwf hbad
  simp only [ANetworkGameState.ProcessClientInput, hauth, hv, Bool.not_true, Bool.not_false,
    Bool.false_eq_true, if_false, if_true, int32Increment_eq hcnt]

/-- The rejection path on `sampleInput` (stale checksum) sent to `sampleGameState`. -/
theorem processClientInput_rejects_invalid_witness :
    sampleGameState.bHasAuthority = true ∧ sampleGameState.bEnableInputValidation = true ∧
    sampleGameState.InvalidInputsRejected < 2147483647 ∧ sampleInput.WellFormed ∧
    sampleInput.Checksum ≠ sampleInput.CalculateChecksum ∧
    sampleGameState.ProcessClientInput Engine.openField (some 1) sampleInput =
      { sampleGameState with InvalidInputsRejected := sampleGameState.InvalidInputsRejected + 1 } :=
  ⟨by decide, by decide, by decide, by decide, by decide,
    processClientInput_rejects_invalid Engine.openField sampleGameState 1 sampleInput (by decide)
      (by decide) (by decide) (by decide) (Or.inl (by decide))⟩

/-! ## The movement simulator (C7) -/

theorem SimulateMovement_staged (E : Engine) (m : UPlayerMovementComponent)
    (Location : FVector) (Input : FInputCommand) (DeltaTime : F32)
    (hu : m.UpdatedComponent = true) :
    m.SimulateMovement E Location Input DeltaTime =
      SimulateMovementMove E
        (SimulateMovementAccelerate E (SimulateMovementSprint m Input DeltaTime).1
          (SimulateMovementInputVector E Input) (SimulateMovementSprint m Input DeltaTime).2
          DeltaTime)
        Location DeltaTime := by
  unfold UPlayerMovementComponent.SimulateMovement
  rw [if_neg (by simp [hu])]
  rfl

theorem SimulateMovementMove_component (E : Engine) (m : UPlayerMovementComponent)
    (Location : FVector) (DeltaTime : F32) :
    (SimulateMovementMove E m Location DeltaTime).Component = m ∧
    (SimulateMovementMove E m Location DeltaTime).Delta = some (m.Velocity.scale DeltaTime) := by
  unfold SimulateMovementMove
  simp only []
  split_ifs <;> exact ⟨rfl, rfl⟩

theorem SimulateMovementAccelerate_velocity_congr (E : Engine) (s1 s2 : UPlayerMovementComponent)
    (InputVector : FVector) (TargetSpeed DeltaTime : F32) (hv : s1.Velocity = s2.Velocity)
    (ha : s1.MaxAcceleration = s2.MaxAcceleration)
    (hd : s1.BrakingDecelerationWalking = s2.BrakingDecelerationWalking) :
    (SimulateMovementAccelerate E s1 InputVector TargetSpeed DeltaTime).Velocity =
      (SimulateMovementAccelerate E s2 InputVector TargetSpeed DeltaTime).Velocity := by
  unfold SimulateMovementAccelerate
  simp only [hv, ha, hd]
  split_ifs <;> rfl

theorem SimulateMovementAccelerate_others (E : Engine) (s : UPlayerMovementComponent)
    (InputVector : FVector) (TargetSpeed DeltaTime : F32) :
    (SimulateMovementAccelerate E s InputVector TargetSpeed DeltaTime).CurrentStamina =
      s.CurrentStamina ∧
    (SimulateMovementAccelerate E s InputVector TargetSpeed DeltaTime).bIsSprinting =
      s.bIsSprinting := by
  unfold SimulateMovementAccelerate
  simp only []
  split_ifs <;> exact ⟨rfl, rfl⟩

theorem SimulateMovementSprint_keeps (m : UPlayerMovementComponent) (Input : FInputCommand)
    (DeltaTime : F32) :
    (SimulateMovementSprint m Input DeltaTime).1.Velocity = m.Velocity ∧
    (SimulateMovementSprint m Input DeltaTime).1.MaxAcceleration = m.MaxAcceleration ∧
    (SimulateMovementSprint m Input DeltaTime).1.BrakingDecelerationWalking =
      m.BrakingDecelerationWalking := by
  unfold SimulateMovementSprint UPlayerMovementComponent.ConsumeStamina
  simp only []
  split_ifs <;> exact ⟨rfl, rfl, rfl⟩

theorem SimulateMovementSprint_congr (m1 m2 : UPlayerMovementComponent)
    (Input1 Input2 : FInputCommand) (DeltaTime : F32)
    (hs : m1.CurrentStamina = m2.CurrentStamina) (hw : m1.MaxWalkSpeed = m2.MaxWalkSpeed)
    (hsp : m1.MaxSprintSpeed = m2.MaxSprintSpeed)
    (hc : m1.SprintStaminaCostPerSecond = m2.SprintStaminaCostPerSecond)
    (haf : Input1.ActionFlags = Input2.ActionFlags) :
    (SimulateMovementSprint m1 Input1 DeltaTime).2 = (SimulateMovementSprint m2 Input2 DeltaTime).2 ∧
    (SimulateMovementSprint m1 Input1 DeltaTime).1.CurrentStamina =
      (SimulateMovementSprint m2 Input2 DeltaTime).1.CurrentStamina ∧
    (SimulateMovementSprint m1 Input1 DeltaTime).1.bIsSprinting =
      (SimulateMovementSprint m2 Input2 DeltaTime).1.bIsSprinting := by
  unfold SimulateMovementSprint UPlayerMovementComponent.ConsumeStamina
  simp only [hs, hw, hsp, hc, haf]
  split_ifs <;> exact ⟨rfl, rfl, rfl⟩

theorem SimulateMovementInputVector_congr (E : Engine) (Input1 Input2 : FInputCommand)
    (h : Input1.MovementInput = Input2.MovementInput) :
    SimulateMovementInputVector E Input1 = SimulateMovementInputVector E Input2 := by
  unfold SimulateMovementInputVector
  rw [h]

/-- C7 (counterexample): two movement components without an updated component that differ only in
the previous value of `bIsSprinting`, given the same input and the same dt, come out of
`SimulateMovement` with different values of `bIsSprinting`. -/
theorem simulateMovement_null_updated_component :
    ((UPlayerMovementComponent.SimulateMovement Engine.openField
        { sampleMovement with UpdatedComponent := false, bIsSprinting := true }
        FVector.ZeroVector sampleInput.ToCommand f32OneSixtieth).Component.bIsSprinting = true) ∧
    ((UPlayerMovementComponent.SimulateMovement Engine.openField
        { sampleMovement with UpdatedComponent := false, bIsSprinting := false }
        FVector.ZeroVector sampleInput.ToCommand f32OneSixtieth).Component.bIsSprinting = false) := by
  refine ⟨by decide, by decide⟩

/-- C7 (amended): for any two movement components that both have an updated component and agree on
velocity, stamina, walk and sprint speed, acceleration, deceleration and stamina cost (they may
differ in `bIsSprinting`, in the other members and in the location), and any two inputs that agree
on MovementInput and ActionFlags, `SimulateMovement` with the same engine and the same dt produces
the same velocity, the same stamina, the same position delta and the same `bIsSprinting`. -/
theorem simulateMovement_depends_on_kinematics_only (E : Engine)
    (m1 m2 : UPlayerMovementComponent) (Location1 Location2 : FVector)
    (Input1 Input2 : FInputCommand) (DeltaTime : F32)
    (hu1 : m1.UpdatedComponent = true) (hu2 : m2.UpdatedComponent = true)
    (hv : m1.Velocity = m2.Velocity) (hs : m1.CurrentStamina = m2.CurrentStamina)
    (hw : m1.MaxWalkSpeed = m2.MaxWalkSpeed) (hsp : m1.MaxSprintSpeed = m2.MaxSprintSpeed)
    (ha : m1.MaxAcceleration = m2.MaxAcceleration)
    (hd : m1.BrakingDecelerationWalking = m2.BrakingDecelerationWalking)
    (hc : m1.SprintStaminaCostPerSecond = m2.SprintStaminaCostPerSecond)
    (hmi : Input1.MovementInput = Input2.MovementInput)
    (haf : Input1.ActionFlags = Input2.ActionFlags) :
    (m1.SimulateMovement E Location1 Input1 DeltaTime).Component.Velocity =
      (m2.SimulateMovement E Location2 Input2 DeltaTime).Component.Velocity ∧
    (m1.SimulateMovement E Location1 Input1 DeltaTime).Component.CurrentStamina =
      (m2.SimulateMovement E Location2 Input2 DeltaTime).Component.CurrentStamina ∧
    (m1.SimulateMovement E Location1 Input1 DeltaTime).Delta =
      (m2.SimulateMovement E Location2 Input2 DeltaTime).Delta ∧
    (m1.SimulateMovement E Location1 Input1 DeltaTime).Component.bIsSprinting =
      (m2.SimulateMovement E Location2 Input2 DeltaTime).Component.bIsSprinting := by
  obtain ⟨ht, hst, hb⟩ := SimulateMovementSprint_congr m1 m2 Input1 Input2 DeltaTime hs hw hsp hc haf
  obtain ⟨k1v, k1a, k1d⟩ := SimulateMovementSprint_keeps m1 Input1 DeltaTime
  obtain ⟨k2v, k2a, k2d⟩ := SimulateMovementSprint_keeps m2 Input2 DeltaTime
  have hiv := SimulateMovementInputVector_congr E Input1 Input2 hmi
  have hvel := SimulateMovementAccelerate_velocity_congr E
    (SimulateMovementSprint m1 Input1 DeltaTime).1 (SimulateMovementSprint m2 Input2 DeltaTime).1
    (SimulateMovementInputVector E Input2) (SimulateMovementSprint m2 Input2 DeltaTime).2 DeltaTime
    (by rw [k1v, k2v, hv]) (by rw [k1a, k2a, ha]) (by rw [k1d, k2d, hd])
  rw [SimulateMovement_staged E m1 Location1 Input1 DeltaTime hu1,
    SimulateMovement_staged E m2 Location2 Input2 DeltaTime hu2]
  simp only [(SimulateMovementMove_component E _ _ _).1, (SimulateMovementMove_component E _ _ _).2,
    (SimulateMovementAccelerate_others E _ _ _ _).1, (SimulateMovementAccelerate_others E _ _ _ _).2]
  rw [hiv, ht]
  exact ⟨hvel, hst, by rw [hvel], hb⟩

/-- Witness of the amended C7: `sampleMovement` and a copy that was sprinting, with other stamina
limits and at another location, given two inputs that differ in sequence number and look input. -/
theorem simulateMovement_depends_on_kinematics_only_witness :
    ((UPlayerMovementComponent.SimulateMovement Engine.openField sampleMovement FVector.ZeroVector
        sampleInput.ToCommand f32OneSixtieth).Component.Velocity =
      (UPlayerMovementComponent.SimulateMovement Engine.openField
        { sampleMovement with bIsSprinting := true, MaxStamina := f32TwoHundred }
        { X := f32Ten, Y := f32Zero, Z := f32Zero }
        { sampleInput.ToCommand with SequenceNumber := 8, LookInput := FVector2D.ZeroVector }
        f32OneSixtieth).Component.Velocity) ∧
    ((UPlayerMovementComponent.SimulateMovement Engine.openField sampleMovement FVector.ZeroVector
        sampleInput.ToCommand f32OneSixtieth).Component.CurrentStamina =
      (UPlayerMovementComponent.SimulateMovement Engine.openField
        { sampleMovement with bIsSprinting := true, MaxStamina := f32TwoHundred }
        { X := f32Ten, Y := f32Zero, Z := f32Zero }
        { sampleInput.ToCommand with SequenceNumber := 8, LookInput := FVector2D.ZeroVector }
        f32OneSixtieth).Component.CurrentStamina) ∧
    ((UPlayerMovementComponent.SimulateMovement Engine.openField sampleMovement FVector.ZeroVector
        sampleInput.ToCommand f32OneSixtieth).Delta =
      (UPlayerMovementComponent.SimulateMovement Engine.openField
        { sampleMovement with bIsSprinting := true, MaxStamina := f32TwoHundred }
        { X := f32Ten, Y := f32Zero, Z := f32Zero }
        { sampleInput.ToCommand with SequenceNumber := 8, LookInput := FVector2D.ZeroVector }
        f32OneSixtieth).Delta) ∧
    ((UPlayerMovementComponent.SimulateMovement Engine.openField sampleMovement FVector.ZeroVector
        sampleInput.ToCommand f32OneSixtieth).Component.bIsSprinting =
      (UPlayerMovementComponent.SimulateMovement Engine.openField
        { sampleMovement with bIsSprinting := true, MaxStamina := f32TwoHundred }
        { X := f32Ten, Y := f32Zero, Z := f32Zero }
        { sampleInput.ToCommand with SequenceNumber := 8, LookInput := FVector2D.ZeroVector }
        f32OneSixtieth).Component.bIsSprinting) :=
  simulateMovement_depends_on_kinematics_only Engine.openField sampleMovement
    { sampleMovement with bIsSprinting := true, MaxStamina := f32TwoHundred }
    FVector.ZeroVector { X := f32Ten, Y := f32Zero, Z := f32Zero } sampleInput.ToCommand
    { sampleInput.ToCommand with SequenceNumber := 8, LookInput := FVector2D.ZeroVector }
    f32OneSixtieth rfl rfl rfl rfl rfl rfl rfl rfl rfl rfl rfl

/-! ## The reconciler (C9, C10) -/

theorem f32gt_false_of_eq {a b : F32} (h : f32eq a b = true) : f32gt a b = false := by
  simp only [f32eq, f32gt, f32lt, Bool.and_eq_true, Bool.not_eq_true', decide_eq_true_eq] at *
  obtain ⟨⟨ha, hb⟩, hk⟩ := h
  simp [ha, hb, hk]

theorem savePredictionState_frame (W : FClient) (n : Nat) :
    (UNetworkPrediction.SavePredictionState W n).Movement = W.Movement ∧
    (UNetworkPrediction.SavePredictionState W n).Location = W.Location ∧
    (UNetworkPrediction.SavePredictionState W n).StateMachine = W.StateMachine ∧
    (UNetworkPrediction.SavePredictionState W n).Reconciler = W.Reconciler ∧
    (UNetworkPrediction.SavePredictionState W n).Controller = W.Controller ∧
    (UNetworkPrediction.SavePredictionState W n).Owner = W.Owner ∧
    (UNetworkPrediction.SavePredictionState W n).Profiler = W.Profiler ∧
    (UNetworkPrediction.SavePredictionState W n).WorldTime = W.WorldTime ∧
    (UNetworkPrediction.SavePredictionState W n).Prediction.MovementComponent =
      W.Prediction.MovementComponent ∧
    (UNetworkPrediction.SavePredictionState W n).Prediction.StateMachine =
      W.Prediction.StateMachine ∧
    (UNetworkPrediction.SavePredictionState W n).Prediction.InputBuffer =
      W.Prediction.InputBuffer := by
  simp [UNetworkPrediction.SavePredictionState, UNetworkPrediction.CaptureCurrentState]

theorem simulateInput_frame (E : Engine) (W : FClient) (Input : FInputPacket) (DeltaTime : F32)
    (hpm : W.Prediction.MovementComponent = true) (hps : W.Prediction.StateMachine = true) :
    (UNetworkPrediction.SimulateInput E W Input DeltaTime).Movement =
      (W.Movement.SimulateMovement E W.Location Input.ToCommand DeltaTime).Component ∧
    (UNetworkPrediction.SimulateInput E W Input DeltaTime).Location =
      (W.Movement.SimulateMovement E W.Location Input.ToCommand DeltaTime).Location ∧
    (UNetworkPrediction.SimulateInput E W Input DeltaTime).StateMachine = W.StateMachine ∧
    (UNetworkPrediction.SimulateInput E W Input DeltaTime).Reconciler = W.Reconciler ∧
    (UNetworkPrediction.SimulateInput E W Input DeltaTime).Controller = W.Controller ∧
    (UNetworkPrediction.SimulateInput E W Input DeltaTime).Prediction.MovementComponent = true ∧
    (UNetworkPrediction.SimulateInput E W Input DeltaTime).Prediction.StateMachine = true := by
  unfold UNetworkPrediction.SimulateInput
  simp only [hpm, hps, Bool.not_true, Bool.or_self, Bool.false_eq_true, if_false]
  refine ⟨?_, ?_, ?_, ?_, ?_, ?_, ?_⟩
  · exact (savePredictionState_frame _ _).1
  · exact (savePredictionState_frame _ _).2.1
  · exact (savePredictionState_frame _ _).2.2.1
  · exact (savePredictionState_frame _ _).2.2.2.1
  · exact (savePredictionState_frame _ _).2.2.2.2.1
  · exact (savePredictionState_frame _ _).2.2.2.2.2.2.2.2.1.trans hpm
  · exact (savePredictionState_frame _ _).2.2.2.2.2.2.2.2.2.1.trans hps

theorem replay_fold (E : Engine) (l : List FInputPacket) :
    ∀ W : FClient, W.Prediction.MovementComponent = true → W.Prediction.StateMachine = true →
      ((l.foldl (fun W Input => UNetworkPrediction.SimulateInput E W Input f32OneSixtieth) W).Movement,
        (l.foldl (fun W Input => UNetworkPrediction.SimulateInput E W Input f32OneSixtieth)
          W).Location) = l.foldl (ReplayStep E) (W.Movement, W.Location) ∧
      (l.foldl (fun W Input => UNetworkPrediction.SimulateInput E W Input f32OneSixtieth)
        W).StateMachine = W.StateMachine ∧
      (l.foldl (fun W Input => UNetworkPrediction.SimulateInput E W Input f32OneSixtieth)
        W).Reconciler = W.Reconciler ∧
      (l.foldl (fun W Input => UNetworkPrediction.SimulateInput E W Input f32OneSixtieth)
        W).Controller = W.Controller := by
  induction l with
  | nil => intro W _ _; exact ⟨rfl, rfl, rfl, rfl⟩
  | cons Input rest ih =>
    intro W hpm hps
    obtain ⟨h1, h2, h3, h4, h5, h6, h7⟩ := simulateInput_frame E W Input f32OneSixtieth hpm hps
    obtain ⟨i1, i2, i3, i4⟩ := ih (UNetworkPrediction.SimulateInput E W Input f32OneSixtieth) h6 h7
    simp only [List.foldl_cons]
    refine ⟨?_, i2.trans h3, i3.trans h4, i4.trans h5⟩
    rw [i1, h1, h2]
    rfl

theorem onServerCorrection_staged (E : Engine) (W : FClient) (Correction : FStateUpdatePacket)
    (hp : W.Reconciler.PredictionComponent = true) (hm : W.Reconciler.MovementComponent = true)
    (hsm : W.Reconciler.StateMachine = true) (ho : W.Owner = true)
    (hneed : UNetworkReconciler.NeedsReconciliation W Correction = true) :
    UNetworkReconciler.OnServerCorrection E W Correction =
      OnServerCorrectionFinish
        (UNetworkReconciler.ReplayInputs E (OnServerCorrectionSnap W Correction)
          Correction.AuthoritativePosition Correction.AcknowledgedSequence) Correction := by
  unfold UNetworkReconciler.OnServerCorrection
  rw [if_neg (by simp [hp, hm, hsm]), if_neg (by simp [ho]), if_neg (by simp [hneed])]
  rfl

theorem onServerCorrectionSnap_fields (W : FClient) (Correction : FStateUpdatePacket) :
    (OnServerCorrectionSnap W Correction).Movement =
      { W.Movement with Velocity := Correction.AuthoritativeVelocity,
                        CurrentStamina := Correction.AuthoritativeStamina } ∧
    (OnServerCorrectionSnap W Correction).Location = Correction.AuthoritativePosition ∧
    (OnServerCorrectionSnap W Correction).StateMachine.CurrentState =
      Correction.AuthoritativeState ∧
    (OnServerCorrectionSnap W Correction).Prediction = W.Prediction ∧
    (OnServerCorrectionSnap W Correction).Owner = W.Owner ∧
    (OnServerCorrectionSnap W Correction).Controller = W.Controller ∧
    (OnServerCorrectionSnap W Correction).Reconciler =
      { W.Reconciler with
        LastCorrectionDelta := Correction.AuthoritativePosition.sub W.Location
        LastCorrectionTime := match W.WorldTime with | some t => t | none => f32Zero
        TotalCorrections := int32Increment W.Reconciler.TotalCorrections } := by
  unfold OnServerCorrectionSnap
  cases W.Profiler <;> exact ⟨rfl, rfl, rfl, rfl, rfl, rfl, rfl⟩

theorem onServerCorrectionFinish_fields (W : FClient) (Correction : FStateUpdatePacket) :
    (OnServerCorrectionFinish W Correction).Movement = W.Movement ∧
    (OnServerCorrectionFinish W Correction).Location = W.Location ∧
    (OnServerCorrectionFinish W Correction).StateMachine = W.StateMachine ∧
    (OnServerCorrectionFinish W Correction).Reconciler = W.Reconciler := by
  unfold OnServerCorrectionFinish
  cases W.Controller <;> exact ⟨rfl, rfl, rfl, rfl⟩

theorem replayInputs_unackedInputs_eq (W : FClient) (FromSequence : Nat)
    (hp : W.Reconciler.PredictionComponent = true) (hm : W.Reconciler.MovementComponent = true)
    (ho : W.Owner = true) (hc : W.Controller.isSome = true) :
    UNetworkReconciler.ReplayInputs.UnackedInputs W FromSequence =
      W.Prediction.GetUnacknowledgedInputs FromSequence := by
  have hn : W.Controller.isNone = false := by
    cases hC : W.Controller
    · rw [hC] at hc; exact absurd hc (by simp)
    · rfl
  simp [UNetworkReconciler.ReplayInputs.UnackedInputs, hp, hm, ho, hn]

/-- C9 (amended): when the reconciler has its prediction, movement and state-machine components
and an owner, the owner has a controller, the prediction component has its movement and
state-machine pointers, and `TotalCorrections` is below the `int32` maximum, then
`OnServerCorrection` on a State Update whose position is farther than `CorrectionThreshold` from
the local position increases `TotalCorrections` by exactly one, sets `LastCorrectionDelta` to
`AuthoritativePosition` minus the previous local position, and leaves as movement component and
location the result of starting from the authoritative position, velocity and stamina and applying
`SimulateMovement` with dt = 1/60 once for each input of
`GetUnacknowledgedInputs(AcknowledgedSequence)`, in the order returned, with the authoritative
action-state as current state. -/
theorem onServerCorrection_snaps_and_replays (E : Engine) (W : FClient)
    (Correction : FStateUpdatePacket)
    (hp : W.Reconciler.PredictionComponent = true) (hm : W.Reconciler.MovementComponent = true)
    (hsm : W.Reconciler.StateMachine = true) (ho : W.Owner = true)
    (hc : W.Controller.isSome = true)
    (hpm : W.Prediction.MovementComponent = true) (hps : W.Prediction.StateMachine = true)
    (hcnt : W.Reconciler.TotalCorrections < 2147483647)
    (hdiv : f32gt (FVector.Dist W.Location Correction.AuthoritativePosition)
      W.Reconciler.CorrectionThreshold = true) :
    (UNetworkReconciler.OnServerCorrection E W Correction).Reconciler.TotalCorrections =
      W.Reconciler.TotalCorrections + 1 ∧
    (UNetworkReconciler.OnServerCorrection E W Correction).Reconciler.LastCorrectionDelta =
      Correction.AuthoritativePosition.sub W.Location ∧
    ((UNetworkReconciler.OnServerCorrection E W Correction).Movement,
      (UNetworkReconciler.OnServerCorrection E W Correction).Location) =
      (W.Prediction.GetUnacknowledgedInputs Correction.AcknowledgedSequence).foldl (ReplayStep E)
        ({ W.Movement with Velocity := Correction.AuthoritativeVelocity,
                           CurrentStamina := Correction.AuthoritativeStamina },
          Correction.AuthoritativePosition) ∧
    (UNetworkReconciler.OnServerCorrection E W Correction).StateMachine.CurrentState =
      Correction.AuthoritativeState := by
  have hneed : UNetworkReconciler.NeedsReconciliation W Correction = true := by
    simp [UNetworkReconciler.NeedsReconciliation, ho, hdiv]
  obtain ⟨sMov, sLoc, sState, sPred, sOwner, sCtl, sRec⟩ := onServerCorrectionSnap_fields W Correction
  have hlist : UNetworkReconciler.ReplayInputs.UnackedInputs (OnServerCorrectionSnap W Correction)
      Correction.AcknowledgedSequence =
      W.Prediction.GetUnacknowledgedInputs Correction.AcknowledgedSequence := by
    rw [replayInputs_unackedInputs_eq _ _ (by rw [sRec]; exact hp) (by rw [sRec]; exact hm)
      (by rw [sOwner]; exact ho) (by rw [sCtl]; exact hc), sPred]
  obtain ⟨rKin, rState, rRec, -⟩ := replay_fold E
    (W.Prediction.GetUnacknowledgedInputs Correction.AcknowledgedSequence)
    (OnServerCorrectionSnap W Correction) (by rw [sPred]; exact hpm) (by rw [sPred]; exact hps)
  obtain ⟨fMov, fLoc, fState, fRec⟩ := onServerCorrectionFinish_fields
    (UNetworkReconciler.ReplayInputs E (OnServerCorrectionSnap W Correction)
      Correction.AuthoritativePosition Correction.AcknowledgedSequence) Correction
  rw [onServerCorrection_staged E W Correction hp hm hsm ho hneed, fMov, fLoc, fState, fRec]
  unfold UNetworkReconciler.ReplayInputs
  rw [hlist, rKin, rState, rRec, sMov, sLoc, sState, sRec]
  exact ⟨int32Increment_eq hcnt, rfl, rfl, rfl⟩

set_option maxRecDepth 100000 in
/-- C9 (counterexample): `sampleUpdate` lies farther than the threshold from `sampleClient`, which
holds the unacknowledged inputs 42 and 43, and replaying them changes the authoritative state.
Without a controller `ReplayInputs` returns before its loop, and without the movement or
state-machine pointer of the prediction component `SimulateInput` does nothing: in the three cases
`OnServerCorrection` leaves the authoritative movement state and position, not the replayed ones.
Without one of the reconciler's component pointers or without an owner `OnServerCorrection`
returns at once and `TotalCorrections` stays 0, and a correction counter at the `int32` maximum
does not increase. -/
theorem onServerCorrection_without_controller :
    f32gt (FVector.Dist sampleClient.Location sampleUpdate.AuthoritativePosition)
      sampleClient.Reconciler.CorrectionThreshold = true ∧
    (sampleClient.Prediction.GetUnacknowledgedInputs sampleUpdate.AcknowledgedSequence).map
      (fun Input => Input.SequenceNumber) = [42, 43] ∧
    (sampleClient.Prediction.GetUnacknowledgedInputs sampleUpdate.AcknowledgedSequence).foldl
        (ReplayStep Engine.openField)
        ({ sampleMovement with Velocity := sampleUpdate.AuthoritativeVelocity,
                               CurrentStamina := sampleUpdate.AuthoritativeStamina },
          sampleUpdate.AuthoritativePosition) ≠
      ({ sampleMovement with Velocity := sampleUpdate.AuthoritativeVelocity,
                             CurrentStamina := sampleUpdate.AuthoritativeStamina },
        sampleUpdate.AuthoritativePosition) ∧
    ((UNetworkReconciler.OnServerCorrection Engine.openField
        { sampleClient with Controller := none } sampleUpdate).Movement,
      (UNetworkReconciler.OnServerCorrection Engine.openField
        { sampleClient with Controller := none } sampleUpdate).Location) =
      ({ sampleMovement with Velocity := sampleUpdate.AuthoritativeVelocity,
                             CurrentStamina := sampleUpdate.AuthoritativeStamina },
        sampleUpdate.AuthoritativePosition) ∧
    ((UNetworkReconciler.OnServerCorrection Engine.openField
        { sampleClient with Prediction := { samplePrediction with MovementComponent := false } }
        sampleUpdate).Movement,
      (UNetworkReconciler.OnServerCorrection Engine.openField
        { sampleClient with Prediction := { samplePrediction with MovementComponent := false } }
        sampleUpdate).Location) =
      ({ sampleMovement with Velocity := sampleUpdate.AuthoritativeVelocity,
                             CurrentStamina := sampleUpdate.AuthoritativeStamina },
        sampleUpdate.AuthoritativePosition) ∧
    ((UNetworkReconciler.OnServerCorrection Engine.openField
        { sampleClient with Prediction := { samplePrediction with StateMachine := false } }
        sampleUpdate).Movement,
      (UNetworkReconciler.OnServerCorrection Engine.openField
        { sampleClient with Prediction := { samplePrediction with StateMachine := false } }
        sampleUpdate).Location) =
      ({ sampleMovement with Velocity := sampleUpdate.AuthoritativeVelocity,
                             CurrentStamina := sampleUpdate.AuthoritativeStamina },
        sampleUpdate.AuthoritativePosition) ∧
    (UNetworkReconciler.OnServerCorrection Engine.openField
        { sampleClient with Reconciler := { sampleReconciler with PredictionComponent := false } }
        sampleUpdate).Reconciler.TotalCorrections = 0 ∧
    (UNetworkReconciler.OnServerCorrection Engine.openField
        { sampleClient with Reconciler := { sampleReconciler with MovementComponent := false } }
        sampleUpdate).Reconciler.TotalCorrections = 0 ∧
    (UNetworkReconciler.OnServerCorrection Engine.openField
        { sampleClient with Reconciler := { sampleReconciler with StateMachine := false } }
        sampleUpdate).Reconciler.TotalCorrections = 0 ∧
    (UNetworkReconciler.OnServerCorrection Engine.openField
        { sampleClient with Owner := false } sampleUpdate).Reconciler.TotalCorrections = 0 ∧
    (UNetworkReconciler.OnServerCorrection Engine.openField
        { sampleClient with Reconciler := { sampleReconciler with TotalCorrections := 2147483647 } }
        sampleUpdate).Reconciler.TotalCorrections = -2147483648 := by
  refine ⟨by decide, by decide, by decide, by decide, by decide, by decide, by decide, by decide,
    by decide, by decide, by decide⟩

set_option maxRecDepth 100000 in
/-- Witness of the amended C9: `sampleUpdate` received by the fully wired `sampleClient`. -/
theorem onServerCorrection_snaps_and_replays_witness :
    f32gt (FVector.Dist sampleClient.Location sampleUpdate.AuthoritativePosition)
      sampleClient.Reconciler.CorrectionThreshold = true ∧
    (UNetworkReconciler.OnServerCorrection Engine.openField sampleClient
      sampleUpdate).Reconciler.TotalCorrections = sampleClient.Reconciler.TotalCorrections + 1 ∧
    (UNetworkReconciler.OnServerCorrection Engine.openField sampleClient
      sampleUpdate).Reconciler.LastCorrectionDelta =
      sampleUpdate.AuthoritativePosition.sub sampleClient.Location ∧
    ((UNetworkReconciler.OnServerCorrection Engine.openField sampleClient sampleUpdate).Movement,
      (UNetworkReconciler.OnServerCorrection Engine.openField sampleClient sampleUpdate).Location) =
      (sampleClient.Prediction.GetUnacknowledgedInputs sampleUpdate.AcknowledgedSequence).foldl
        (ReplayStep Engine.openField)
        ({ sampleClient.Movement with Velocity := sampleUpdate.AuthoritativeVelocity,
                                      CurrentStamina := sampleUpdate.AuthoritativeStamina },
          sampleUpdate.AuthoritativePosition) ∧
    (UNetworkReconciler.OnServerCorrection Engine.openField sampleClient
      sampleUpdate).StateMachine.CurrentState = sampleUpdate.AuthoritativeState :=
  ⟨by decide,
   onServerCorrection_snaps_and_replays Engine.openField sampleClient sampleUpdate (by decide)
     (by decide) (by decide) (by decide) (by decide) (by decide) (by decide) (by decide)
     (by decide)⟩

theorem bufferInput_suffix (P : UNetworkPrediction) (Input : FInputPacket) :
    (P.BufferInput Input).InputBuffer <:+ P.InputBuffer ++ [Input] := by
  unfold UNetworkPrediction.BufferInput
  simp only []
  split_ifs
  · exact List.drop_suffix _ _
  · exact List.suffix_refl _

theorem foldl_bufferInput_suffix (Inputs : List FInputPacket) :
    ∀ P : UNetworkPrediction,
      (Inputs.foldl UNetworkPrediction.BufferInput P).InputBuffer <:+ P.InputBuffer ++ Inputs := by
  induction Inputs with
  | nil => intro P; simp
  | cons Input rest ih =>
    intro P
    simp only [List.foldl_cons]
    have h1 := ih (P.BufferInput Input)
    have h2 : (P.BufferInput Input).InputBuffer ++ rest <:+ (P.InputBuffer ++ [Input]) ++ rest := by
      obtain ⟨t, ht⟩ := bufferInput_suffix P Input
      exact ⟨t, by rw [← ht, List.append_assoc]⟩
    have h3 := h1.trans h2
    simpa using h3

theorem strictlyAscending_iff_chain (l : List FInputPacket) :
    StrictlyAscending l ↔ l.Chain' (fun a b => a.SequenceNumber < b.SequenceNumber) := by
  induction l with
  | nil => simp [StrictlyAscending]
  | cons a rest ih =>
    cases rest with
    | nil => simp [StrictlyAscending]
    | cons b rest => rw [StrictlyAscending, List.chain'_cons, ih]

/-- C10 (counterexample): buffering an input with sequence number 5 and then one with sequence
number 3 into an empty buffer makes `ReplayInputs`, called with `FromSequence` 0, pass the inputs
to `SimulateInput` in the order 5, 3. -/
theorem replayInputs_follows_buffer_order :
    (UNetworkReconciler.ReplayInputs.UnackedInputs
      { sampleClient with Prediction :=
          (List.foldl UNetworkPrediction.BufferInput { samplePrediction with InputBuffer := [] }
            outOfOrderInputs) } 0).map
      (fun Input => Input.SequenceNumber) = [5, 3] ∧
    ¬ StrictlyAscending (UNetworkReconciler.ReplayInputs.UnackedInputs
      { sampleClient with Prediction :=
          (List.foldl UNetworkPrediction.BufferInput { samplePrediction with InputBuffer := [] }
            outOfOrderInputs) } 0) := by
  refine ⟨by decide, by decide⟩

/-- C10 (amended): when inputs with strictly increasing sequence numbers are buffered by
`BufferInput`, one call each, into a prediction component whose input buffer is empty, then for
every client holding the resulting prediction component and every `FromSequence` the inputs that
`ReplayInputs` passes to `SimulateInput` have strictly ascending sequence numbers. -/
theorem replayInputs_ascending (P : UNetworkPrediction) (Inputs : List FInputPacket) (W : FClient)
    (FromSequence : Nat) (hempty : P.InputBuffer = []) (hasc : StrictlyAscending Inputs)
    (hW : W.Prediction = Inputs.foldl UNetworkPrediction.BufferInput P) :
    StrictlyAscending (UNetworkReconciler.ReplayInputs.UnackedInputs W FromSequence) := by
  rw [strictlyAscending_iff_chain] at *
  haveI : IsTrans FInputPacket (fun a b => a.SequenceNumber < b.SequenceNumber) :=
    ⟨fun _ _ _ h1 h2 => Nat.lt_trans h1 h2⟩
  have hsuf := foldl_bufferInput_suffix Inputs P
  rw [hempty, List.nil_append, ← hW] at hsuf
  have hpw : W.Prediction.InputBuffer.Pairwise (fun a b => a.SequenceNumber < b.SequenceNumber) :=
    (List.chain'_iff_pairwise.mp hasc).sublist hsuf.sublist
  unfold UNetworkReconciler.ReplayInputs.UnackedInputs UNetworkPrediction.GetUnacknowledgedInputs
  split_ifs
  · exact List.chain'_nil
  · exact List.chain'_nil
  · exact List.chain'_nil
  · exact (hpw.sublist (List.filter_sublist _)).chain'

/-- Witness of the amended C10: the inputs 1, 2, 3, 5 buffered into an empty buffer, replayed
from sequence 2. -/
theorem replayInputs_ascending_witness :
    StrictlyAscending sparseInputs ∧
    StrictlyAscending (UNetworkReconciler.ReplayInputs.UnackedInputs
      { sampleClient with Prediction :=
          (List.foldl UNetworkPrediction.BufferInput { samplePrediction with InputBuffer := [] }
            sparseInputs) } 2) :=
  ⟨by decide,
   replayInputs_ascending { samplePrediction with InputBuffer := [] } _ _ 2 rfl (by decide) rfl⟩

/-! ## The below-threshold path of the reconciler (C11) -/

theorem needsReconciliation_false_of_within (W : FClient) (Correction : FStateUpdatePacket)
    (hwithin : f32gt (FVector.Dist W.Location Correction.AuthoritativePosition)
      W.Reconciler.CorrectionThreshold = false) :
    UNetworkReconciler.NeedsReconciliation W Correction = false := by
  unfold UNetworkReconciler.NeedsReconciliation
  split_ifs
  · rfl
  · exact hwithin

/-- Below the threshold `OnServerCorrection` changes nothing but the controller, whatever the
wiring of the reconciler. -/
theorem onServerCorrection_within_threshold_frame (E : Engine) (W : FClient)
    (Correction : FStateUpdatePacket)
    (hwithin : f32gt (FVector.Dist W.Location Correction.AuthoritativePosition)
      W.Reconciler.CorrectionThreshold = false) :
    UNetworkReconciler.OnServerCorrection E W Correction =
      { W with Controller := (UNetworkReconciler.OnServerCorrection E W Correction).Controller } := by
  unfold UNetworkReconciler.OnServerCorrection
  rw [needsReconciliation_false_of_within W Correction hwithin]
  split_ifs
  · rfl
  · rfl
  · cases W.Controller <;> rfl
  · rename_i h; simp at h

set_option maxRecDepth 100000 in
/-- C11 (counterexample): `nearUpdate` lies within the threshold of `sampleClient` and acknowledges
sequence 41.  With a controller that holds the commands 40 and 42, `OnServerCorrection` also removes
command 40 from the controller's input buffer, so the marker is not the only effect.  Without a
controller, without one of the reconciler's component pointers or without an owner, the call has no
effect at all and the marker stays at 40. -/
theorem onServerCorrection_within_threshold_prunes_controller :
    f32gt (FVector.Dist sampleClient.Location nearUpdate.AuthoritativePosition)
      sampleClient.Reconciler.CorrectionThreshold = false ∧
    nearUpdate.AcknowledgedSequence = 41 ∧
    busyController.InputBuffer.map (fun Input => Input.SequenceNumber) = [40, 42] ∧
    ((UNetworkReconciler.OnServerCorrection Engine.openField
        { sampleClient with Controller := some busyController } nearUpdate).Controller.map
      (fun PC => PC.InputBuffer.map (fun Input => Input.SequenceNumber))) = some [42] ∧
    UNetworkReconciler.OnServerCorrection Engine.openField
        { sampleClient with Controller := some busyController } nearUpdate ≠
      { sampleClient with
        Controller := some { busyController with LastAcknowledgedSequence := 41 } } ∧
    UNetworkReconciler.OnServerCorrection Engine.openField
        { sampleClient with Controller := none } nearUpdate =
      { sampleClient with Controller := none } ∧
    ((UNetworkReconciler.OnServerCorrection Engine.openField
        { sampleClient with Reconciler := { sampleReconciler with PredictionComponent := false } }
        nearUpdate).Controller.map (fun PC => PC.LastAcknowledgedSequence)) = some 40 ∧
    ((UNetworkReconciler.OnServerCorrection Engine.openField
        { sampleClient with Reconciler := { sampleReconciler with MovementComponent := false } }
        nearUpdate).Controller.map (fun PC => PC.LastAcknowledgedSequence)) = some 40 ∧
    ((UNetworkReconciler.OnServerCorrection Engine.openField
        { sampleClient with Reconciler := { sampleReconciler with StateMachine := false } }
        nearUpdate).Controller.map (fun PC => PC.LastAcknowledgedSequence)) = some 40 ∧
    ((UNetworkReconciler.OnServerCorrection Engine.openField
        { sampleClient with Owner := false }
        nearUpdate).Controller.map (fun PC => PC.LastAcknowledgedSequence)) = some 40 := by
  refine ⟨by decide, by decide, by decide, by decide, by decide, by decide, by decide, by decide,
    by decide, by decide⟩

/-- C11 (amended): when the reconciler has its prediction, movement and state-machine components
and an owner, and the owner has a player controller, then `OnServerCorrection` on a State Update
whose position is not farther than `CorrectionThreshold` from the local position mutates no
kinematic or reconciliation state (local position, velocity, stamina, action-state,
`TotalCorrections`, `LastCorrectionDelta`, the predictor's input buffer and the prediction history
are unchanged, no input is re-simulated): the resulting client is the old one except for its
controller, on which the only effect is that of `AcknowledgeInput`, namely the acknowledged-sequence
marker becomes the packet's `AcknowledgedSequence` and the commands with a sequence number up to it
leave the controller's own input buffer. -/
theorem onServerCorrection_within_threshold (E : Engine) (W : FClient)
    (Correction : FStateUpdatePacket) (PC : APocketStrikerPlayerController)
    (hp : W.Reconciler.PredictionComponent = true) (hm : W.Reconciler.MovementComponent = true)
    (hsm : W.Reconciler.StateMachine = true) (ho : W.Owner = true)
    (hc : W.Controller = some PC)
    (hwithin : f32gt (FVector.Dist W.Location Correction.AuthoritativePosition)
      W.Reconciler.CorrectionThreshold = false) :
    UNetworkReconciler.OnServerCorrection E W Correction =
      { W with Controller := some (
          { PC with
            LastAcknowledgedSequence := Correction.AcknowledgedSequence
            InputBuffer := PC.InputBuffer.filter
              (fun Input => decide (Correction.AcknowledgedSequence < Input.SequenceNumber)) }) } ∧
    (UNetworkReconciler.OnServerCorrection E W Correction).Location = W.Location ∧
    (UNetworkReconciler.OnServerCorrection E W Correction).Movement.Velocity = W.Movement.Velocity ∧
    (UNetworkReconciler.OnServerCorrection E W Correction).Movement.CurrentStamina =
      W.Movement.CurrentStamina ∧
    (UNetworkReconciler.OnServerCorrection E W Correction).StateMachine.CurrentState =
      W.StateMachine.CurrentState ∧
    (UNetworkReconciler.OnServerCorrection E W Correction).Reconciler.TotalCorrections =
      W.Reconciler.TotalCorrections ∧
    (UNetworkReconciler.OnServerCorrection E W Correction).Reconciler.LastCorrectionDelta =
      W.Reconciler.LastCorrectionDelta ∧
    (UNetworkReconciler.OnServerCorrection E W Correction).Prediction.InputBuffer =
      W.Prediction.InputBuffer ∧
    (UNetworkReconciler.OnServerCorrection E W Correction).Prediction.StateHistory =
      W.Prediction.StateHistory := by
  have key : UNetworkReconciler.OnServerCorrection E W Correction =
      { W with Controller := some (
          { PC with
            LastAcknowledgedSequence := Correction.AcknowledgedSequence
            InputBuffer := PC.InputBuffer.filter
              (fun Input => decide (Correction.AcknowledgedSequence < Input.SequenceNumber)) }) } := by
    unfold UNetworkReconciler.OnServerCorrection
    rw [needsReconciliation_false_of_within W Correction hwithin, if_neg (by simp [hp, hm, hsm]),
      if_neg (by simp [ho]), if_pos (by simp), hc]
    simp only [APocketStrikerPlayerController.AcknowledgeInput]
    congr 3
    apply List.filter_congr
    intro x _
    by_cases h : x.SequenceNumber ≤ Correction.AcknowledgedSequence
    · simp [h, Nat.not_lt.mpr h]
    · simp [h, Nat.lt_of_not_le h]
  rw [key]
  exact ⟨rfl, rfl, rfl, rfl, rfl, rfl, rfl, rfl, rfl⟩

set_option maxRecDepth 100000 in
/-- Witness of the amended C11: `nearUpdate` received by `sampleClient` with the controller that
holds the commands 40 and 42. -/
theorem onServerCorrection_within_threshold_witness :
    UNetworkReconciler.OnServerCorrection Engine.openField
        { sampleClient with Controller := some busyController } nearUpdate =
      { sampleClient with Controller := some (
          { busyController with
            LastAcknowledgedSequence := 41
            InputBuffer := [{ sampleInput.ToCommand with SequenceNumber := 42 }] }) } :=
  (onServerCorrection_within_threshold Engine.openField
    { sampleClient with Controller := some busyController } nearUpdate busyController
    (by decide) (by decide) (by decide) (by decide) rfl (by decide)).1

/-! ## The buffers of the predictor (C12 to C15) -/

theorem bufferInput_inputBuffer (P : UNetworkPrediction) (Input : FInputPacket)
    (hcap : 0 ≤ P.MaxInputBufferSize) :
    (P.BufferInput Input).InputBuffer =
      (P.InputBuffer ++ [Input]).drop
        ((P.InputBuffer ++ [Input]).length - P.MaxInputBufferSize.toNat) ∧
    (P.BufferInput Input).MaxInputBufferSize = P.MaxInputBufferSize := by
  unfold UNetworkPrediction.BufferInput
  simp only []
  split_ifs with h
  · refine ⟨?_, rfl⟩
    show List.drop _ _ = List.drop _ _
    congr 1
    obtain ⟨c, hc⟩ := Int.eq_ofNat_of_zero_le hcap
    rw [hc, Int.toNat_ofNat, Int.toNat_sub]
  · refine ⟨?_, rfl⟩
    obtain ⟨c, hc⟩ := Int.eq_ofNat_of_zero_le hcap
    rw [hc] at h
    have h0 : (P.InputBuffer ++ [Input]).length - P.MaxInputBufferSize.toNat = 0 := by
      rw [hc, Int.toNat_ofNat]
      have h1 : ((P.InputBuffer ++ [Input]).length : Int) ≤ (c : Int) := not_lt.mp h
      have h2 : (P.InputBuffer ++ [Input]).length ≤ c := by exact_mod_cast h1
      exact Nat.sub_eq_zero_of_le h2
    rw [h0, List.drop_zero]

theorem drop_length_sub_append {α : Type} (c : Nat) (l m : List α) :
    (l.drop (l.length - c) ++ m).drop ((l.drop (l.length - c) ++ m).length - c) =
      (l ++ m).drop ((l ++ m).length - c) := by
  have hsplit : l ++ m = l.take (l.length - c) ++ (l.drop (l.length - c) ++ m) := by
    rw [← List.append_assoc, List.take_append_drop]
  have hlen : (l.take (l.length - c)).length = l.length - c := by
    rw [List.length_take]; omega
  have hk : (l ++ m).length - c =
      (l.take (l.length - c)).length + ((l.drop (l.length - c) ++ m).length - c) := by
    simp only [List.length_append, List.length_drop, hlen]
    omega
  conv_rhs => rw [hk, hsplit]
  rw [List.drop_append]

theorem foldl_bufferInput_inputBuffer (Inputs : List FInputPacket) :
    ∀ P : UNetworkPrediction, 0 ≤ P.MaxInputBufferSize →
      P.InputBuffer.length ≤ P.MaxInputBufferSize.toNat →
      (Inputs.foldl UNetworkPrediction.BufferInput P).InputBuffer =
        (P.InputBuffer ++ Inputs).drop
          ((P.InputBuffer ++ Inputs).length - P.MaxInputBufferSize.toNat) := by
  induction Inputs with
  | nil =>
    intro P _ h
    have h0 : (P.InputBuffer ++ []).length - P.MaxInputBufferSize.toNat = 0 := by
      simp only [List.append_nil]; omega
    rw [List.foldl_nil, h0, List.drop_zero, List.append_nil]
  | cons Input rest ih =>
    intro P hcap _
    obtain ⟨hb, hc⟩ := bufferInput_inputBuffer P Input hcap
    have hlen : (P.BufferInput Input).InputBuffer.length ≤
        (P.BufferInput Input).MaxInputBufferSize.toNat := by
      rw [hb, hc, List.length_drop]; omega
    rw [List.foldl_cons, ih (P.BufferInput Input) (hc ▸ hcap) hlen, hc, hb, drop_length_sub_append,
      List.append_assoc, List.singleton_append]

theorem savePredictionState_stateHistory (W : FClient) (n : Nat)
    (hcap : 0 ≤ W.Prediction.MaxStateHistorySize) :
    (UNetworkPrediction.SavePredictionState W n).Prediction.StateHistory =
      (W.Prediction.StateHistory ++ [(UNetworkPrediction.CaptureCurrentState W n).1]).drop
        ((W.Prediction.StateHistory ++ [(UNetworkPrediction.CaptureCurrentState W n).1]).length -
          W.Prediction.MaxStateHistorySize.toNat) ∧
    (UNetworkPrediction.SavePredictionState W n).Prediction.MaxStateHistorySize =
      W.Prediction.MaxStateHistorySize ∧
    (UNetworkPrediction.CaptureCurrentState W n).1.SequenceNumber = n := by
  obtain ⟨c, hc⟩ := Int.eq_ofNat_of_zero_le hcap
  have hseq : (UNetworkPrediction.CaptureCurrentState W n).1.SequenceNumber = n := by
    unfold UNetworkPrediction.CaptureCurrentState
    simp only []
    split_ifs <;> rfl
  refine ⟨?_, ?_, hseq⟩
  · generalize hS : (UNetworkPrediction.CaptureCurrentState W n).1 = S
    have hW : (UNetworkPrediction.SavePredictionState W n).Prediction.StateHistory =
        if ((W.Prediction.StateHistory ++ [S]).length : Int) > W.Prediction.MaxStateHistorySize then
          (W.Prediction.StateHistory ++ [S]).drop
            (((W.Prediction.StateHistory ++ [S]).length : Int) -
              W.Prediction.MaxStateHistorySize).toNat
        else W.Prediction.StateHistory ++ [S] := by
      rw [← hS]; rfl
    rw [hW, hc, Int.toNat_ofNat]
    split_ifs with h
    · rw [Int.toNat_sub]
    · have h1 : ((W.Prediction.StateHistory ++ [S]).length : Int) ≤ (c : Int) := not_lt.mp h
      have h2 : (W.Prediction.StateHistory ++ [S]).length ≤ c := by exact_mod_cast h1
      rw [Nat.sub_eq_zero_of_le h2, List.drop_zero]
  · rfl

theorem lastElements_append_singleton {α : Type} (c : Nat) (l : List α) (x : α) (hc : 1 ≤ c) :
    (l ++ [x]).drop ((l ++ [x]).length - c) = lastElements (min c (l.length + 1)) (l ++ [x]) ∧
    (l ++ [x]).drop ((l ++ [x]).length - c) = lastElements (min c (l.length + 1) - 1) l ++ [x] ∧
    ((l ++ [x]).drop ((l ++ [x]).length - c)).length = min c (l.length + 1) := by
  have hlen : (l ++ [x]).length = l.length + 1 := by simp
  have hk : (l ++ [x]).length - c = l.length - (min c (l.length + 1) - 1) := by
    rw [hlen]; omega
  refine ⟨?_, ?_, ?_⟩
  · unfold lastElements
    congr 1
    rw [hlen]; omega
  · unfold lastElements
    rw [hk, List.drop_append_of_le_length (Nat.sub_le _ _)]
  · rw [List.length_drop, hlen]; omega

/-- C12: for every input buffer and every `LastAckedSequence`, `GetUnacknowledgedInputs` returns
exactly the buffered inputs whose sequence number is greater than `LastAckedSequence`: the result
is the buffer filtered by that condition, hence a sublist of the buffer (same relative order), an
input with a greater sequence number occurs in it as often as in the buffer and no other input
occurs; the call is a function of the component that returns only the list, the buffer is not
modified.  After buffering inputs with the sequences 1, 2, 3, 5 into an empty buffer that has room
for them, `GetUnacknowledgedInputs(2)` returns the inputs with the sequences 3 and 5. -/
theorem getUnacknowledgedInputs_returns_newer :
    (∀ (P : UNetworkPrediction) (LastAckedSequence : Nat),
      P.GetUnacknowledgedInputs LastAckedSequence =
        P.InputBuffer.filter (fun Input => decide (LastAckedSequence < Input.SequenceNumber)) ∧
      (P.GetUnacknowledgedInputs LastAckedSequence).Sublist P.InputBuffer ∧
      (∀ Input : FInputPacket, Input ∈ P.GetUnacknowledgedInputs LastAckedSequence ↔
        Input ∈ P.InputBuffer ∧ LastAckedSequence < Input.SequenceNumber) ∧
      (∀ Input : FInputPacket, (P.GetUnacknowledgedInputs LastAckedSequence).count Input =
        if LastAckedSequence < Input.SequenceNumber then P.InputBuffer.count Input else 0)) ∧
    (∀ (P : UNetworkPrediction) (a b c d : FInputPacket), P.InputBuffer = [] →
      4 ≤ P.MaxInputBufferSize →
      a.SequenceNumber = 1 → b.SequenceNumber = 2 → c.SequenceNumber = 3 → d.SequenceNumber = 5 →
      ((((P.BufferInput a).BufferInput b).BufferInput c).BufferInput d).GetUnacknowledgedInputs 2 =
        [c, d]) := by
  refine ⟨fun P n => ⟨rfl, List.filter_sublist _, ?_, ?_⟩, ?_⟩
  · intro Input
    simp [UNetworkPrediction.GetUnacknowledgedInputs]
  · intro Input
    unfold UNetworkPrediction.GetUnacknowledgedInputs
    split_ifs with h
    · exact List.count_filter (by simpa using h)
    · rw [List.count_eq_zero]
      intro hm
      exact h (by simpa using (List.mem_filter.mp hm).2)
  · intro P a b c d hempty hcap ha hb hc hd
    have hfold := foldl_bufferInput_inputBuffer [a, b, c, d] P (by omega)
      (by rw [hempty]; exact Nat.zero_le _)
    simp only [List.foldl_cons, List.foldl_nil] at hfold
    have h4 : ([] ++ [a, b, c, d] : List FInputPacket).length - P.MaxInputBufferSize.toNat = 0 := by
      simp only [List.nil_append, List.length_cons, List.length_nil]; omega
    rw [hempty, h4, List.drop_zero, List.nil_append] at hfold
    unfold UNetworkPrediction.GetUnacknowledgedInputs
    rw [hfold]
    simp [List.filter, ha, hb, hc, hd]

/-- Witness of C12: the inputs 1, 2, 3, 5 buffered into the empty buffer of capacity 128. -/
theorem getUnacknowledgedInputs_returns_newer_witness :
    (((({ samplePrediction with InputBuffer := [] }.BufferInput
        { sampleInput with SequenceNumber := 1 }).BufferInput
        { sampleInput with SequenceNumber := 2 }).BufferInput
        { sampleInput with SequenceNumber := 3 }).BufferInput
        { sampleInput with SequenceNumber := 5 }).GetUnacknowledgedInputs 2 =
      [{ sampleInput with SequenceNumber := 3 }, { sampleInput with SequenceNumber := 5 }] :=
  getUnacknowledgedInputs_returns_newer.2 { samplePrediction with InputBuffer := [] }
    { sampleInput with SequenceNumber := 1 } { sampleInput with SequenceNumber := 2 }
    { sampleInput with SequenceNumber := 3 } { sampleInput with SequenceNumber := 5 }
    rfl (by decide) rfl rfl rfl rfl

/-- C13: appending to either bounded buffer (`BufferInput` on `InputBuffer` with capacity
`MaxInputBufferSize`, `SavePredictionState` on `StateHistory` with capacity `MaxStateHistorySize`,
the capacity being at least 1) leaves the buffer holding exactly the last min(capacity, n + 1)
elements of the old contents followed by the new entry, in their order, where n is the old length:
these are the last min(capacity, n + 1) - 1 old elements and then the new entry, and the length is
min(capacity, n + 1), which never exceeds the capacity.  Buffering inputs with the sequences
1 to 130 into an empty buffer of capacity 128 leaves exactly the sequences 3 to 130, in order. -/
theorem bounded_buffers_keep_newest :
    (∀ (P : UNetworkPrediction) (Input : FInputPacket), 1 ≤ P.MaxInputBufferSize →
      (P.BufferInput Input).InputBuffer =
        lastElements (min P.MaxInputBufferSize.toNat (P.InputBuffer.length + 1))
          (P.InputBuffer ++ [Input]) ∧
      (P.BufferInput Input).InputBuffer =
        lastElements (min P.MaxInputBufferSize.toNat (P.InputBuffer.length + 1) - 1)
          P.InputBuffer ++ [Input] ∧
      (P.BufferInput Input).InputBuffer.length =
        min P.MaxInputBufferSize.toNat (P.InputBuffer.length + 1) ∧
      ((P.BufferInput Input).InputBuffer.length : Int) ≤ P.MaxInputBufferSize) ∧
    (∀ (W : FClient) (SequenceNumber : Nat), 1 ≤ W.Prediction.MaxStateHistorySize →
      (UNetworkPrediction.CaptureCurrentState W SequenceNumber).1.SequenceNumber = SequenceNumber ∧
      (UNetworkPrediction.SavePredictionState W SequenceNumber).Prediction.StateHistory =
        lastElements (min W.Prediction.MaxStateHistorySize.toNat
            (W.Prediction.StateHistory.length + 1))
          (W.Prediction.StateHistory ++
            [(UNetworkPrediction.CaptureCurrentState W SequenceNumber).1]) ∧
      (UNetworkPrediction.SavePredictionState W SequenceNumber).Prediction.StateHistory =
        lastElements (min W.Prediction.MaxStateHistorySize.toNat
            (W.Prediction.StateHistory.length + 1) - 1) W.Prediction.StateHistory ++
          [(UNetworkPrediction.CaptureCurrentState W SequenceNumber).1] ∧
      (UNetworkPrediction.SavePredictionState W SequenceNumber).Prediction.StateHistory.length =
        min W.Prediction.MaxStateHistorySize.toNat (W.Prediction.StateHistory.length + 1) ∧
      ((UNetworkPrediction.SavePredictionState W SequenceNumber).Prediction.StateHistory.length
        : Int) ≤ W.Prediction.MaxStateHistorySize) ∧
    (∀ (P : UNetworkPrediction) (Inputs : List FInputPacket), P.InputBuffer = [] →
      P.MaxInputBufferSize = 128 →
      Inputs.map (fun Input => Input.SequenceNumber) = List.range' 1 130 →
      (Inputs.foldl UNetworkPrediction.BufferInput P).InputBuffer = lastElements 128 Inputs ∧
      (Inputs.foldl UNetworkPrediction.BufferInput P).InputBuffer.map
        (fun Input => Input.SequenceNumber) = List.range' 3 128) := by
  refine ⟨?_, ?_, ?_⟩
  · intro P Input hcap
    obtain ⟨hb, -⟩ := bufferInput_inputBuffer P Input (by omega)
    obtain ⟨h1, h2, h3⟩ := lastElements_append_singleton P.MaxInputBufferSize.toNat
      P.InputBuffer Input (by omega)
    rw [hb]
    refine ⟨h1, h2, h3, ?_⟩
    rw [h3]
    omega
  · intro W n hcap
    obtain ⟨hb, -, hseq⟩ := savePredictionState_stateHistory W n (by omega)
    obtain ⟨h1, h2, h3⟩ := lastElements_append_singleton W.Prediction.MaxStateHistorySize.toNat
      W.Prediction.StateHistory (UNetworkPrediction.CaptureCurrentState W n).1 (by omega)
    rw [hb]
    refine ⟨hseq, h1, h2, h3, ?_⟩
    rw [h3]
    omega
  · intro P Inputs hempty hcap hseq
    have hfold := foldl_bufferInput_inputBuffer Inputs P (by omega)
      (by rw [hempty]; exact Nat.zero_le _)
    rw [hempty, hcap, List.nil_append] at hfold
    have hlen : Inputs.length = 130 := by
      have := congrArg List.length hseq
      simpa using this
    refine ⟨hfold, ?_⟩
    rw [hfold, hlen, List.map_drop, hseq]
    decide

/-- Witness of C13: one more input buffered into `samplePrediction`, one more snapshot saved by
`sampleClient`, and 130 inputs with the sequences 1 to 130 buffered into an empty buffer. -/
theorem bounded_buffers_keep_newest_witness :
    (samplePrediction.BufferInput sampleInput).InputBuffer.length = 4 ∧
    (UNetworkPrediction.SavePredictionState sampleClient 44).Prediction.StateHistory.length = 1 ∧
    (((List.range' 1 130).map (fun n => { sampleInput with SequenceNumber := n })).foldl
      UNetworkPrediction.BufferInput { samplePrediction with InputBuffer := [] }).InputBuffer.map
        (fun Input => Input.SequenceNumber) = List.range' 3 128 :=
  ⟨(bounded_buffers_keep_newest.1 samplePrediction sampleInput (by decide)).2.2.1,
   (bounded_buffers_keep_newest.2.1 sampleClient 44 (by decide)).2.2.2.1,
   (bounded_buffers_keep_newest.2.2 { samplePrediction with InputBuffer := [] }
     ((List.range' 1 130).map (fun n => { sampleInput with SequenceNumber := n })) rfl rfl
     (by simp [List.map_map, Function.comp_def])).2⟩

/-- C14: `ClearAcknowledgedInputs` removes exactly the inputs whose sequence number is at most
`AckedSequence` and keeps all others in their order: the new buffer is the old one filtered by
`AckedSequence < SequenceNumber`, a sublist of the old buffer in which an input with a greater
sequence number occurs as often as before and no other input occurs.  Consequently
`GetUnacknowledgedInputs(AckedSequence)` afterwards returns the whole remaining buffer. -/
theorem clearAcknowledgedInputs_removes_acked (P : UNetworkPrediction) (AckedSequence : Nat) :
    (P.ClearAcknowledgedInputs AckedSequence).InputBuffer =
      P.InputBuffer.filter (fun Input => decide (AckedSequence < Input.SequenceNumber)) ∧
    (P.ClearAcknowledgedInputs AckedSequence).InputBuffer.Sublist P.InputBuffer ∧
    (∀ Input : FInputPacket, Input ∈ (P.ClearAcknowledgedInputs AckedSequence).InputBuffer ↔
      Input ∈ P.InputBuffer ∧ ¬ Input.SequenceNumber ≤ AckedSequence) ∧
    (∀ Input : FInputPacket, (P.ClearAcknowledgedInputs AckedSequence).InputBuffer.count Input =
      if Input.SequenceNumber ≤ AckedSequence then 0 else P.InputBuffer.count Input) ∧
    (P.ClearAcknowledgedInputs AckedSequence).GetUnacknowledgedInputs AckedSequence =
      (P.ClearAcknowledgedInputs AckedSequence).InputBuffer := by
  have hfilter : (P.ClearAcknowledgedInputs AckedSequence).InputBuffer =
      P.InputBuffer.filter (fun Input => decide (AckedSequence < Input.SequenceNumber)) := by
    unfold UNetworkPrediction.ClearAcknowledgedInputs
    apply List.filter_congr
    intro x _
    by_cases h : x.SequenceNumber ≤ AckedSequence
    · simp [h, Nat.not_lt.mpr h]
    · simp [h, Nat.lt_of_not_le h]
  refine ⟨hfilter, ?_, ?_, ?_, ?_⟩
  · rw [hfilter]; exact List.filter_sublist _
  · intro Input
    rw [hfilter]
    simp
  · intro Input
    rw [hfilter]
    split_ifs with h
    · rw [List.count_eq_zero]
      intro hm
      have := (List.mem_filter.mp hm).2
      simp at this
      omega
    · exact List.count_filter (by simpa using h)
  · unfold UNetworkPrediction.GetUnacknowledgedInputs
    rw [hfilter, List.filter_filter]
    simp

/-- C15 (counterexample): with snapshots 4, 5, 6 in the history, `ClearOldStates(5)` leaves the
snapshots 5 and 6: the snapshot whose sequence number equals the threshold remains. -/
theorem clearOldStates_keeps_threshold_snapshot :
    ({ samplePrediction with StateHistory := sampleHistory }.ClearOldStates 5).StateHistory.map
      (fun State : FPredictionState => State.SequenceNumber) = [5, 6] ∧
    ∃ State : FPredictionState,
      State ∈ ({ samplePrediction with StateHistory := sampleHistory }.ClearOldStates
        5).StateHistory ∧ State.SequenceNumber = 5 := by
  refine ⟨by decide, { FPredictionState.init with SequenceNumber := 5 }, by decide, rfl⟩

/-- C15 (amended): `ClearOldStates` drops every snapshot whose sequence number is less than
`OldestNeededSequence` and keeps the others, those with a sequence number equal to or greater than
the threshold, in their order: the new history is the old one filtered by
`OldestNeededSequence <= SequenceNumber`, a sublist of the old history, and nothing else of the
component changes. -/
theorem clearOldStates_drops_older (P : UNetworkPrediction) (OldestNeededSequence : Nat) :
    (P.ClearOldStates OldestNeededSequence).StateHistory =
      P.StateHistory.filter (fun State => decide (OldestNeededSequence ≤ State.SequenceNumber)) ∧
    (P.ClearOldStates OldestNeededSequence).StateHistory.Sublist P.StateHistory ∧
    (∀ State : FPredictionState, State ∈ (P.ClearOldStates OldestNeededSequence).StateHistory ↔
      State ∈ P.StateHistory ∧ OldestNeededSequence ≤ State.SequenceNumber) ∧
    (∀ State : FPredictionState,
      (P.ClearOldStates OldestNeededSequence).StateHistory.count State =
        if State.SequenceNumber < OldestNeededSequence then 0 else P.StateHistory.count State) ∧
    P.ClearOldStates OldestNeededSequence =
      { P with StateHistory := (P.ClearOldStates OldestNeededSequence).StateHistory } := by
  have hfilter : (P.ClearOldStates OldestNeededSequence).StateHistory =
      P.StateHistory.filter
        (fun State => decide (OldestNeededSequence ≤ State.SequenceNumber)) := by
    unfold UNetworkPrediction.ClearOldStates
    apply List.filter_congr
    intro x _
    by_cases h : x.SequenceNumber < OldestNeededSequence
    · simp [h, Nat.not_le.mpr h]
    · simp [h, Nat.le_of_not_lt h]
  refine ⟨hfilter, ?_, ?_, ?_, rfl⟩
  · rw [hfilter]; exact List.filter_sublist _
  · intro State
    rw [hfilter]
    simp
  · intro State
    rw [hfilter]
    split_ifs with h
    · rw [List.count_eq_zero]
      intro hm
      have := (List.mem_filter.mp hm).2
      simp at this
      omega
    · exact List.count_filter (by simpa using h)

/-! ## The prediction history and the input buffer under reconciliation (C16, C17) -/

theorem strictlyIncreasing_iff_pairwise (l : List Nat) :
    StrictlyIncreasing l ↔ l.Pairwise (fun a b => a < b) := by
  rw [← List.chain'_iff_pairwise]
  induction l with
  | nil => simp [StrictlyIncreasing]
  | cons a rest ih =>
    cases rest with
    | nil => simp [StrictlyIncreasing]
    | cons b rest => rw [StrictlyIncreasing, List.chain'_cons, ih]

theorem savePredictionState_suffix (W : FClient) (n : Nat) :
    (UNetworkPrediction.SavePredictionState W n).Prediction.StateHistory <:+
      W.Prediction.StateHistory ++ [(UNetworkPrediction.CaptureCurrentState W n).1] := by
  generalize hS : (UNetworkPrediction.CaptureCurrentState W n).1 = S
  have hW : (UNetworkPrediction.SavePredictionState W n).Prediction.StateHistory =
      if ((W.Prediction.StateHistory ++ [S]).length : Int) > W.Prediction.MaxStateHistorySize then
        (W.Prediction.StateHistory ++ [S]).drop
          (((W.Prediction.StateHistory ++ [S]).length : Int) -
            W.Prediction.MaxStateHistorySize).toNat
      else W.Prediction.StateHistory ++ [S] := by
    rw [← hS]; rfl
  rw [hW]
  split_ifs
  · exact List.drop_suffix _ _
  · exact List.suffix_refl _

theorem captureCurrentState_sequenceNumber (W : FClient) (n : Nat) :
    (UNetworkPrediction.CaptureCurrentState W n).1.SequenceNumber = n := by
  unfold UNetworkPrediction.CaptureCurrentState
  simp only []
  split_ifs <;> rfl

/-- The part of the history invariant that the code keeps: a snapshot saved under a sequence
number greater than all stored ones, and `ClearOldStates`, leave the sequence numbers of the
history strictly increasing. -/
theorem history_increasing_without_replay (W : FClient) (n : Nat)
    (hasc : StrictlyIncreasing (historySequences W)) :
    ((∀ State ∈ W.Prediction.StateHistory, State.SequenceNumber < n) →
      StrictlyIncreasing (historySequences (UNetworkPrediction.SavePredictionState W n))) ∧
    StrictlyIncreasing
      (historySequences { W with Prediction := W.Prediction.ClearOldStates n }) := by
  unfold historySequences at *
  rw [strictlyIncreasing_iff_pairwise, List.pairwise_map] at hasc
  constructor
  · intro hnew
    rw [strictlyIncreasing_iff_pairwise, List.pairwise_map]
    have hall : (W.Prediction.StateHistory ++
        [(UNetworkPrediction.CaptureCurrentState W n).1]).Pairwise
        (fun a b => a.SequenceNumber < b.SequenceNumber) := by
      rw [List.pairwise_append]
      refine ⟨hasc, List.pairwise_singleton _ _, ?_⟩
      intro a ha b hb
      rw [List.mem_singleton] at hb
      rw [hb, captureCurrentState_sequenceNumber]
      exact hnew a ha
    exact hall.sublist (savePredictionState_suffix W n).sublist
  · rw [strictlyIncreasing_iff_pairwise, List.pairwise_map]
    exact hasc.sublist (List.filter_sublist _)

theorem simulateInput_inputBuffer (E : Engine) (W : FClient) (Input : FInputPacket)
    (DeltaTime : F32) :
    (UNetworkPrediction.SimulateInput E W Input DeltaTime).Prediction.InputBuffer =
      W.Prediction.InputBuffer := by
  unfold UNetworkPrediction.SimulateInput
  split_ifs
  · rfl
  · exact (savePredictionState_frame _ _).2.2.2.2.2.2.2.2.2.2

theorem foldl_simulateInput_inputBuffer (E : Engine) (l : List FInputPacket) :
    ∀ W : FClient,
      (l.foldl (fun W Input => UNetworkPrediction.SimulateInput E W Input f32OneSixtieth)
        W).Prediction.InputBuffer = W.Prediction.InputBuffer := by
  induction l with
  | nil => intro W; rfl
  | cons Input rest ih =>
    intro W
    rw [List.foldl_cons, ih, simulateInput_inputBuffer]

theorem onServerCorrection_cases (E : Engine) (W : FClient) (Correction : FStateUpdatePacket) :
    UNetworkReconciler.OnServerCorrection E W Correction = W ∨
    (∃ PC, W.Controller = some PC ∧ UNetworkReconciler.OnServerCorrection E W Correction =
      { W with Controller := some (PC.AcknowledgeInput Correction.AcknowledgedSequence) }) ∨
    UNetworkReconciler.OnServerCorrection E W Correction =
      OnServerCorrectionFinish
        (UNetworkReconciler.ReplayInputs E (OnServerCorrectionSnap W Correction)
          Correction.AuthoritativePosition Correction.AcknowledgedSequence) Correction := by
  unfold UNetworkReconciler.OnServerCorrection
  split_ifs
  · exact Or.inl rfl
  · exact Or.inl rfl
  · cases hC : W.Controller with
    | none => exact Or.inl rfl
    | some PC => exact Or.inr (Or.inl ⟨PC, rfl, rfl⟩)
  · exact Or.inr (Or.inr rfl)

set_option maxRecDepth 100000 in
/-- C16 (failing run): the inputs 1, 2, 3 are buffered and simulated in this order by a client
that starts from an empty history, which leaves the snapshots 1, 2, 3.  A State Update that
acknowledges sequence 1 and lies beyond the threshold then makes `OnServerCorrection` replay the
inputs 2 and 3: `SimulateInput` appends a new snapshot for each behind the stored ones, and
`ClearOldStates(1)` removes nothing, so the history holds the sequence numbers 1, 2, 3, 2, 3, which
are not strictly increasing, and `GetStateAtSequence(2)` still returns the snapshot taken before the
correction. -/
theorem replay_appends_behind_stored_snapshots :
    StrictlyIncreasing [1, 2, 3] ∧
    historySequences freshClient = [] ∧
    clientAfterThreeInputs.Prediction.InputBuffer.map (fun Input => Input.SequenceNumber) =
      [1, 2, 3] ∧
    historySequences clientAfterThreeInputs = [1, 2, 3] ∧
    UNetworkReconciler.NeedsReconciliation clientAfterThreeInputs ackOneUpdate = true ∧
    historySequences
      (UNetworkReconciler.OnServerCorrection Engine.openField clientAfterThreeInputs
        ackOneUpdate) = [1, 2, 3, 2, 3] ∧
    ¬ StrictlyIncreasing (historySequences
      (UNetworkReconciler.OnServerCorrection Engine.openField clientAfterThreeInputs
        ackOneUpdate)) ∧
    (UNetworkReconciler.OnServerCorrection Engine.openField clientAfterThreeInputs
      ackOneUpdate).Prediction.GetStateAtSequence 2 =
      clientAfterThreeInputs.Prediction.GetStateAtSequence 2 := by
  refine ⟨by decide, by decide, by decide, by decide, by decide, by decide, by decide, by decide⟩

set_option maxRecDepth 100000 in
/-- C17 (failing run): `OnServerCorrection` never changes the input buffer of the Client Predictor,
on any path.  `sampleClient` holds the inputs 41, 42, 43; after a State Update that acknowledges
sequence 41, beyond the threshold (`sampleUpdate`) or within it (`nearUpdate`), the predictor's
buffer still holds the input 41. -/
theorem onServerCorrection_keeps_acknowledged_inputs :
    (∀ (E : Engine) (W : FClient) (Correction : FStateUpdatePacket),
      (UNetworkReconciler.OnServerCorrection E W Correction).Prediction.InputBuffer =
        W.Prediction.InputBuffer) ∧
    sampleUpdate.AcknowledgedSequence = 41 ∧ nearUpdate.AcknowledgedSequence = 41 ∧
    UNetworkReconciler.NeedsReconciliation sampleClient sampleUpdate = true ∧
    (UNetworkReconciler.OnServerCorrection Engine.openField sampleClient
      sampleUpdate).Prediction.InputBuffer.map (fun Input => Input.SequenceNumber) =
      [41, 42, 43] ∧
    UNetworkReconciler.NeedsReconciliation sampleClient nearUpdate = false ∧
    (UNetworkReconciler.OnServerCorrection Engine.openField sampleClient
      nearUpdate).Prediction.InputBuffer.map (fun Input => Input.SequenceNumber) =
      [41, 42, 43] := by
  refine ⟨?_, by decide, by decide, by decide, by decide, by decide, by decide⟩
  intro E W Correction
  rcases onServerCorrection_cases E W Correction with h | ⟨PC, -, h⟩ | h
  · rw [h]
  · rw [h]
  · rw [h]
    have hfin : ∀ V : FClient, (OnServerCorrectionFinish V Correction).Prediction.InputBuffer =
        V.Prediction.InputBuffer := by
      intro V
      unfold OnServerCorrectionFinish
      cases V.Controller <;> rfl
    rw [hfin]
    unfold UNetworkReconciler.ReplayInputs
    rw [foldl_simulateInput_inputBuffer, (onServerCorrectionSnap_fields W Correction).2.2.2.1]

/-! ## The interpolation buffer (C18 to C20) -/

theorem f32le_trans {a b c : F32} (h1 : f32le a b = true) (h2 : f32le b c = true) :
    f32le a c = true := by
  simp only [f32le, Bool.and_eq_true, Bool.not_eq_true', decide_eq_true_eq] at *
  exact ⟨⟨h1.1.1, h2.1.2⟩, le_trans h1.2 h2.2⟩

theorem f32le_of_lt {a b : F32} (h : f32lt a b = true) : f32le a b = true := by
  simp only [f32le, f32lt, Bool.and_eq_true, Bool.not_eq_true', decide_eq_true_eq] at *
  exact ⟨h.1, le_of_lt h.2⟩

theorem f32le_of_not_lt {a b : F32} (ha : f32IsNaN a = false) (hb : f32IsNaN b = false)
    (h : f32lt a b = false) : f32le b a = true := by
  simp only [f32le, f32lt, ha, hb, Bool.not_false, Bool.true_and, decide_eq_false_iff_not,
    decide_eq_true_eq, not_lt] at *
  exact h

theorem timestampAscending_iff_pairwise (l : List FStateUpdatePacket) :
    TimestampAscending l ↔
      l.Pairwise (fun a b => f32le a.ServerTimestamp b.ServerTimestamp = true) := by
  haveI : IsTrans FStateUpdatePacket
      (fun a b => f32le a.ServerTimestamp b.ServerTimestamp = true) :=
    ⟨fun _ _ _ h1 h2 => f32le_trans h1 h2⟩
  rw [← List.chain'_iff_pairwise]
  induction l with
  | nil => simp [TimestampAscending]
  | cons a rest ih =>
    cases rest with
    | nil => simp [TimestampAscending]
    | cons b rest =>
      rw [TimestampAscending, List.chain'_cons]
      exact and_congr Iff.rfl ih

theorem insertByTimestamp_perm (s : FStateUpdatePacket) (l : List FStateUpdatePacket) :
    (insertByTimestamp s l).Perm (s :: l) := by
  induction l with
  | nil => exact List.Perm.refl _
  | cons a rest ih =>
    unfold insertByTimestamp
    split_ifs
    · exact List.Perm.refl _
    · exact (List.Perm.cons a ih).trans (List.Perm.swap s a rest)

theorem sortByTimestamp_perm (l : List FStateUpdatePacket) : (sortByTimestamp l).Perm l := by
  induction l with
  | nil => exact List.Perm.refl _
  | cons a rest ih =>
    unfold sortByTimestamp
    exact (insertByTimestamp_perm a _).trans (List.Perm.cons a ih)

theorem insertByTimestamp_pairwise (s : FStateUpdatePacket) (l : List FStateUpdatePacket)
    (hs : f32IsNaN s.ServerTimestamp = false)
    (hl : ∀ x ∈ l, f32IsNaN x.ServerTimestamp = false)
    (hp : l.Pairwise (fun a b => f32le a.ServerTimestamp b.ServerTimestamp = true)) :
    (insertByTimestamp s l).Pairwise
      (fun a b => f32le a.ServerTimestamp b.ServerTimestamp = true) := by
  induction l with
  | nil => exact List.pairwise_singleton _ _
  | cons a rest ih =>
    unfold insertByTimestamp
    rw [List.pairwise_cons] at hp
    split_ifs with h
    · rw [List.pairwise_cons]
      refine ⟨?_, List.pairwise_cons.mpr hp⟩
      intro x hx
      rcases List.mem_cons.mp hx with hxa | hxr
      · rw [hxa]; exact f32le_of_lt h
      · exact f32le_trans (f32le_of_lt h) (hp.1 x hxr)
    · rw [List.pairwise_cons]
      refine ⟨?_, ih (fun x hx => hl x (List.mem_cons_of_mem _ hx)) hp.2⟩
      intro x hx
      rcases List.mem_cons.mp ((insertByTimestamp_perm s rest).mem_iff.mp hx) with hxs | hxr
      · rw [hxs]
        exact f32le_of_not_lt hs (hl a (List.mem_cons_self _ _)) (by simpa using h)
      · exact hp.1 x hxr

theorem sortByTimestamp_isTimestampSort : IsTimestampSort sortByTimestamp := by
  refine ⟨sortByTimestamp_perm, ?_⟩
  intro l hl
  rw [timestampAscending_iff_pairwise]
  induction l with
  | nil => exact List.Pairwise.nil
  | cons a rest ih =>
    unfold sortByTimestamp
    refine insertByTimestamp_pairwise a _ (hl a (List.mem_cons_self _ _)) ?_
      (ih (fun x hx => hl x (List.mem_cons_of_mem _ hx)))
    intro x hx
    exact hl x (List.mem_cons_of_mem _ ((sortByTimestamp_perm rest).mem_iff.mp hx))

theorem trimOldStates_stateBuffer (I : UNetworkInterpolation) (hmax : 0 ≤ I.MaxBufferSize) :
    I.TrimOldStates.StateBuffer =
      I.StateBuffer.drop (I.StateBuffer.length - I.MaxBufferSize.toNat) := by
  obtain ⟨c, hc⟩ := Int.eq_ofNat_of_zero_le hmax
  unfold UNetworkInterpolation.TrimOldStates
  rw [hc, Int.toNat_ofNat]
  split_ifs with h
  · have h2 : I.StateBuffer.length ≤ c := by exact_mod_cast h
    rw [Nat.sub_eq_zero_of_le h2, List.drop_zero]
  · show List.drop _ _ = List.drop _ _
    rw [Int.toNat_sub]

theorem addServerState_stateBuffer
    (SortBuffer : List FStateUpdatePacket → List FStateUpdatePacket) (WorldTime : Option F32)
    (I : UNetworkInterpolation) (State : FStateUpdatePacket) (hmax : 0 ≤ I.MaxBufferSize) :
    (I.AddServerState SortBuffer WorldTime State).StateBuffer =
      (SortBuffer (I.StateBuffer ++ [State])).drop
        ((SortBuffer (I.StateBuffer ++ [State])).length - I.MaxBufferSize.toNat) := by
  unfold UNetworkInterpolation.AddServerState
  cases WorldTime with
  | none => exact trimOldStates_stateBuffer _ hmax
  | some t => exact trimOldStates_stateBuffer _ hmax

theorem timestampAscending_drop (l : List FStateUpdatePacket) (k : Nat)
    (h : TimestampAscending l) : TimestampAscending (l.drop k) := by
  rw [timestampAscending_iff_pairwise] at *
  exact h.sublist (List.drop_sublist k l)

/-- A buffer with at least two entries, one of which has a NaN time stamp, is not sorted, in
whatever order its entries stand. -/
theorem not_timestampAscending_of_nan (l : List FStateUpdatePacket) (x : FStateUpdatePacket)
    (hx : x ∈ l) (hnan : f32IsNaN x.ServerTimestamp = true) (hlen : 2 ≤ l.length) :
    ¬ TimestampAscending l := by
  intro hasc
  rw [timestampAscending_iff_pairwise] at hasc
  obtain ⟨l1, l2, rfl⟩ := List.append_of_mem hx
  have hno1 : ∀ y : FStateUpdatePacket, f32le y.ServerTimestamp x.ServerTimestamp = true → False := by
    intro y hy
    simp [f32le, hnan] at hy
  have hno2 : ∀ y : FStateUpdatePacket, f32le x.ServerTimestamp y.ServerTimestamp = true → False := by
    intro y hy
    simp [f32le, hnan] at hy
  rw [List.pairwise_append] at hasc
  obtain ⟨-, h2, h3⟩ := hasc
  cases l1 with
  | cons y l1 => exact hno1 y (h3 y (List.mem_cons_self _ _) x (List.mem_cons_self _ _))
  | nil =>
    cases l2 with
    | cons y l2 =>
      rw [List.pairwise_cons] at h2
      exact hno2 y (h2.1 y (List.mem_cons_self _ _))
    | nil => simp at hlen

set_option maxRecDepth 100000 in
/-- C18 (counterexample): the buffer of `twoStateInterpolation` (time stamps 0 and 1) is sorted and
the capacity is 32, but after `AddServerState` of a State Update whose time stamp is a NaN the
buffer is not sorted ascending: a NaN compares false with every time stamp, in whatever place the
sort leaves it.  The same happens when the single buffered state has a NaN time stamp and a state
with the time stamp 1 arrives. -/
theorem addServerState_nan_timestamp_unsorted :
    TimestampAscending twoStateInterpolation.StateBuffer ∧
    (1 : Int) ≤ twoStateInterpolation.MaxBufferSize ∧
    ¬ TimestampAscending
      (twoStateInterpolation.AddServerState sortByTimestamp (some f32Ten)
        (stateAt f32QNaN FVector.ZeroVector)).StateBuffer ∧
    TimestampAscending [stateAt f32QNaN FVector.ZeroVector] ∧
    ¬ TimestampAscending
      ({ sampleInterpolation with
          StateBuffer := [stateAt f32QNaN FVector.ZeroVector] }.AddServerState sortByTimestamp
        (some f32Ten) (stateAt f32One FVector.ZeroVector)).StateBuffer := by
  refine ⟨by decide, by decide, by decide, by decide, by decide⟩

/-- C18 (amended): for every state buffer and every State Update such that none of the time
stamps involved is a NaN, with `MaxBufferSize >= 1`, after `AddServerState` the buffer is sorted
ascending by `ServerTimestamp`, its length is min(old length + 1, `MaxBufferSize`), and its
contents are the old entries plus the new one minus dropped entries whose time stamps are at most
those of all kept entries; a new state older than everything in a full buffer is itself the one
dropped.  This holds for every sorting function that rearranges the buffer into ascending order. -/
theorem addServerState_keeps_sorted
    (SortBuffer : List FStateUpdatePacket → List FStateUpdatePacket)
    (hSort : IsTimestampSort SortBuffer) (WorldTime : Option F32)
    (I : UNetworkInterpolation) (State : FStateUpdatePacket)
    (hmax : 1 ≤ I.MaxBufferSize)
    (hnan : ∀ s ∈ I.StateBuffer ++ [State], f32IsNaN s.ServerTimestamp = false) :
    TimestampAscending (I.AddServerState SortBuffer WorldTime State).StateBuffer ∧
    (I.AddServerState SortBuffer WorldTime State).StateBuffer.length =
      min (I.StateBuffer.length + 1) I.MaxBufferSize.toNat ∧
    (∃ Dropped : List FStateUpdatePacket,
      (Dropped ++ (I.AddServerState SortBuffer WorldTime State).StateBuffer).Perm
        (I.StateBuffer ++ [State]) ∧
      ∀ d ∈ Dropped, ∀ k ∈ (I.AddServerState SortBuffer WorldTime State).StateBuffer,
        f32le d.ServerTimestamp k.ServerTimestamp = true) ∧
    ((I.StateBuffer.length : Int) = I.MaxBufferSize →
      (∀ o ∈ I.StateBuffer, f32lt State.ServerTimestamp o.ServerTimestamp = true) →
      (I.AddServerState SortBuffer WorldTime State).StateBuffer.Perm I.StateBuffer) := by
  obtain ⟨hperm, hsorted⟩ := hSort
  have hbuf := addServerState_stateBuffer SortBuffer WorldTime I State (by omega)
  have hasc := hsorted (I.StateBuffer ++ [State]) hnan
  have hp := hperm (I.StateBuffer ++ [State])
  have hlen : (SortBuffer (I.StateBuffer ++ [State])).length = I.StateBuffer.length + 1 := by
    rw [hp.length_eq]; simp
  rw [hbuf]
  generalize SortBuffer (I.StateBuffer ++ [State]) = S at hasc hp hlen
  refine ⟨timestampAscending_drop _ _ hasc, ?_, ?_, ?_⟩
  · rw [List.length_drop, hlen]; omega
  · refine ⟨S.take (S.length - I.MaxBufferSize.toNat), ?_, ?_⟩
    · rw [List.take_append_drop]; exact hp
    · intro d hd k hk
      rw [timestampAscending_iff_pairwise] at hasc
      have hsplit := List.take_append_drop (S.length - I.MaxBufferSize.toNat) S
      rw [← hsplit, List.pairwise_append] at hasc
      exact hasc.2.2 d hd k hk
  · intro hfull hold
    have hk : S.length - I.MaxBufferSize.toNat = 1 := by rw [hlen]; omega
    rw [hk]
    rw [timestampAscending_iff_pairwise] at hasc
    have hp2 : S.Perm (State :: I.StateBuffer) :=
      hp.trans (List.perm_append_singleton State I.StateBuffer)
    cases S with
    | nil => simp at hlen
    | cons h t =>
      rw [List.drop_one, List.tail_cons]
      rw [List.pairwise_cons] at hasc
      have hh : h = State := by
        rcases List.mem_cons.mp (hp2.mem_iff.mp (List.mem_cons_self h t)) with hhs | hho
        · exact hhs
        · exfalso
          have hlt := hold h hho
          have hSt : State ∈ h :: t := hp2.mem_iff.mpr (List.mem_cons_self _ _)
          rcases List.mem_cons.mp hSt with hs | hs
          · rw [hs] at hlt
            simp [f32lt] at hlt
          · have hle := hasc.1 State hs
            rw [f32lt_false_of_le hle] at hlt
            exact Bool.false_ne_true hlt
      rw [hh] at hp2
      exact hp2.cons_inv

set_option maxRecDepth 100000 in
/-- Witness of the amended C18: a state with the time stamp -1, older than both entries of the
full buffer of `fullInterpolation`, is added and is itself the one dropped. -/
theorem addServerState_keeps_sorted_witness :
    TimestampAscending
      (fullInterpolation.AddServerState sortByTimestamp (some f32Ten)
        (stateAt f32NegOne FVector.ZeroVector)).StateBuffer ∧
    (fullInterpolation.AddServerState sortByTimestamp (some f32Ten)
      (stateAt f32NegOne FVector.ZeroVector)).StateBuffer.Perm fullInterpolation.StateBuffer :=
  ⟨(addServerState_keeps_sorted sortByTimestamp sortByTimestamp_isTimestampSort (some f32Ten)
      fullInterpolation (stateAt f32NegOne FVector.ZeroVector) (by decide) (by decide)).1,
   (addServerState_keeps_sorted sortByTimestamp sortByTimestamp_isTimestampSort (some f32Ten)
      fullInterpolation (stateAt f32NegOne FVector.ZeroVector) (by decide)
      (by decide)).2.2.2 (by decide) (by decide)⟩

theorem f32Mag_neg (a : F32) : f32Mag (f32neg a) = f32Mag a := by
  unfold f32neg f32Pack f32Mag
  show @Eq Nat _ _
  split_ifs <;> omega

theorem f32Sign_neg (a : F32) : f32Sign (f32neg a) = !f32Sign a := by
  unfold f32neg f32Pack f32Sign f32Mag
  by_cases h : @Eq Nat (a / 2147483648 % 2) 1
  · have h2 : @Eq Nat ((0 + a % 2147483648) / 2147483648 % 2) 0 := by omega
    simp [h, h2]
  · have h2 : @Eq Nat ((2147483648 + a % 2147483648) / 2147483648 % 2) 1 := by omega
    simp [h, h2]

theorem f32Sig_eq_of_mag {a b : F32} (h : f32Mag a = f32Mag b) :
    f32Sig a = f32Sig b ∧ f32Scale a = f32Scale b := by
  unfold f32Mag at h
  have h0 : @Eq Nat (a % 2147483648) (b % 2147483648) := h
  have h1 : @Eq Nat (a / 8388608 % 256) (b / 8388608 % 256) := by omega
  have h2 : @Eq Nat (a % 8388608) (b % 8388608) := by omega
  unfold f32Sig f32Scale
  rw [h1, h2]
  exact ⟨rfl, rfl⟩

theorem f32Sig_of_mag_zero {a : F32} (h : f32Mag a = 0) : f32Sig a = 0 := by
  unfold f32Mag at h
  have h0 : @Eq Nat (a % 2147483648) 0 := h
  have h1 : @Eq Nat (a / 8388608 % 256) 0 := by omega
  have h2 : @Eq Nat (a % 8388608) 0 := by omega
  unfold f32Sig
  rw [if_pos h1, h2]

theorem f32gt_zero_pack_zero (s : Bool) : f32gt (f32Pack s 0) f32Zero = false := by
  cases s <;> decide

/-- The difference of two floats that compare equal is not greater than zero: it is a zero, or a
NaN when both are the same infinity. -/
theorem f32sub_not_gt_zero_of_eq {a b : F32} (h : f32eq a b = true) :
    f32gt (f32sub b a) f32Zero = false := by
  simp only [f32eq, Bool.and_eq_true, Bool.not_eq_true', decide_eq_true_eq] at h
  obtain ⟨⟨ha, hb⟩, hk⟩ := h
  have hmn := f32Mag_neg a
  have hsn := f32Sign_neg a
  have hnn : f32IsNaN (f32neg a) = false := by
    unfold f32IsNaN at *; rw [hmn]; exact ha
  have hmag : f32Mag a = f32Mag b := by
    unfold f32Key at hk; split_ifs at hk <;> omega
  have hsign : f32Sign a = f32Sign b ∨ f32Mag b = 0 := by
    unfold f32Key at hk
    cases hsa : f32Sign a <;> cases hsb : f32Sign b <;> simp [hsa, hsb] at hk ⊢ <;> omega
  obtain ⟨hsig, hscale⟩ := f32Sig_eq_of_mag (hmn.trans hmag)
  have hinfn : f32IsInf (f32neg a) = f32IsInf b := by
    unfold f32IsInf; rw [hmn, hmag]
  unfold f32sub
  rw [ha, hb]
  simp only [Bool.or_self, Bool.false_eq_true, if_false]
  unfold f32add
  rw [hb, hnn, hinfn, hsig, hscale, hsn]
  simp only [Bool.or_self, Bool.false_eq_true, if_false, min_self, Nat.sub_self, pow_zero, mul_one]
  by_cases hinf : f32IsInf b = true
  · have hm0 : f32Mag b ≠ 0 := by
      unfold f32IsInf at hinf
      simp at hinf
      omega
    have hs : f32Sign a = f32Sign b := by
      rcases hsign with hs | hs
      · exact hs
      · exact absurd hs hm0
    rw [if_pos hinf, hs]
    simp only [hinf, Bool.true_and]
    cases f32Sign b <;> exact (by decide : f32gt f32QNaN f32Zero = false)
  · rw [if_neg hinf, if_neg hinf]
    by_cases hss : (f32Sign b == !f32Sign a) = true
    · rw [if_pos hss]
      have hm0 : f32Mag b = 0 := by
        rcases hsign with hs | hs
        · rw [hs] at hss
          cases hsb : f32Sign b <;> simp [hsb] at hss
        · exact hs
      rw [f32Sig_of_mag_zero hm0]
      unfold f32Round
      rw [if_pos rfl]
      exact f32gt_zero_pack_zero _
    · rw [if_neg hss, if_pos trivial]
      decide

theorem clamp_unit_interval (X : F32) :
    f32le f32Zero (FMath.Clamp X f32Zero f32One) = true ∧
    f32le (FMath.Clamp X f32Zero f32One) f32One = true := by
  unfold FMath.Clamp
  split_ifs with h1 h2
  · exact ⟨by decide, by decide⟩
  · have hX : f32IsNaN X = false := by
      simp only [f32lt, Bool.and_eq_true, Bool.not_eq_true'] at h2
      exact h2.1.1
    exact ⟨f32le_of_not_lt hX (by decide) (by simpa using h1), f32le_of_lt h2⟩
  · exact ⟨by decide, by decide⟩

theorem tarray_get_natCast {α : Type} (A : List α) (i : Nat) :
    TArray.Get A (i : Int) = A[i]? ∧ TArray.Get A ((i : Int) + 1) = A[i + 1]? := by
  unfold TArray.Get
  constructor
  · rw [if_pos (Int.natCast_nonneg i), Int.toNat_natCast]
  · have h : (i : Int) + 1 = ((i + 1 : Nat) : Int) := by push_cast; rfl
    rw [h, if_pos (Int.natCast_nonneg _), Int.toNat_natCast]

/-- The search loop of `GetInterpolationStates` stops at the first adjacent pair that brackets
the target time. -/
theorem getInterpolationStates_loop_first (StateBuffer : List FStateUpdatePacket)
    (TargetTime : F32) (i : Nat) (From To : FStateUpdatePacket)
    (hfrom : StateBuffer[i]? = some From) (hto : StateBuffer[i + 1]? = some To)
    (h1 : f32le From.ServerTimestamp TargetTime = true)
    (h2 : f32le TargetTime To.ServerTimestamp = true)
    (hfirst : ∀ (k : Nat) (A B : FStateUpdatePacket), k < i → StateBuffer[k]? = some A →
      StateBuffer[k + 1]? = some B →
      ¬ (f32le A.ServerTimestamp TargetTime = true ∧ f32le TargetTime B.ServerTimestamp = true)) :
    ∀ n j : Nat, j ≤ i → i < j + n →
      UNetworkInterpolation.GetInterpolationStates.Loop StateBuffer TargetTime n j =
        some (some i) := by
  have hlen : i + 1 < StateBuffer.length := by
    rcases Nat.lt_or_ge (i + 1) StateBuffer.length with h | h
    · exact h
    · rw [List.getElem?_eq_none h] at hto; exact absurd hto (by simp)
  intro n
  induction n with
  | zero => intro j hj hi; omega
  | succ n ih =>
    intro j hj hi
    unfold UNetworkInterpolation.GetInterpolationStates.Loop
    rw [(tarray_get_natCast StateBuffer j).1, (tarray_get_natCast StateBuffer j).2]
    rcases Nat.eq_or_lt_of_le hj with heq | hlt
    · subst heq
      rw [hfrom, hto]
      simp only [h1, if_true, f32ge, h2]
    · have hjA : StateBuffer[j]? = some (StateBuffer[j]) := List.getElem?_eq_getElem (by omega)
      have hjB : StateBuffer[j + 1]? = some (StateBuffer[j + 1]) :=
        List.getElem?_eq_getElem (by omega)
      have hno := hfirst j _ _ hlt hjA hjB
      rw [hjA, hjB]
      simp only []
      by_cases hA : f32le (StateBuffer[j]).ServerTimestamp TargetTime = true
      · rw [if_pos hA]
        have hB : ¬ f32ge (StateBuffer[j + 1]).ServerTimestamp TargetTime = true := by
          intro hB
          exact hno ⟨hA, hB⟩
        rw [if_neg hB]
        exact ih (j + 1) (by omega) (by omega)
      · rw [if_neg hA]
        exact ih (j + 1) (by omega) (by omega)

theorem getInterpolationStates_bracketed (I : UNetworkInterpolation) (RenderTime : F32) (i : Nat)
    (From To : FStateUpdatePacket)
    (hfrom : I.StateBuffer[i]? = some From) (hto : I.StateBuffer[i + 1]? = some To)
    (h1 : f32le From.ServerTimestamp (f32sub RenderTime I.InterpolationDelay) = true)
    (h2 : f32le (f32sub RenderTime I.InterpolationDelay) To.ServerTimestamp = true)
    (hfirst : ∀ (k : Nat) (A B : FStateUpdatePacket), k < i → I.StateBuffer[k]? = some A →
      I.StateBuffer[k + 1]? = some B →
      ¬ (f32le A.ServerTimestamp (f32sub RenderTime I.InterpolationDelay) = true ∧
        f32le (f32sub RenderTime I.InterpolationDelay) B.ServerTimestamp = true)) :
    I.GetInterpolationStates RenderTime =
      some (From, To,
        if f32gt (f32sub To.ServerTimestamp From.ServerTimestamp) f32Zero then
          FMath.Clamp
            (f32div (f32sub (f32sub RenderTime I.InterpolationDelay) From.ServerTimestamp)
              (f32sub To.ServerTimestamp From.ServerTimestamp)) f32Zero f32One
        else f32Zero) := by
  have hlen : i + 1 < I.StateBuffer.length := by
    rcases Nat.lt_or_ge (i + 1) I.StateBuffer.length with h | h
    · exact h
    · rw [List.getElem?_eq_none h] at hto; exact absurd hto (by simp)
  have hn : ((I.StateBuffer.length : Int) - 1).toNat = I.StateBuffer.length - 1 := by omega
  have hloop := getInterpolationStates_loop_first I.StateBuffer
    (f32sub RenderTime I.InterpolationDelay) i From To hfrom hto h1 h2 hfirst
    (I.StateBuffer.length - 1) 0 (Nat.zero_le _) (by omega)
  unfold UNetworkInterpolation.GetInterpolationStates
  simp only [hn, hloop, (tarray_get_natCast I.StateBuffer i).1,
    (tarray_get_natCast I.StateBuffer i).2, hfrom, hto]

set_option maxRecDepth 100000 in
/-- C19 (counterexample): the buffer of `extremeInterpolation` holds the time stamps -FLT_MAX and
FLT_MAX, sorted; with `InterpolationDelay` 0 and render time FLT_MAX the pair brackets the target
time, but both differences overflow to infinity and their quotient
(targetTime - from.timestamp) / (to.timestamp - from.timestamp) is a NaN, which does not lie in
[0,1]; `GetInterpolatedPosition` returns (10,0,0), the position for the clamped factor 1, not
from.position + alpha * (to.position - from.position) for that quotient. -/
theorem getInterpolatedPosition_alpha_overflow :
    TimestampAscending extremeInterpolation.StateBuffer ∧
    extremeInterpolation.StateBuffer.length = 2 ∧
    f32le (0xFF7FFFFF : F32) (f32sub 0x7F7FFFFF extremeInterpolation.InterpolationDelay) = true ∧
    f32le (f32sub 0x7F7FFFFF extremeInterpolation.InterpolationDelay) (0x7F7FFFFF : F32) = true ∧
    f32IsNaN (f32div
      (f32sub (f32sub 0x7F7FFFFF extremeInterpolation.InterpolationDelay) 0xFF7FFFFF)
      (f32sub 0x7F7FFFFF 0xFF7FFFFF)) = true ∧
    ¬ (f32le f32Zero (f32div
        (f32sub (f32sub 0x7F7FFFFF extremeInterpolation.InterpolationDelay) 0xFF7FFFFF)
        (f32sub 0x7F7FFFFF 0xFF7FFFFF)) = true ∧
      f32le (f32div
        (f32sub (f32sub 0x7F7FFFFF extremeInterpolation.InterpolationDelay) 0xFF7FFFFF)
        (f32sub 0x7F7FFFFF 0xFF7FFFFF)) f32One = true) ∧
    extremeInterpolation.GetInterpolatedPosition 0x7F7FFFFF =
      some { X := f32Ten, Y := f32Zero, Z := f32Zero } ∧
    extremeInterpolation.GetInterpolatedPosition 0x7F7FFFFF ≠
      some (FMath.Lerp FVector.ZeroVector { X := f32Ten, Y := f32Zero, Z := f32Zero }
        (f32div (f32sub (f32sub 0x7F7FFFFF extremeInterpolation.InterpolationDelay) 0xFF7FFFFF)
          (f32sub 0x7F7FFFFF 0xFF7FFFFF))) := by
  refine ⟨by decide, by decide, by decide, by decide, by decide, by decide, by decide, by decide⟩

set_option maxRecDepth 100000 in
/-- C19 (amended): for every state buffer and every render time such that
targetTime = RenderTime - InterpolationDelay satisfies from.timestamp <= targetTime <= to.timestamp
for some adjacent pair, `GetInterpolatedPosition` returns
from.position + alpha * (to.position - from.position) for the first such pair in buffer order,
where alpha is (targetTime - from.timestamp) / (to.timestamp - from.timestamp) clamped to [0,1]
when to.timestamp - from.timestamp is greater than 0 and alpha = 0 otherwise, in particular when
the two time stamps are equal; alpha lies in [0,1].  With states at t=0 (position (0,0,0)) and
t=1 (position (10,0,0)), `InterpolationDelay` = 0 and render time 0.5, the result is (5,0,0). -/
theorem getInterpolatedPosition_bracketed :
    (∀ (I : UNetworkInterpolation) (RenderTime : F32) (i : Nat) (From To : FStateUpdatePacket),
      I.StateBuffer[i]? = some From → I.StateBuffer[i + 1]? = some To →
      f32le From.ServerTimestamp (f32sub RenderTime I.InterpolationDelay) = true →
      f32le (f32sub RenderTime I.InterpolationDelay) To.ServerTimestamp = true →
      (∀ (k : Nat) (A B : FStateUpdatePacket), k < i → I.StateBuffer[k]? = some A →
        I.StateBuffer[k + 1]? = some B →
        ¬ (f32le A.ServerTimestamp (f32sub RenderTime I.InterpolationDelay) = true ∧
          f32le (f32sub RenderTime I.InterpolationDelay) B.ServerTimestamp = true)) →
      I.GetInterpolatedPosition RenderTime =
        some (From.AuthoritativePosition.add
          ((To.AuthoritativePosition.sub From.AuthoritativePosition).scale
            (interpolationAlpha (f32sub RenderTime I.InterpolationDelay)
              From.ServerTimestamp To.ServerTimestamp))) ∧
      (f32gt (f32sub To.ServerTimestamp From.ServerTimestamp) f32Zero = true →
        interpolationAlpha (f32sub RenderTime I.InterpolationDelay)
            From.ServerTimestamp To.ServerTimestamp =
          FMath.Clamp
            (f32div (f32sub (f32sub RenderTime I.InterpolationDelay) From.ServerTimestamp)
              (f32sub To.ServerTimestamp From.ServerTimestamp)) f32Zero f32One) ∧
      (f32eq From.ServerTimestamp To.ServerTimestamp = true →
        interpolationAlpha (f32sub RenderTime I.InterpolationDelay)
            From.ServerTimestamp To.ServerTimestamp = f32Zero) ∧
      f32le f32Zero (interpolationAlpha (f32sub RenderTime I.InterpolationDelay)
        From.ServerTimestamp To.ServerTimestamp) = true ∧
      f32le (interpolationAlpha (f32sub RenderTime I.InterpolationDelay)
        From.ServerTimestamp To.ServerTimestamp) f32One = true) ∧
    (∀ (I : UNetworkInterpolation) (From To : FStateUpdatePacket),
      I.StateBuffer = [From, To] → I.InterpolationDelay = f32Zero →
      From.ServerTimestamp = f32Zero → From.AuthoritativePosition = FVector.ZeroVector →
      To.ServerTimestamp = f32One →
      To.AuthoritativePosition = { X := f32Ten, Y := f32Zero, Z := f32Zero } →
      I.GetInterpolatedPosition 0x3F000000 =
        some { X := 0x40A00000, Y := f32Zero, Z := f32Zero }) := by
  have main : ∀ (I : UNetworkInterpolation) (RenderTime : F32) (i : Nat)
      (From To : FStateUpdatePacket),
      I.StateBuffer[i]? = some From → I.StateBuffer[i + 1]? = some To →
      f32le From.ServerTimestamp (f32sub RenderTime I.InterpolationDelay) = true →
      f32le (f32sub RenderTime I.InterpolationDelay) To.ServerTimestamp = true →
      (∀ (k : Nat) (A B : FStateUpdatePacket), k < i → I.StateBuffer[k]? = some A →
        I.StateBuffer[k + 1]? = some B →
        ¬ (f32le A.ServerTimestamp (f32sub RenderTime I.InterpolationDelay) = true ∧
          f32le (f32sub RenderTime I.InterpolationDelay) B.ServerTimestamp = true)) →
      I.GetInterpolatedPosition RenderTime =
        some (From.AuthoritativePosition.add
          ((To.AuthoritativePosition.sub From.AuthoritativePosition).scale
            (interpolationAlpha (f32sub RenderTime I.InterpolationDelay)
              From.ServerTimestamp To.ServerTimestamp))) := by
    intro I RenderTime i From To hfrom hto h1 h2 hfirst
    have hlen : i + 1 < I.StateBuffer.length := by
      rcases Nat.lt_or_ge (i + 1) I.StateBuffer.length with h | h
      · exact h
      · rw [List.getElem?_eq_none h] at hto; exact absurd hto (by simp)
    unfold UNetworkInterpolation.GetInterpolatedPosition
    rw [if_neg (by omega), if_neg (by omega),
      getInterpolationStates_bracketed I RenderTime i From To hfrom hto h1 h2 hfirst]
    rfl
  refine ⟨?_, ?_⟩
  · intro I RenderTime i From To hfrom hto h1 h2 hfirst
    refine ⟨main I RenderTime i From To hfrom hto h1 h2 hfirst, ?_, ?_, ?_, ?_⟩
    · intro hgt
      unfold interpolationAlpha
      rw [if_pos hgt]
    · intro heq
      unfold interpolationAlpha
      rw [if_neg (by rw [f32sub_not_gt_zero_of_eq heq]; exact Bool.false_ne_true)]
    · unfold interpolationAlpha
      split_ifs
      · exact (clamp_unit_interval _).1
      · decide
    · unfold interpolationAlpha
      split_ifs
      · exact (clamp_unit_interval _).2
      · decide
  · intro I From To hbuf hdelay hft hfp htt htp
    rw [main I 0x3F000000 0 From To (by rw [hbuf]; rfl) (by rw [hbuf]; rfl)
      (by rw [hft, hdelay]; decide) (by rw [htt, hdelay]; decide)
      (by intro k A B hk; omega), hft, hfp, htt, htp, hdelay]
    decide

set_option maxRecDepth 100000 in
/-- Witness of the amended C19: `twoStateInterpolation` at render time 0.5. -/
theorem getInterpolatedPosition_bracketed_witness :
    twoStateInterpolation.GetInterpolatedPosition 0x3F000000 =
      some { X := 0x40A00000, Y := f32Zero, Z := f32Zero } ∧
    twoStateInterpolation.GetInterpolatedPosition 0x3F000000 =
      some ((stateAt f32Zero FVector.ZeroVector).AuthoritativePosition.add
        (((stateAt f32One { X := f32Ten, Y := f32Zero, Z := f32Zero }).AuthoritativePosition.sub
          (stateAt f32Zero FVector.ZeroVector).AuthoritativePosition).scale
          (interpolationAlpha (f32sub 0x3F000000 twoStateInterpolation.InterpolationDelay)
            (stateAt f32Zero FVector.ZeroVector).ServerTimestamp
            (stateAt f32One { X := f32Ten, Y := f32Zero, Z := f32Zero }).ServerTimestamp))) :=
  ⟨getInterpolatedPosition_bracketed.2 twoStateInterpolation _ _ rfl rfl rfl rfl rfl rfl,
   (getInterpolatedPosition_bracketed.1 twoStateInterpolation 0x3F000000 0 _ _ rfl rfl
     (by decide) (by decide) (by intro k A B hk; omega)).1⟩

/-- C20: for every render time and every `InterpolationDelay`, `GetInterpolatedPosition` and
`GetInterpolatedVelocity` return the zero vector when the state buffer is empty and exactly the
single buffered state's `AuthoritativePosition` / `AuthoritativeVelocity` when the buffer holds
exactly one state; the calls return a value, that is, no element access is out of range. -/
theorem getInterpolated_degenerate_buffers (I : UNetworkInterpolation) (RenderTime : F32)
    (State : FStateUpdatePacket) :
    { I with StateBuffer := [] }.GetInterpolatedPosition RenderTime = some FVector.ZeroVector ∧
    { I with StateBuffer := [] }.GetInterpolatedVelocity RenderTime = some FVector.ZeroVector ∧
    { I with StateBuffer := [State] }.GetInterpolatedPosition RenderTime =
      some State.AuthoritativePosition ∧
    { I with StateBuffer := [State] }.GetInterpolatedVelocity RenderTime =
      some State.AuthoritativeVelocity :=
  ⟨rfl, rfl, rfl, rfl⟩

/-! ## The checksum detects single-field alterations (C30) -/

theorem foldl_xor_eq (l : List Nat) (a : Nat) :
    l.foldl (fun h v => h ^^^ v) a = a ^^^ l.foldl (fun h v => h ^^^ v) 0 := by
  induction l generalizing a with
  | nil => simp
  | cons x rest ih => rw [List.foldl_cons, List.foldl_cons, ih, ih (0 ^^^ x), Nat.zero_xor,
      Nat.xor_assoc]

theorem foldl_xor_ne_of_differInOneField {l1 l2 : List Nat} (h : DifferInOneField l1 l2) :
    l1.foldl (fun h v => h ^^^ v) 0 ≠ l2.foldl (fun h v => h ^^^ v) 0 := by
  obtain ⟨before, x, y, after, hxy, h1, h2⟩ := h
  rw [h1, h2, List.foldl_append, List.foldl_append, List.foldl_cons, List.foldl_cons,
    foldl_xor_eq after, foldl_xor_eq after (_ ^^^ y)]
  intro heq
  have h3 := Nat.xor_left_inj.mp heq
  exact hxy (Nat.xor_right_inj.mp h3)

theorem input_checksum_foldl (p : FInputPacket) :
    p.CalculateChecksum = p.ChecksummedFields.foldl (fun h v => h ^^^ v) 0 := rfl

theorem state_checksum_foldl (s : FStateUpdatePacket) :
    s.CalculateChecksum = s.ChecksummedFields.foldl (fun h v => h ^^^ v) 0 := rfl

/-- C30: the XOR checksum detects every single-field alteration.  For any two Input Packets
(respectively State Update Packets) whose checksummed fields agree except at exactly one field,
whose 32-bit patterns differ, `CalculateChecksum` returns different values; so when the first
packet passes `IsValid` and the second carries the same Checksum field, `IsValid` rejects the
second. -/
theorem checksum_detects_single_field_change :
    (∀ p q : FInputPacket, DifferInOneField p.ChecksummedFields q.ChecksummedFields →
      p.CalculateChecksum ≠ q.CalculateChecksum ∧
      (p.IsValid = true → q.Checksum = p.Checksum → q.IsValid = false)) ∧
    (∀ s t : FStateUpdatePacket, DifferInOneField s.ChecksummedFields t.ChecksummedFields →
      s.CalculateChecksum ≠ t.CalculateChecksum ∧
      (s.IsValid = true → t.Checksum = s.Checksum → t.IsValid = false)) := by
  refine ⟨?_, ?_⟩
  · intro p q h
    have hne : p.CalculateChecksum ≠ q.CalculateChecksum := by
      rw [input_checksum_foldl, input_checksum_foldl]
      exact foldl_xor_ne_of_differInOneField h
    refine ⟨hne, ?_⟩
    intro hp hc
    have hpc : p.Checksum = p.CalculateChecksum := by
      unfold FInputPacket.IsValid at hp
      by_contra hcon
      rw [if_pos (by simpa using hcon)] at hp
      exact Bool.false_ne_true hp
    unfold FInputPacket.IsValid
    rw [if_pos]
    rw [hc, hpc]
    simpa using hne
  · intro s t h
    have hne : s.CalculateChecksum ≠ t.CalculateChecksum := by
      rw [state_checksum_foldl, state_checksum_foldl]
      exact foldl_xor_ne_of_differInOneField h
    refine ⟨hne, ?_⟩
    intro hs hc
    have hsc : s.Checksum = s.CalculateChecksum := by
      unfold FStateUpdatePacket.IsValid at hs
      by_contra hcon
      rw [if_pos (by simpa using hcon)] at hs
      exact Bool.false_ne_true hs
    unfold FStateUpdatePacket.IsValid
    rw [if_pos]
    rw [hc, hsc]
    simpa using hne

/-- Witness of C30: the valid packets `sampleInput` and `sampleUpdate` with their checksums set,
altered in one field each (the sequence number 7 becomes 8, the state 2 becomes 3). -/
theorem checksum_detects_single_field_change_witness :
    FInputPacket.IsValid { sampleInput with Checksum := sampleInput.CalculateChecksum } = true ∧
    FInputPacket.IsValid
      { sampleInput with Checksum := sampleInput.CalculateChecksum, SequenceNumber := 8 } = false ∧
    FStateUpdatePacket.IsValid
      { sampleUpdate with Checksum := sampleUpdate.CalculateChecksum } = true ∧
    FStateUpdatePacket.IsValid
      { sampleUpdate with Checksum := sampleUpdate.CalculateChecksum,
                          AuthoritativeState := 3 } = false :=
  ⟨by decide,
   (checksum_detects_single_field_change.1
      { sampleInput with Checksum := sampleInput.CalculateChecksum }
      { sampleInput with Checksum := sampleInput.CalculateChecksum, SequenceNumber := 8 }
      ⟨[], 7, 8,
        [sampleInput.ClientTimestamp, sampleInput.MovementInput.X, sampleInput.MovementInput.Y,
         sampleInput.LookInput.X, sampleInput.LookInput.Y, sampleInput.ActionFlags],
        by decide, rfl, rfl⟩).2 (by decide) rfl,
   by decide,
   (checksum_detects_single_field_change.2
      { sampleUpdate with Checksum := sampleUpdate.CalculateChecksum }
      { sampleUpdate with Checksum := sampleUpdate.CalculateChecksum, AuthoritativeState := 3 }
      ⟨[sampleUpdate.AcknowledgedSequence, sampleUpdate.ServerTimestamp,
         sampleUpdate.AuthoritativePosition.X, sampleUpdate.AuthoritativePosition.Y,
         sampleUpdate.AuthoritativePosition.Z, sampleUpdate.AuthoritativeVelocity.X,
         sampleUpdate.AuthoritativeVelocity.Y, sampleUpdate.AuthoritativeVelocity.Z], 2, 3,
        [sampleUpdate.AuthoritativeStamina], by decide, rfl, rfl⟩).2 (by decide) rfl⟩

/-! ## The server applies a valid input (C26) -/

theorem find_map_replace_same {β : Type} (l : List (Nat × β)) (k : Nat) (v : β)
    (h : l.any (fun e => e.1 == k) = true) :
    (l.map (fun e => if e.1 == k then (k, v) else e)).find? (fun e => e.1 == k) = some (k, v) := by
  induction l with
  | nil => simp at h
  | cons a rest ih =>
    rw [List.map_cons, List.find?_cons]
    cases ha : (a.1 == k)
    · have hrest : rest.any (fun e => e.1 == k) = true := by
        rw [List.any_cons, ha] at h
        simpa using h
      simp only [Bool.false_eq_true, if_false, ha]
      exact ih hrest
    · simp

theorem find_map_replace_other {β : Type} (l : List (Nat × β)) (k k2 : Nat) (v : β)
    (hne : k2 ≠ k) :
    (l.map (fun e => if e.1 == k then (k, v) else e)).find? (fun e => e.1 == k2) =
      l.find? (fun e => e.1 == k2) := by
  induction l with
  | nil => rfl
  | cons a rest ih =>
    rw [List.map_cons, List.find?_cons, List.find?_cons]
    cases ha : (a.1 == k)
    · simp only [Bool.false_eq_true, if_false]
      cases hk2 : (a.1 == k2)
      · exact ih
      · rfl
    · have hak : a.1 = k := by simpa using ha
      have hn : (a.1 == k2) = false := by
        rw [hak]; simpa using (Ne.symm hne)
      have hn2 : (k == k2) = false := by simpa using (Ne.symm hne)
      simp only [if_true, hn, hn2]
      exact ih

theorem tmap_find_add_same (m : List (Nat × Nat)) (Key Value : Nat) :
    TMap.Find (TMap.Add m Key Value) Key = some Value := by
  unfold TMap.Find TMap.Add
  split_ifs with h
  · rw [find_map_replace_same m Key Value h]; rfl
  · rw [List.find?_append]
    have hnone : m.find? (fun e => e.1 == Key) = none := by
      rw [List.find?_eq_none]
      intro x hx hk
      exact h (List.any_eq_true.mpr ⟨x, hx, hk⟩)
    rw [hnone]
    simp

theorem tmap_find_add_other (m : List (Nat × Nat)) (Key Value Other : Nat) (hne : Other ≠ Key) :
    TMap.Find (TMap.Add m Key Value) Other = TMap.Find m Other := by
  unfold TMap.Find TMap.Add
  split_ifs with h
  · rw [find_map_replace_other m Key Other Value hne]
  · rw [List.find?_append]
    have hn : ¬ (((Key, Value) : Nat × Nat).1 == Other) = true := by simpa using (Ne.symm hne)
    have hn3 : (Key == Other) = false := by simpa using (Ne.symm hne)
    cases hm : m.find? (fun e => e.1 == Other) with
    | some e => rfl
    | none => simp [List.find?_cons, hn3]

theorem getCharacter_setCharacter_same (gs : ANetworkGameState) (Controller : Nat)
    (Old New : ACharacter) (h : gs.GetCharacter Controller = some Old) :
    (gs.SetCharacter Controller New).GetCharacter Controller = some New := by
  unfold ANetworkGameState.GetCharacter ANetworkGameState.SetCharacter at *
  have hany : gs.Characters.any (fun e => e.1 == Controller) = true := by
    cases hf : gs.Characters.find? (fun e => e.1 == Controller) with
    | none => rw [hf] at h; simp at h
    | some e =>
      exact List.any_eq_true.mpr ⟨e, List.mem_of_find?_eq_some hf,
        @List.find?_some _ (fun e => e.1 == Controller) e gs.Characters hf⟩
  simp only []
  rw [find_map_replace_same gs.Characters Controller New hany]
  rfl

theorem getCharacter_setCharacter_other (gs : ANetworkGameState) (Controller Other : Nat)
    (New : ACharacter) (hne : Other ≠ Controller) :
    (gs.SetCharacter Controller New).GetCharacter Other = gs.GetCharacter Other := by
  unfold ANetworkGameState.GetCharacter ANetworkGameState.SetCharacter
  simp only []
  rw [find_map_replace_other gs.Characters Controller Other New hne]

set_option maxRecDepth 100000 in
/-- C26 (counterexample): `validInput` passes validation and controller 1 of `sampleGameState` has
a character with a movement component, on the authority.  With `TotalInputsProcessed` at the
`int32` maximum the counter does not increase by one.  With `StateUpdateRate` changed to 30 after
`BeginPlay` has set `UpdateInterval` to 1/60, the step is simulated with dt = 1/60, which differs
from the step with dt = 1 / `StateUpdateRate`. -/
theorem processClientInput_counter_wraps :
    sampleGameState.ValidateInput validInput = true ∧
    sampleGameState.bHasAuthority = true ∧
    (sampleGameState.GetCharacter 1).isSome = true ∧
    (ANetworkGameState.ProcessClientInput Engine.openField
        { sampleGameState with TotalInputsProcessed := 2147483647 } (some 1)
        validInput).TotalInputsProcessed = -2147483648 ∧
    (ANetworkGameState.ProcessClientInput Engine.openField
        { sampleGameState with StateUpdateRate := 0x41F00000 } (some 1)
        validInput).GetCharacter 1 =
      some { Location := (sampleMovement.SimulateMovement Engine.openField FVector.ZeroVector
                           validInput.ToCommand f32OneSixtieth).Location,
             MovementComponent := some (sampleMovement.SimulateMovement Engine.openField
                           FVector.ZeroVector validInput.ToCommand f32OneSixtieth).Component,
             StateMachine := some { CurrentState := 0 } } ∧
    sampleMovement.SimulateMovement Engine.openField FVector.ZeroVector validInput.ToCommand
        f32OneSixtieth ≠
      sampleMovement.SimulateMovement Engine.openField FVector.ZeroVector validInput.ToCommand
        (f32div f32One 0x41F00000) := by
  refine ⟨by decide, by decide, by decide, by decide, by decide, by decide⟩

/-- C26 (amended): on the authority, with `TotalInputsProcessed` below the `int32` maximum, for
every Input Packet that passes `ValidateInput`, sent by a controller that has a character with a
movement component, `ProcessClientInput` applies exactly one `SimulateMovement` step to that
character with the packet's movement axes and action flags and dt = the member `UpdateInterval`
(which is 1 / `StateUpdateRate` as long as `StateUpdateRate` is not changed after `BeginPlay`),
increments `TotalInputsProcessed` by one, sets that controller's entry in the
acknowledged-sequence map to the packet's `SequenceNumber`, and leaves every other controller's
entry and character and `InvalidInputsRejected` unchanged. -/
theorem processClientInput_applies_valid_input (E : Engine) (gs : ANetworkGameState)
    (Controller : Nat) (p : FInputPacket) (Character : ACharacter)
    (MovementComp : UPlayerMovementComponent)
    (hauth : gs.bHasAuthority = true) (hvalid : gs.ValidateInput p = true)
    (hchar : gs.GetCharacter Controller = some Character)
    (hmov : Character.MovementComponent = some MovementComp)
    (hcnt : gs.TotalInputsProcessed < 2147483647) :
    (gs.ProcessClientInput E (some Controller) p).GetCharacter Controller =
      some { Character with
        Location := (MovementComp.SimulateMovement E Character.Location
          { SequenceNumber := p.SequenceNumber, ClientTimestamp := p.ClientTimestamp,
            MovementInput := p.MovementInput, LookInput := p.LookInput,
            ActionFlags := p.ActionFlags } gs.UpdateInterval).Location
        MovementComponent := some (MovementComp.SimulateMovement E Character.Location
          { SequenceNumber := p.SequenceNumber, ClientTimestamp := p.ClientTimestamp,
            MovementInput := p.MovementInput, LookInput := p.LookInput,
            ActionFlags := p.ActionFlags } gs.UpdateInterval).Component } ∧
    (gs.ProcessClientInput E (some Controller) p).TotalInputsProcessed =
      gs.TotalInputsProcessed + 1 ∧
    TMap.Find (gs.ProcessClientInput E (some Controller) p).ClientAcknowledgedSequences
      Controller = some p.SequenceNumber ∧
    (∀ Other : Nat, Other ≠ Controller →
      TMap.Find (gs.ProcessClientInput E (some Controller) p).ClientAcknowledgedSequences Other =
        TMap.Find gs.ClientAcknowledgedSequences Other ∧
      (gs.ProcessClientInput E (some Controller) p).GetCharacter Other =
        gs.GetCharacter Other) ∧
    (gs.ProcessClientInput E (some Controller) p).InvalidInputsRejected =
      gs.InvalidInputsRejected ∧
    (gs.ProcessClientInput E (some Controller) p).UpdateInterval = gs.UpdateInterval ∧
    (gs.ProcessClientInput E (some Controller) p).StateUpdateRate = gs.StateUpdateRate := by
  have hchar2 : ANetworkGameState.GetCharacter
      { gs with TotalInputsProcessed := gs.TotalInputsProcessed + 1 } Controller =
      some Character := hchar
  have key : gs.ProcessClientInput E (some Controller) p =
      { (ANetworkGameState.SetCharacter
          { gs with TotalInputsProcessed := gs.TotalInputsProcessed + 1 } Controller
          { Character with
            Location := (MovementComp.SimulateMovement E Character.Location
              { SequenceNumber := p.SequenceNumber, ClientTimestamp := p.ClientTimestamp,
                MovementInput := p.MovementInput, LookInput := p.LookInput,
                ActionFlags := p.ActionFlags } gs.UpdateInterval).Location
            MovementComponent := some (MovementComp.SimulateMovement E Character.Location
              { SequenceNumber := p.SequenceNumber, ClientTimestamp := p.ClientTimestamp,
                MovementInput := p.MovementInput, LookInput := p.LookInput,
                ActionFlags := p.ActionFlags } gs.UpdateInterval).Component }) with
        ClientAcknowledgedSequences :=
          TMap.Add gs.ClientAcknowledgedSequences Controller p.SequenceNumber } := by
    unfold ANetworkGameState.ProcessClientInput
    simp only []
    rw [if_neg (by simp [hauth]), if_neg (by simp [hvalid]), int32Increment_eq hcnt]
    simp only [hchar2, hmov]
    rfl
  rw [key]
  refine ⟨?_, rfl, tmap_find_add_same _ _ _, ?_, rfl, rfl, rfl⟩
  · exact getCharacter_setCharacter_same _ Controller Character _ hchar2
  · intro Other hne
    exact ⟨tmap_find_add_other _ _ _ _ hne,
      getCharacter_setCharacter_other _ Controller Other _ hne⟩

set_option maxRecDepth 100000 in
/-- Witness of the amended C26: `validInput` sent by controller 1 to `sampleGameState`. -/
theorem processClientInput_applies_valid_input_witness :
    (sampleGameState.ProcessClientInput Engine.openField (some 1) validInput).TotalInputsProcessed =
      sampleGameState.TotalInputsProcessed + 1 ∧
    TMap.Find (sampleGameState.ProcessClientInput Engine.openField (some 1)
      validInput).ClientAcknowledgedSequences 1 = some validInput.SequenceNumber :=
  ⟨(processClientInput_applies_valid_input Engine.openField sampleGameState 1 validInput
      { Location := FVector.ZeroVector, MovementComponent := some sampleMovement,
        StateMachine := some { CurrentState := 0 } } sampleMovement
      (by decide) (by decide) (by decide) rfl (by decide)).2.1,
   (processClientInput_applies_valid_input Engine.openField sampleGameState 1 validInput
      { Location := FVector.ZeroVector, MovementComponent := some sampleMovement,
        StateMachine := some { CurrentState := 0 } } sampleMovement
      (by decide) (by decide) (by decide) rfl (by decide)).2.2.1⟩

/-! ## The smoothing state of the reconciler (C27) -/

theorem simulateInput_reconciler (E : Engine) (W : FClient) (Input : FInputPacket)
    (DeltaTime : F32) :
    (UNetworkPrediction.SimulateInput E W Input DeltaTime).Reconciler = W.Reconciler := by
  unfold UNetworkPrediction.SimulateInput
  split_ifs
  · rfl
  · exact (savePredictionState_frame _ _).2.2.2.1

theorem foldl_simulateInput_reconciler (E : Engine) (l : List FInputPacket) :
    ∀ W : FClient,
      (l.foldl (fun W Input => UNetworkPrediction.SimulateInput E W Input f32OneSixtieth)
        W).Reconciler = W.Reconciler := by
  induction l with
  | nil => intro W; rfl
  | cons Input rest ih =>
    intro W
    rw [List.foldl_cons, ih, simulateInput_reconciler]

set_option maxRecDepth 100000 in
/-- C27 (failing run): `OnServerCorrection` never changes `bIsSmoothing` or `SmoothingTarget`, on
any path.  `sampleClient` is Following (`bIsSmoothing` false) and `sampleUpdate` lies beyond the
threshold; when the call returns, the correction has been applied (`TotalCorrections` is 1) and
`bIsSmoothing` is still false. -/
theorem onServerCorrection_never_starts_smoothing :
    (∀ (E : Engine) (W : FClient) (Correction : FStateUpdatePacket),
      (UNetworkReconciler.OnServerCorrection E W Correction).Reconciler.bIsSmoothing =
        W.Reconciler.bIsSmoothing ∧
      (UNetworkReconciler.OnServerCorrection E W Correction).Reconciler.SmoothingTarget =
        W.Reconciler.SmoothingTarget) ∧
    sampleClient.Reconciler.bIsSmoothing = false ∧
    sampleClient.Reconciler.bEnableSmoothing = true ∧
    f32gt (FVector.Dist sampleClient.Location sampleUpdate.AuthoritativePosition)
      sampleClient.Reconciler.CorrectionThreshold = true ∧
    (UNetworkReconciler.OnServerCorrection Engine.openField sampleClient
      sampleUpdate).Reconciler.TotalCorrections = 1 ∧
    (UNetworkReconciler.OnServerCorrection Engine.openField sampleClient
      sampleUpdate).Reconciler.bIsSmoothing = false := by
  refine ⟨?_, by decide, by decide, by decide, by decide, by decide⟩
  intro E W Correction
  rcases onServerCorrection_cases E W Correction with h | ⟨PC, -, h⟩ | h
  · rw [h]; exact ⟨rfl, rfl⟩
  · rw [h]; exact ⟨rfl, rfl⟩
  · rw [h, (onServerCorrectionFinish_fields _ Correction).2.2.2]
    unfold UNetworkReconciler.ReplayInputs
    rw [foldl_simulateInput_reconciler, (onServerCorrectionSnap_fields W Correction).2.2.2.2.2.2]
    exact ⟨rfl, rfl⟩

/-! ## Stamina and sprinting (C21, C22) -/

theorem simulateMovementSprint_of_not_positive (m : UPlayerMovementComponent)
    (Input : FInputCommand) (DeltaTime : F32)
    (h : f32gt m.CurrentStamina f32Zero = false) :
    SimulateMovementSprint m Input DeltaTime = ({ m with bIsSprinting := false }, m.MaxWalkSpeed) := by
  unfold SimulateMovementSprint
  simp only [h, Bool.and_false, Bool.false_eq_true, if_false]

theorem simulateMovementSprint_of_flag_clear (m : UPlayerMovementComponent)
    (Input : FInputCommand) (DeltaTime : F32)
    (h : Input.ActionFlags &&& FInputCommand.FLAG_SPRINT = 0) :
    SimulateMovementSprint m Input DeltaTime = ({ m with bIsSprinting := false }, m.MaxWalkSpeed) := by
  unfold SimulateMovementSprint
  simp [h]

set_option maxRecDepth 100000 in
/-- C21 (counterexample): a movement component without updated component, with stamina 0 and
`bIsSprinting` still true (as a server correction of the stamina leaves it), is returned unchanged
by `SimulateMovement`: `bIsSprinting` stays true. -/
theorem simulateMovement_exhausted_without_updated_component :
    f32le ({ sampleMovement with UpdatedComponent := false, CurrentStamina := f32Zero,
                                 bIsSprinting := true } : UPlayerMovementComponent).CurrentStamina
      f32Zero = true ∧
    (UPlayerMovementComponent.SimulateMovement Engine.openField
        { sampleMovement with UpdatedComponent := false, CurrentStamina := f32Zero,
                              bIsSprinting := true }
        FVector.ZeroVector sprintCommand f32OneSixtieth).Component.bIsSprinting = true := by
  refine ⟨by decide, by decide⟩

/-- C21 (amended): for every movement state that has its updated component and whose
`CurrentStamina` is at most 0, and every input, including inputs with the sprint flag set,
`SimulateMovement` leaves `bIsSprinting` false, uses the walk speed `MaxWalkSpeed` as target speed
(the step is the acceleration and the move with that target speed), and leaves `CurrentStamina`
unchanged.  Hence when a sprinting step has brought the stamina to at most 0, the next step with
the sprint flag still set has `bIsSprinting` false. -/
theorem simulateMovement_exhausted_forces_walk (E : Engine) (m : UPlayerMovementComponent)
    (Location : FVector) (Input : FInputCommand) (DeltaTime : F32)
    (hu : m.UpdatedComponent = true) (hs : f32le m.CurrentStamina f32Zero = true) :
    (m.SimulateMovement E Location Input DeltaTime).Component.bIsSprinting = false ∧
    (m.SimulateMovement E Location Input DeltaTime).Component.CurrentStamina = m.CurrentStamina ∧
    SimulateMovementSprint m Input DeltaTime = ({ m with bIsSprinting := false }, m.MaxWalkSpeed) ∧
    m.SimulateMovement E Location Input DeltaTime =
      SimulateMovementMove E
        (SimulateMovementAccelerate E { m with bIsSprinting := false }
          (SimulateMovementInputVector E Input) m.MaxWalkSpeed DeltaTime)
        Location DeltaTime ∧
    (m.SimulateMovement E Location Input DeltaTime).Component.UpdatedComponent = true := by
  have hgt : f32gt m.CurrentStamina f32Zero = false := f32lt_false_of_le hs
  have hsp := simulateMovementSprint_of_not_positive m Input DeltaTime hgt
  have hst := SimulateMovement_staged E m Location Input DeltaTime hu
  rw [hsp] at hst
  refine ⟨?_, ?_, hsp, hst, ?_⟩
  · rw [hst, (SimulateMovementMove_component E _ Location DeltaTime).1,
      (SimulateMovementAccelerate_others E _ _ _ DeltaTime).2]
  · rw [hst, (SimulateMovementMove_component E _ Location DeltaTime).1,
      (SimulateMovementAccelerate_others E _ _ _ DeltaTime).1]
  · rw [hst, (SimulateMovementMove_component E _ Location DeltaTime).1]
    unfold SimulateMovementAccelerate
    simp only []
    split_ifs <;> exact hu

set_option maxRecDepth 100000 in
/-- Witness of the amended C21: `tiredMovement` sprints one step, which brings its stamina to 0;
the next step with the sprint flag still set leaves `bIsSprinting` false. -/
theorem simulateMovement_exhausted_forces_walk_witness :
    (tiredMovement.SimulateMovement Engine.openField FVector.ZeroVector sprintCommand
      f32OneSixtieth).Component.CurrentStamina = f32Zero ∧
    ((tiredMovement.SimulateMovement Engine.openField FVector.ZeroVector sprintCommand
        f32OneSixtieth).Component.SimulateMovement Engine.openField FVector.ZeroVector
      sprintCommand f32OneSixtieth).Component.bIsSprinting = false :=
  ⟨by decide,
   (simulateMovement_exhausted_forces_walk Engine.openField
      (tiredMovement.SimulateMovement Engine.openField FVector.ZeroVector sprintCommand
        f32OneSixtieth).Component FVector.ZeroVector sprintCommand f32OneSixtieth
      (by decide) (by decide)).1⟩

set_option maxRecDepth 100000 in
/-- C22 (counterexample): `halfStaminaMovement` has stamina 50 of 100 and regenerates 15 per
second.  A step without the sprint flag at dt = 1/60 leaves the stamina at 50, not at
min(MaxStamina, 50 + 15/60) = 50.25. -/
theorem simulateMovement_does_not_regenerate :
    walkCommand.ActionFlags &&& FInputCommand.FLAG_SPRINT = 0 ∧
    (halfStaminaMovement.SimulateMovement Engine.openField FVector.ZeroVector walkCommand
      f32OneSixtieth).Component.CurrentStamina = 0x42480000 ∧
    FMath.Min halfStaminaMovement.MaxStamina
      (f32add halfStaminaMovement.CurrentStamina
        (f32mul halfStaminaMovement.StaminaRegenRate f32OneSixtieth)) = 0x42490000 ∧
    (halfStaminaMovement.SimulateMovement Engine.openField FVector.ZeroVector walkCommand
      f32OneSixtieth).Component.CurrentStamina ≠
      FMath.Min halfStaminaMovement.MaxStamina
        (f32add halfStaminaMovement.CurrentStamina
          (f32mul halfStaminaMovement.StaminaRegenRate f32OneSixtieth)) := by
  refine ⟨by decide, by decide, by decide, by decide⟩

/-- C22 (amended): for every movement state and every input for which the step is not sprinting
(sprint flag clear, or stamina not above 0), one `SimulateMovement` step leaves the stamina
unchanged.  Stamina regenerates in `TickComponent`: when `bIsSprinting` is false it calls
`RegenerateStamina`, which sets the stamina to min(`MaxStamina`, stamina + `StaminaRegenRate` * dt),
and when `bIsSprinting` is true it leaves the stamina unchanged. -/
theorem stamina_regenerates_in_tick :
    (∀ (E : Engine) (m : UPlayerMovementComponent) (Location : FVector) (Input : FInputCommand)
      (DeltaTime : F32),
      (Input.ActionFlags &&& FInputCommand.FLAG_SPRINT = 0 ∨
        f32gt m.CurrentStamina f32Zero = false) →
      (m.SimulateMovement E Location Input DeltaTime).Component.CurrentStamina =
        m.CurrentStamina) ∧
    (∀ (m : UPlayerMovementComponent) (DeltaTime : F32),
      (m.RegenerateStamina DeltaTime).CurrentStamina =
        FMath.Min m.MaxStamina (f32add m.CurrentStamina (f32mul m.StaminaRegenRate DeltaTime)) ∧
      (m.bIsSprinting = false → m.TickComponent DeltaTime = m.RegenerateStamina DeltaTime) ∧
      (m.bIsSprinting = true → m.TickComponent DeltaTime = m)) := by
  refine ⟨?_, ?_⟩
  · intro E m Location Input DeltaTime h
    by_cases hu : m.UpdatedComponent = true
    · have hsp : SimulateMovementSprint m Input DeltaTime =
          ({ m with bIsSprinting := false }, m.MaxWalkSpeed) := by
        rcases h with h | h
        · exact simulateMovementSprint_of_flag_clear m Input DeltaTime h
        · exact simulateMovementSprint_of_not_positive m Input DeltaTime h
      rw [SimulateMovement_staged E m Location Input DeltaTime hu, hsp,
        (SimulateMovementMove_component E _ Location DeltaTime).1,
        (SimulateMovementAccelerate_others E _ _ _ DeltaTime).1]
    · unfold UPlayerMovementComponent.SimulateMovement
      rw [if_pos (by simpa using hu)]
  · intro m DeltaTime
    refine ⟨rfl, ?_, ?_⟩
    · intro h
      unfold UPlayerMovementComponent.TickComponent
      rw [if_pos (by simp [h])]
    · intro h
      unfold UPlayerMovementComponent.TickComponent
      rw [if_neg (by simp [h])]

set_option maxRecDepth 100000 in
/-- Witness of the amended C22: `halfStaminaMovement` walks one step, then ticks. -/
theorem stamina_regenerates_in_tick_witness :
    (halfStaminaMovement.SimulateMovement Engine.openField FVector.ZeroVector walkCommand
      f32OneSixtieth).Component.CurrentStamina = halfStaminaMovement.CurrentStamina ∧
    (halfStaminaMovement.TickComponent f32OneSixtieth).CurrentStamina = 0x42490000 :=
  ⟨stamina_regenerates_in_tick.1 Engine.openField halfStaminaMovement FVector.ZeroVector
      walkCommand f32OneSixtieth (Or.inl (by decide)),
   by rw [(stamina_regenerates_in_tick.2 halfStaminaMovement f32OneSixtieth).2.1 rfl]; decide⟩

/-! ## The velocity limits of the movement simulator (C24, C25) -/

theorem bitLength_spec : ∀ (fuel n : Nat), n < 2 ^ fuel →
    (n = 0 → bitLength fuel n = 0) ∧
    (0 < n → 2 ^ (bitLength fuel n - 1) ≤ n ∧ n < 2 ^ bitLength fuel n ∧ 1 ≤ bitLength fuel n) := by
  intro fuel
  induction fuel with
  | zero =>
    intro n hn
    have h0 : n = 0 := by simpa using hn
    subst h0
    exact ⟨fun _ => rfl, fun h => absurd h (by decide)⟩
  | succ f ih =>
    intro n hn
    by_cases h0 : n = 0
    · subst h0
      refine ⟨fun _ => ?_, fun h => absurd h (by decide)⟩
      unfold bitLength
      simp
    · refine ⟨fun h => absurd h h0, fun _ => ?_⟩
      have hb : bitLength (f + 1) n = bitLength f (n / 2) + 1 := by
        rw [bitLength]
        simp [h0]
      have hhalf : n / 2 < 2 ^ f := by
        rw [pow_succ] at hn
        omega
      obtain ⟨ihz, ihp⟩ := ih (n / 2) hhalf
      rw [hb]
      by_cases h2 : n / 2 = 0
      · rw [ihz h2]
        have h1 : n = 1 := by omega
        subst h1
        decide
      · obtain ⟨hlo, hhi, hone⟩ := ihp (Nat.pos_of_ne_zero h2)
        refine ⟨?_, ?_, by omega⟩
        · have hp : 2 ^ (bitLength f (n / 2) + 1 - 1) = 2 ^ (bitLength f (n / 2) - 1) * 2 := by
            rw [← pow_succ]
            congr 1
            omega
          rw [hp]
          omega
        · rw [pow_succ]
          omega

theorem bitLength_unique {fuel n L : Nat} (hn : n < 2 ^ fuel) (hlo : 2 ^ (L - 1) ≤ n)
    (hhi : n < 2 ^ L) (hL : 1 ≤ L) : bitLength fuel n = L := by
  have hpos : 0 < n := lt_of_lt_of_le (Nat.two_pow_pos _) hlo
  obtain ⟨h1, h2, h3⟩ := (bitLength_spec fuel n hn).2 hpos
  have ha : bitLength fuel n - 1 < L := by
    by_contra hc
    have : 2 ^ L ≤ 2 ^ (bitLength fuel n - 1) := Nat.pow_le_pow_right (by decide) (by omega)
    omega
  have hb : L - 1 < bitLength fuel n := by
    by_contra hc
    have : 2 ^ bitLength fuel n ≤ 2 ^ (L - 1) := Nat.pow_le_pow_right (by decide) (by omega)
    omega
  omega

theorem bitLength_mono {fuel a b : Nat} (hb : b < 2 ^ fuel) (hab : a ≤ b) :
    bitLength fuel a ≤ bitLength fuel b := by
  have ha : a < 2 ^ fuel := lt_of_le_of_lt hab hb
  by_cases h0 : a = 0
  · rw [(bitLength_spec fuel a ha).1 h0]; exact Nat.zero_le _
  · have hpa : 0 < a := Nat.pos_of_ne_zero h0
    obtain ⟨h1, -, h3⟩ := (bitLength_spec fuel a ha).2 hpa
    obtain ⟨-, h5, -⟩ := (bitLength_spec fuel b hb).2 (lt_of_lt_of_le hpa hab)
    by_contra hc
    have : 2 ^ bitLength fuel b ≤ 2 ^ (bitLength fuel a - 1) :=
      Nat.pow_le_pow_right (by decide) (by omega)
    omega

theorem bitLength_shift {N k : Nat} (hN : 0 < N) (hz : N * 2 ^ k < 2 ^ 512) :
    bitLength 512 (N * 2 ^ k) = bitLength 512 N + k := by
  have hN512 : N < 2 ^ 512 :=
    lt_of_le_of_lt (Nat.le_mul_of_pos_right N (Nat.two_pow_pos k)) hz
  obtain ⟨h1, h2, h3⟩ := (bitLength_spec 512 N hN512).2 hN
  apply bitLength_unique hz
  · have : bitLength 512 N + k - 1 = (bitLength 512 N - 1) + k := by omega
    rw [this, pow_add]
    exact Nat.mul_le_mul_right _ h1
  · rw [pow_add]
    exact Nat.mul_lt_mul_of_pos_right h2 (Nat.two_pow_pos k)
  · omega

/-- The rounding decision and the significand of `f32Round` agree with those on the shifted
integer: case where the shift is absorbed by the discarded digits. -/
theorem round_shift_absorbed (N d k : Nat) :
    (if (decide (1 ≤ d) && (decide (2 ^ (d - 1) < N % 2 ^ d) ||
        (decide (N % 2 ^ d = 2 ^ (d - 1)) && (false || N / 2 ^ d % 2 == 1)))) = true
      then N / 2 ^ d + 1 else N / 2 ^ d) =
    (if (decide (1 ≤ d + k) && (decide (2 ^ (d + k - 1) < N * 2 ^ k % 2 ^ (d + k)) ||
        (decide (N * 2 ^ k % 2 ^ (d + k) = 2 ^ (d + k - 1)) &&
          N * 2 ^ k / 2 ^ (d + k) % 2 == 1))) = true
      then N * 2 ^ k / 2 ^ (d + k) + 1 else N * 2 ^ k / 2 ^ (d + k)) := by
  have hdiv : N * 2 ^ k / 2 ^ (d + k) = N / 2 ^ d := by
    rw [pow_add, Nat.mul_div_mul_right _ _ (Nat.two_pow_pos k)]
  have hmod : N * 2 ^ k % 2 ^ (d + k) = N % 2 ^ d * 2 ^ k := by
    rw [pow_add, Nat.mul_mod_mul_right]
  rw [hdiv, hmod]
  by_cases hd : 1 ≤ d
  · have hhalf : 2 ^ (d + k - 1) = 2 ^ (d - 1) * 2 ^ k := by
      rw [← pow_add]; congr 1; omega
    have h1 : (2 ^ (d - 1) * 2 ^ k < N % 2 ^ d * 2 ^ k) ↔ (2 ^ (d - 1) < N % 2 ^ d) :=
      Nat.mul_lt_mul_right (Nat.two_pow_pos k)
    have h2 : (N % 2 ^ d * 2 ^ k = 2 ^ (d - 1) * 2 ^ k) ↔ (N % 2 ^ d = 2 ^ (d - 1)) :=
      Nat.mul_left_inj (Nat.two_pow_pos k).ne'
    have hdk : 1 ≤ d + k := by omega
    rw [hhalf]
    simp only [h1, h2, hd, hdk, decide_True, Bool.true_and, Bool.false_or]
  · have hd0 : d = 0 := by omega
    subst hd0
    have hm1 : N % 2 ^ 0 = 0 := by simp [Nat.mod_one]
    rw [hm1]
    have hpos : 0 < 2 ^ (0 + k - 1) := Nat.two_pow_pos _
    have hne : ¬ (0 * 2 ^ k = 2 ^ (0 + k - 1)) := by
      rw [Nat.zero_mul]; omega
    have hnlt : ¬ (2 ^ (0 + k - 1) < 0 * 2 ^ k) := by
      rw [Nat.zero_mul]; omega
    have hne2 : ¬ (0 = 2 ^ (k - 1)) := by
      have := Nat.two_pow_pos (k - 1); omega
    simp [hne, hnlt, hne2]

theorem f32Round_eq_roundMag (s : Bool) (N k : Nat) (hz : N * 2 ^ k < 2 ^ 512) :
    f32Round s N false k 149 = f32Pack s (f32RoundMag (N * 2 ^ k)) := by
  by_cases hN : N = 0
  · subst hN; simp [f32Round, f32RoundMag]
  · have hNpos : 0 < N := Nat.pos_of_ne_zero hN
    have hzne : N * 2 ^ k ≠ 0 := (Nat.mul_pos hNpos (Nat.two_pow_pos k)).ne'
    have hL := bitLength_shift hNpos hz
    have hN512 : N < 2 ^ 512 :=
      lt_of_le_of_lt (Nat.le_mul_of_pos_right N (Nat.two_pow_pos k)) hz
    obtain ⟨hlo, hhi, hone⟩ := (bitLength_spec 512 N hN512).2 hNpos
    unfold f32Round f32RoundMag f32RoundBits f32RoundUp
    rw [if_neg hN, if_neg hzne, hL]
    simp only []
    generalize bitLength 512 N = L at hlo hhi hone
    by_cases h24 : 24 ≤ L + k
    · have hmax : max (L + k + 149) (149 + 24) = L + k + 149 := by omega
      rw [hmax]
      have hexp : L + k + 149 - 24 - 149 = L + k - 24 := by omega
      rw [hexp]
      by_cases hL24 : 24 ≤ L
      · have hc : k + 173 ≤ L + k + 149 := by omega
        rw [if_pos hc]
        have hd : L + k + 149 - (k + 173) = L - 24 := by omega
        have hd2 : L + k - 24 = L - 24 + k := by omega
        rw [hd, hd2, round_shift_absorbed N (L - 24) k]
      · have hc : ¬ (k + 173 ≤ L + k + 149) := by omega
        rw [if_neg hc]
        have he : k + 173 - (L + k + 149) = 24 - L := by omega
        rw [he]
        have hk : k = (24 - L) + (L + k - 24) := by omega
        have hzz : N * 2 ^ k = N * 2 ^ (24 - L) * 2 ^ (L + k - 24) := by
          rw [Nat.mul_assoc, ← pow_add, ← hk]
        rw [hzz, Nat.mul_div_cancel _ (Nat.two_pow_pos _), Nat.mul_mod_left]
        have hpos : 0 < 2 ^ (L + k - 24 - 1) := Nat.two_pow_pos _
        have h1 : ¬ (2 ^ (L + k - 24 - 1) < 0) := by omega
        have h2 : ¬ (0 = 2 ^ (L + k - 24 - 1)) := by omega
        simp [h1, h2]
    · have hmax : max (L + k + 149) (149 + 24) = 173 := by omega
      rw [hmax]
      have hd0 : L + k - 24 = 0 := by omega
      rw [hd0]
      by_cases hk0 : k = 0
      · subst hk0
        simp
      · have hc : ¬ (k + 173 ≤ 173) := by omega
        rw [if_neg hc]
        simp

theorem f32RoundUp_mono {z1 z2 d : Nat} (hz : z1 ≤ z2) (hq : z1 / 2 ^ d = z2 / 2 ^ d)
    (h : f32RoundUp z1 d = true) : f32RoundUp z2 d = true := by
  have e1 := Nat.div_add_mod z1 (2 ^ d)
  have e2 := Nat.div_add_mod z2 (2 ^ d)
  rw [hq] at e1
  have hr : z1 % 2 ^ d ≤ z2 % 2 ^ d := by omega
  unfold f32RoundUp at *
  rw [hq] at h
  simp only [Bool.and_eq_true, Bool.or_eq_true, decide_eq_true_eq, beq_iff_eq] at *
  obtain ⟨hd, hcase⟩ := h
  refine ⟨hd, ?_⟩
  rcases hcase with h1 | ⟨h1, h2⟩
  · left; omega
  · by_cases h3 : z2 % 2 ^ d = 2 ^ (d - 1)
    · right; exact ⟨h3, h2⟩
    · left; omega

theorem f32RoundUp_zero (z : Nat) : f32RoundUp z 0 = false := by
  simp [f32RoundUp]

/-- The bits before the overflow check lie within one of the truncated significand. -/
theorem f32RoundBits_bounds (z : Nat) :
    (bitLength 512 z - 24) * 8388608 + z / 2 ^ (bitLength 512 z - 24) ≤ f32RoundBits z ∧
    f32RoundBits z ≤ (bitLength 512 z - 24) * 8388608 + z / 2 ^ (bitLength 512 z - 24) + 1 := by
  unfold f32RoundBits
  simp only []
  split_ifs <;> omega

/-- With no discarded digit the bits are the integer itself. -/
theorem f32RoundBits_small {z : Nat} (hd : bitLength 512 z - 24 = 0) : f32RoundBits z = z := by
  unfold f32RoundBits
  simp only []
  rw [hd, f32RoundUp_zero]
  simp

theorem lt_of_bitLength_le {z L : Nat} (hz : z < 2 ^ 512) (h : bitLength 512 z ≤ L) : z < 2 ^ L := by
  by_cases h0 : z = 0
  · subst h0; exact Nat.two_pow_pos _
  · obtain ⟨-, h2, -⟩ := (bitLength_spec 512 z hz).2 (Nat.pos_of_ne_zero h0)
    exact lt_of_lt_of_le h2 (Nat.pow_le_pow_right (by decide) h)

/-- With discarded digits the truncated significand has exactly 24 digits. -/
theorem truncated_significand_bounds {z : Nat} (hz : z < 2 ^ 512)
    (hd : 1 ≤ bitLength 512 z - 24) :
    8388608 ≤ z / 2 ^ (bitLength 512 z - 24) ∧ z / 2 ^ (bitLength 512 z - 24) < 16777216 := by
  have h0 : 0 < z := by
    by_contra hc
    have hz0 : z = 0 := by omega
    rw [hz0] at hd
    simp [bitLength] at hd
  obtain ⟨h1, h2, h3⟩ := (bitLength_spec 512 z hz).2 h0
  generalize bitLength 512 z = L at *
  have hL : L = (L - 24) + 24 := by omega
  have hL1 : L - 1 = (L - 24) + 23 := by omega
  rw [hL1, pow_add] at h1
  rw [hL, pow_add] at h2
  have hp : 0 < 2 ^ (L - 24) := Nat.two_pow_pos _
  constructor
  · rw [Nat.le_div_iff_mul_le hp]
    have : (2 : Nat) ^ 23 = 8388608 := by norm_num
    rw [← this, Nat.mul_comm]
    exact h1
  · rw [Nat.div_lt_iff_lt_mul hp]
    have : (2 : Nat) ^ 24 = 16777216 := by norm_num
    rw [← this, Nat.mul_comm]
    exact h2

theorem f32RoundBits_mono {z1 z2 : Nat} (hz2 : z2 < 2 ^ 512) (h : z1 ≤ z2) :
    f32RoundBits z1 ≤ f32RoundBits z2 := by
  have hz1 : z1 < 2 ^ 512 := lt_of_le_of_lt h hz2
  have hL := bitLength_mono hz2 h
  have hb1 := f32RoundBits_bounds z1
  have hb2 := f32RoundBits_bounds z2
  by_cases hd : bitLength 512 z1 - 24 = bitLength 512 z2 - 24
  · by_cases hq : z1 / 2 ^ (bitLength 512 z1 - 24) = z2 / 2 ^ (bitLength 512 z2 - 24)
    · unfold f32RoundBits
      simp only []
      rw [← hd] at hq ⊢
      rw [← hq]
      by_cases hu : f32RoundUp z1 (bitLength 512 z1 - 24) = true
      · rw [if_pos hu, if_pos (f32RoundUp_mono h hq hu)]
      · rw [if_neg hu]
        split_ifs <;> omega
    · rw [hd] at hb1 hq
      have hle : z1 / 2 ^ (bitLength 512 z2 - 24) ≤ z2 / 2 ^ (bitLength 512 z2 - 24) :=
        Nat.div_le_div_right h
      generalize z1 / 2 ^ (bitLength 512 z2 - 24) = q1 at *
      generalize z2 / 2 ^ (bitLength 512 z2 - 24) = q2 at *
      omega
  · have hd2 : 1 ≤ bitLength 512 z2 - 24 := by omega
    have ht2 := truncated_significand_bounds hz2 hd2
    by_cases hd1 : bitLength 512 z1 - 24 = 0
    · rw [f32RoundBits_small hd1]
      have : z1 < 2 ^ 24 := lt_of_bitLength_le hz1 (by omega)
      have h24 : (2 : Nat) ^ 24 = 16777216 := by norm_num
      omega
    · have ht1 := truncated_significand_bounds hz1 (by omega)
      omega

theorem f32RoundMag_mono {z1 z2 : Nat} (hz2 : z2 < 2 ^ 512) (h : z1 ≤ z2) :
    f32RoundMag z1 ≤ f32RoundMag z2 := by
  unfold f32RoundMag
  by_cases h1 : z1 = 0
  · rw [if_pos h1]; exact Nat.zero_le _
  · have h2 : z2 ≠ 0 := by omega
    rw [if_neg h1, if_neg h2]
    have := f32RoundBits_mono hz2 h
    split_ifs <;> omega

theorem f32RoundMag_le (z : Nat) : f32RoundMag z ≤ 0x7F800000 := by
  unfold f32RoundMag
  split_ifs <;> omega

/-- Everything from `2 ^ 278` units on rounds to infinity. -/
theorem f32RoundMag_big {z : Nat} (hz : z < 2 ^ 512) (h : 2 ^ 278 ≤ z) :
    f32RoundMag z = 0x7F800000 := by
  have hpos : 0 < z := lt_of_lt_of_le (Nat.two_pow_pos _) h
  have hL : 279 ≤ bitLength 512 z := by
    by_contra hc
    have := lt_of_bitLength_le hz (by omega : bitLength 512 z ≤ 278)
    omega
  have hb := f32RoundBits_bounds z
  generalize z / 2 ^ (bitLength 512 z - 24) = q at hb
  unfold f32RoundMag
  rw [if_neg (by omega)]
  rw [if_pos (by omega)]

theorem f32Mag_decompose (a : Nat) :
    f32Mag a = (a / 8388608 % 256) * 8388608 + a % 8388608 := by
  unfold f32Mag
  show @Eq Nat _ _
  omega

theorem f32Units_lt (a : Nat) : f32Units a < 2 ^ 278 := by
  unfold f32Units f32Sig f32Scale
  have hs : (if a / 8388608 % 256 = 0 then a % 8388608 else 8388608 + a % 8388608) < 2 ^ 24 := by
    have h24 : (2 : Nat) ^ 24 = 16777216 := by norm_num
    split_ifs <;> omega
  have he : a / 8388608 % 256 - 1 ≤ 254 := by omega
  calc (if a / 8388608 % 256 = 0 then a % 8388608 else 8388608 + a % 8388608) *
        2 ^ (a / 8388608 % 256 - 1)
      < 2 ^ 24 * 2 ^ (a / 8388608 % 256 - 1) := Nat.mul_lt_mul_of_pos_right hs (Nat.two_pow_pos _)
    _ ≤ 2 ^ 24 * 2 ^ 254 := Nat.mul_le_mul_left _ (Nat.pow_le_pow_right (by decide) he)
    _ = 2 ^ 278 := by rw [← pow_add]

theorem f32Units_lt_512 (a : Nat) : f32Units a < 2 ^ 512 :=
  lt_trans (f32Units_lt a) (Nat.pow_lt_pow_right (by decide) (by decide))

/-- Rounding is exact on the patterns that are not NaN. -/
theorem f32RoundMag_units {a : Nat} (ha : f32IsNaN a = false) :
    f32RoundMag (f32Units a) = f32Mag a := by
  have hmag := f32Mag_decompose a
  have hle : f32Mag a ≤ 0x7F800000 := by
    unfold f32IsNaN at ha
    simpa using ha
  have hz := f32Units_lt_512 a
  have hm : a % 8388608 < 8388608 := Nat.mod_lt _ (by decide)
  by_cases he : a / 8388608 % 256 = 0
  · have hu : f32Units a = a % 8388608 := by
      unfold f32Units f32Sig f32Scale
      rw [if_pos he, he]
      simp
    rw [hu] at hz ⊢
    rw [hmag, he]
    simp only [Nat.zero_mul, Nat.zero_add]
    by_cases h0 : a % 8388608 = 0
    · rw [h0]; rfl
    · have hL : bitLength 512 (a % 8388608) ≤ 23 := by
        by_contra hc
        obtain ⟨h1, -, -⟩ := (bitLength_spec 512 _ hz).2 (Nat.pos_of_ne_zero h0)
        have : 2 ^ 23 ≤ 2 ^ (bitLength 512 (a % 8388608) - 1) :=
          Nat.pow_le_pow_right (by decide) (by omega)
        have h23 : (2 : Nat) ^ 23 = 8388608 := by norm_num
        omega
      unfold f32RoundMag
      rw [if_neg h0, f32RoundBits_small (by omega)]
      rw [if_neg (by omega)]
  · have hu : f32Units a = (8388608 + a % 8388608) * 2 ^ (a / 8388608 % 256 - 1) := by
      unfold f32Units f32Sig f32Scale
      rw [if_neg he]
    rw [hu] at hz ⊢
    have hN : bitLength 512 (8388608 + a % 8388608) = 24 := by
      apply bitLength_unique
      · have : (2 : Nat) ^ 24 ≤ 2 ^ 512 := Nat.pow_le_pow_right (by decide) (by decide)
        have h24 : (2 : Nat) ^ 24 = 16777216 := by norm_num
        omega
      · have h23 : (2 : Nat) ^ (24 - 1) = 8388608 := by norm_num
        omega
      · have h24 : (2 : Nat) ^ 24 = 16777216 := by norm_num
        omega
      · decide
    have hL := bitLength_shift (by omega : 0 < 8388608 + a % 8388608) hz
    rw [hN] at hL
    have hzne : (8388608 + a % 8388608) * 2 ^ (a / 8388608 % 256 - 1) ≠ 0 :=
      (Nat.mul_pos (by omega) (Nat.two_pow_pos _)).ne'
    have hbits : f32RoundBits ((8388608 + a % 8388608) * 2 ^ (a / 8388608 % 256 - 1)) =
        f32Mag a := by
      unfold f32RoundBits f32RoundUp
      simp only []
      rw [hL]
      have hd : 24 + (a / 8388608 % 256 - 1) - 24 = a / 8388608 % 256 - 1 := by omega
      rw [hd, Nat.mul_div_cancel _ (Nat.two_pow_pos _), Nat.mul_mod_left]
      have hpos : 0 < 2 ^ (a / 8388608 % 256 - 1 - 1) := Nat.two_pow_pos _
      have h1 : ¬ (2 ^ (a / 8388608 % 256 - 1 - 1) < 0) := by omega
      have h2 : ¬ (0 = 2 ^ (a / 8388608 % 256 - 1 - 1)) := by omega
      simp only [h1, h2, decide_False, Bool.false_and, Bool.or_self, Bool.and_false,
        Bool.false_eq_true, if_false]
      rw [hmag]
      omega
    unfold f32RoundMag
    rw [if_neg hzne, hbits]
    split_ifs <;> omega

theorem f32RoundInt_natCast (n : Nat) : f32RoundInt (n : Int) = (f32RoundMag n : Nat) := by
  unfold f32RoundInt
  rw [if_neg (by omega), Int.toNat_ofNat]

theorem f32RoundMag_zero : f32RoundMag 0 = 0 := rfl

theorem f32RoundInt_neg_natCast (n : Nat) :
    f32RoundInt (-(n : Int)) = -((f32RoundMag n : Nat) : Int) := by
  unfold f32RoundInt
  by_cases h : n = 0
  · subst h; simp [f32RoundMag_zero]
  · rw [if_pos (by omega), neg_neg, Int.toNat_ofNat]

theorem f32RoundInt_mono {v1 v2 : Int} (h1 : -(2 ^ 512 : Int) < v1) (h2 : v2 < 2 ^ 512)
    (h : v1 ≤ v2) : f32RoundInt v1 ≤ f32RoundInt v2 := by
  have hc : ((2 ^ 512 : Nat) : Int) = 2 ^ 512 := by push_cast; rfl
  rw [← hc] at h1 h2
  rcases Int.eq_nat_or_neg v1 with ⟨n1, rfl | rfl⟩ <;>
    rcases Int.eq_nat_or_neg v2 with ⟨n2, rfl | rfl⟩
  · rw [f32RoundInt_natCast, f32RoundInt_natCast]
    have := f32RoundMag_mono (by omega : n2 < 2 ^ 512) (by omega : n1 ≤ n2)
    omega
  · have h0 : n1 = 0 := by omega
    have h0b : n2 = 0 := by omega
    subst h0; subst h0b
    simp
  · rw [f32RoundInt_neg_natCast, f32RoundInt_natCast]
    omega
  · rw [f32RoundInt_neg_natCast, f32RoundInt_neg_natCast]
    have := f32RoundMag_mono (by omega : n1 < 2 ^ 512) (by omega : n2 ≤ n1)
    omega

theorem f32Mag_pack (s : Bool) {m : Nat} (hm : m ≤ 0x7F800000) : f32Mag (f32Pack s m) = m := by
  unfold f32Mag f32Pack
  show @Eq Nat _ _
  cases s <;> simp <;> omega

theorem f32Sign_pack (s : Bool) {m : Nat} (hm : m ≤ 0x7F800000) : f32Sign (f32Pack s m) = s := by
  unfold f32Sign f32Pack
  cases s
  · have : @Eq Nat ((0 + m) / 2147483648 % 2) 0 := by omega
    simp only [Bool.false_eq_true, if_false]
    rw [this]
    rfl
  · have : @Eq Nat ((2147483648 + m) / 2147483648 % 2) 1 := by omega
    simp only [if_true]
    rw [this]
    rfl

theorem f32IsNaN_pack (s : Bool) {m : Nat} (hm : m ≤ 0x7F800000) :
    f32IsNaN (f32Pack s m) = false := by
  unfold f32IsNaN
  rw [f32Mag_pack s hm]
  simp
  omega

theorem f32Key_pack (s : Bool) {m : Nat} (hm : m ≤ 0x7F800000) :
    f32Key (f32Pack s m) = if s then -((m : Nat) : Int) else ((m : Nat) : Int) := by
  unfold f32Key
  rw [f32Mag_pack s hm, f32Sign_pack s hm]

theorem f32Key_pack_roundMag (s : Bool) (z : Nat) :
    f32Key (f32Pack s (f32RoundMag z)) =
      f32RoundInt (if s then -((z : Nat) : Int) else ((z : Nat) : Int)) := by
  rw [f32Key_pack s (f32RoundMag_le z)]
  cases s
  · simp [f32RoundInt_natCast]
  · simp [f32RoundInt_neg_natCast]

theorem f32ExtUnits_le (a : F32) : f32ExtUnits a ≤ 2 ^ 300 := by
  unfold f32ExtUnits
  split_ifs
  · exact le_refl _
  · exact le_of_lt (lt_trans (f32Units_lt a) (Nat.pow_lt_pow_right (by decide) (by decide)))

theorem f32ExtUnits_of_finite {a : F32} (h : f32IsInf a = false) : f32ExtUnits a = f32Units a := by
  unfold f32ExtUnits
  rw [h]
  rfl

theorem f32ExtUnits_of_inf {a : F32} (h : f32IsInf a = true) : f32ExtUnits a = 2 ^ 300 := by
  unfold f32ExtUnits
  rw [if_pos h]

theorem f32ExtUnits_of_mag_zero {a : F32} (h : f32Mag a = 0) : f32ExtUnits a = 0 := by
  have hinf : f32IsInf a = false := by
    unfold f32IsInf; rw [h]; rfl
  rw [f32ExtUnits_of_finite hinf]
  unfold f32Units
  rw [f32Sig_of_mag_zero h]
  simp

theorem f32ExtUnits_eq_of_mag {a b : F32} (h : f32Mag a = f32Mag b) :
    f32ExtUnits a = f32ExtUnits b := by
  obtain ⟨h1, h2⟩ := f32Sig_eq_of_mag h
  unfold f32ExtUnits f32IsInf f32Units
  rw [h, h1, h2]

theorem two_pow_300_lt : (2 : Nat) ^ 300 < 2 ^ 512 := Nat.pow_lt_pow_right (by decide) (by decide)

theorem two_pow_278_le : (2 : Nat) ^ 278 ≤ 2 ^ 300 := Nat.pow_le_pow_right (by decide) (by decide)

theorem f32RoundMag_extUnits {a : F32} (ha : f32IsNaN a = false) :
    f32RoundMag (f32ExtUnits a) = f32Mag a := by
  by_cases hinf : f32IsInf a = true
  · rw [f32ExtUnits_of_inf hinf, f32RoundMag_big two_pow_300_lt two_pow_278_le]
    unfold f32IsInf at hinf
    simp only [beq_iff_eq] at hinf
    exact hinf.symm
  · have hinf2 : f32IsInf a = false := by simpa using hinf
    rw [f32ExtUnits_of_finite hinf2]
    exact f32RoundMag_units ha

/-- The order key of a pattern that is not a NaN is the rounding of its value. -/
theorem f32RoundInt_val {a : F32} (ha : f32IsNaN a = false) : f32RoundInt (f32Val a) = f32Key a := by
  unfold f32Val f32Key
  cases f32Sign a
  · simp only [Bool.false_eq_true, if_false]
    rw [f32RoundInt_natCast, f32RoundMag_extUnits ha]
  · simp only [if_true]
    rw [f32RoundInt_neg_natCast, f32RoundMag_extUnits ha]

theorem f32Val_bounds (a : F32) : -(2 ^ 300 : Int) ≤ f32Val a ∧ f32Val a ≤ 2 ^ 300 := by
  have h := f32ExtUnits_le a
  have hc : ((2 ^ 300 : Nat) : Int) = 2 ^ 300 := by push_cast; rfl
  rw [← hc]
  unfold f32Val
  split_ifs <;> omega

theorem f32Val_eq_of_key_eq {a b : F32} (h : f32Key a = f32Key b) : f32Val a = f32Val b := by
  unfold f32Key at h
  unfold f32Val
  cases hsa : f32Sign a <;> cases hsb : f32Sign b <;>
    simp only [hsa, hsb, Bool.false_eq_true, if_false, if_true] at h ⊢
  · rw [f32ExtUnits_eq_of_mag (by omega : f32Mag a = f32Mag b)]
  · rw [f32ExtUnits_of_mag_zero (by omega : f32Mag a = 0),
      f32ExtUnits_of_mag_zero (by omega : f32Mag b = 0)]
    rfl
  · rw [f32ExtUnits_of_mag_zero (by omega : f32Mag a = 0),
      f32ExtUnits_of_mag_zero (by omega : f32Mag b = 0)]
    rfl
  · rw [f32ExtUnits_eq_of_mag (by omega : f32Mag a = f32Mag b)]

theorem two_pow_300_int_lt : (2 : Int) ^ 300 < 2 ^ 512 := by
  have := two_pow_300_lt
  exact_mod_cast this

/-- The order of the keys is the order of the values. -/
theorem f32Key_le_iff {a b : F32} (ha : f32IsNaN a = false) (hb : f32IsNaN b = false) :
    f32Key a ≤ f32Key b ↔ f32Val a ≤ f32Val b := by
  have hba := f32Val_bounds a
  have hbb := f32Val_bounds b
  have h512 := two_pow_300_int_lt
  constructor
  · intro h
    by_contra hc
    have hlt : f32Val b ≤ f32Val a := by omega
    have hm := f32RoundInt_mono (by omega) (by omega) hlt
    rw [f32RoundInt_val ha, f32RoundInt_val hb] at hm
    have heq : f32Key a = f32Key b := le_antisymm h hm
    have := f32Val_eq_of_key_eq heq
    omega
  · intro h
    have hm := f32RoundInt_mono (by omega) (by omega) h
    rw [f32RoundInt_val ha, f32RoundInt_val hb] at hm
    exact hm

theorem f32Key_lt_iff {a b : F32} (ha : f32IsNaN a = false) (hb : f32IsNaN b = false) :
    f32Key a < f32Key b ↔ f32Val a < f32Val b := by
  have := f32Key_le_iff hb ha
  constructor
  · intro h; by_contra hc; have := this.2 (by omega); omega
  · intro h; by_contra hc; have := this.1 (by omega); omega

theorem f32Val_zero : f32Val f32Zero = 0 := by decide

theorem f32Key_zero : f32Key f32Zero = 0 := by decide

theorem f32Val_nonneg_iff {a : F32} (ha : f32IsNaN a = false) : 0 ≤ f32Key a ↔ 0 ≤ f32Val a := by
  have := f32Key_le_iff (by decide : f32IsNaN f32Zero = false) ha
  rw [f32Val_zero, f32Key_zero] at this
  exact this

theorem f32Val_nonpos_iff {a : F32} (ha : f32IsNaN a = false) : f32Key a ≤ 0 ↔ f32Val a ≤ 0 := by
  have := f32Key_le_iff ha (by decide : f32IsNaN f32Zero = false)
  rw [f32Val_zero, f32Key_zero] at this
  exact this

theorem f32IsNaN_neg (a : F32) : f32IsNaN (f32neg a) = f32IsNaN a := by
  unfold f32IsNaN; rw [f32Mag_neg]

theorem f32IsInf_neg (a : F32) : f32IsInf (f32neg a) = f32IsInf a := by
  unfold f32IsInf; rw [f32Mag_neg]

theorem f32Val_neg (a : F32) : f32Val (f32neg a) = -f32Val a := by
  unfold f32Val
  rw [f32Sign_neg, f32ExtUnits_eq_of_mag (f32Mag_neg a)]
  cases f32Sign a <;> simp

theorem f32Mag_mod (a : Nat) : f32Mag (a % 4294967296) = f32Mag a := by
  unfold f32Mag
  show @Eq Nat _ _
  omega

theorem f32Sign_mod (a : Nat) : f32Sign (a % 4294967296) = f32Sign a := by
  unfold f32Sign
  have : @Eq Nat (a % 4294967296 / 2147483648 % 2) (a / 2147483648 % 2) := by omega
  rw [this]

theorem f32Key_mod (a : Nat) : f32Key (a % 4294967296) = f32Key a := by
  unfold f32Key
  rw [f32Mag_mod, f32Sign_mod]

theorem f32IsNaN_mod (a : Nat) : f32IsNaN (a % 4294967296) = f32IsNaN a := by
  unfold f32IsNaN
  rw [f32Mag_mod]

theorem f32RoundInt_big {v : Int} (h1 : 2 ^ 278 ≤ v) (h2 : v < 2 ^ 512) :
    f32RoundInt v = 0x7F800000 := by
  have hc : ((2 ^ 512 : Nat) : Int) = 2 ^ 512 := by push_cast; rfl
  have hd : ((2 ^ 278 : Nat) : Int) = 2 ^ 278 := by push_cast; rfl
  rw [← hc] at h2
  rw [← hd] at h1
  obtain ⟨n, hn⟩ := Int.eq_ofNat_of_zero_le (by omega : 0 ≤ v)
  subst hn
  rw [f32RoundInt_natCast, f32RoundMag_big (by omega) (by omega)]
  rfl

theorem f32RoundInt_big_neg {v : Int} (h1 : v ≤ -(2 ^ 278)) (h2 : -(2 ^ 512) < v) :
    f32RoundInt v = -0x7F800000 := by
  have hc : ((2 ^ 512 : Nat) : Int) = 2 ^ 512 := by push_cast; rfl
  have hd : ((2 ^ 278 : Nat) : Int) = 2 ^ 278 := by push_cast; rfl
  rw [← hc] at h2
  rw [← hd] at h1
  obtain ⟨n, hn⟩ := Int.eq_ofNat_of_zero_le (by omega : 0 ≤ -v)
  have hv : v = -(n : Int) := by omega
  subst hv
  rw [f32RoundInt_neg_natCast, f32RoundMag_big (by omega) (by omega)]
  rfl

theorem f32Val_of_inf {a : F32} (h : f32IsInf a = true) :
    f32Val a = if f32Sign a then -(2 ^ 300 : Int) else 2 ^ 300 := by
  unfold f32Val
  rw [f32ExtUnits_of_inf h]
  push_cast
  rfl

theorem f32Val_of_finite {a : F32} (h : f32IsInf a = false) :
    f32Val a = if f32Sign a then -((f32Units a : Nat) : Int) else ((f32Units a : Nat) : Int) := by
  unfold f32Val
  rw [f32ExtUnits_of_finite h]

theorem f32Val_finite_bounds {a : F32} (h : f32IsInf a = false) :
    -(2 ^ 278 : Int) < f32Val a ∧ f32Val a < 2 ^ 278 := by
  have hu := f32Units_lt a
  have hd : ((2 ^ 278 : Nat) : Int) = 2 ^ 278 := by push_cast; rfl
  rw [f32Val_of_finite h, ← hd]
  split_ifs <;> omega

theorem f32Key_of_inf {a : F32} (h : f32IsInf a = true) :
    f32Key a = if f32Sign a then -(0x7F800000 : Int) else 0x7F800000 := by
  unfold f32IsInf at h
  simp only [beq_iff_eq] at h
  unfold f32Key
  rw [h]
  rfl

theorem two_pow_278_int_facts :
    (2 : Int) ^ 278 + 2 ^ 278 ≤ 2 ^ 300 ∧ (2 : Int) ^ 300 + 2 ^ 300 < 2 ^ 512 := by
  constructor <;> norm_num

/-- Adding to an infinity: the sum is that infinity unless the other operand is the opposite
infinity. -/
theorem f32Key_inf_add {a b : F32} (hia : f32IsInf a = true)
    (hinf : ¬ (f32IsInf b = true ∧ f32Sign a ≠ f32Sign b)) :
    f32Key a = f32RoundInt (f32Val a + f32Val b) := by
  obtain ⟨hf1, hf2⟩ := two_pow_278_int_facts
  have hbb := f32Val_bounds b
  rw [f32Key_of_inf hia, f32Val_of_inf hia]
  by_cases hib : f32IsInf b = true
  · have hs : f32Sign a = f32Sign b := by
      by_contra hc; exact hinf ⟨hib, hc⟩
    rw [f32Val_of_inf hib, ← hs]
    cases f32Sign a
    · simp only [Bool.false_eq_true, if_false]
      rw [f32RoundInt_big (by omega) (by omega)]
    · simp only [if_true]
      rw [f32RoundInt_big_neg (by omega) (by omega)]
  · have hib2 : f32IsInf b = false := by simpa using hib
    have hfb := f32Val_finite_bounds hib2
    cases f32Sign a
    · simp only [Bool.false_eq_true, if_false]
      rw [f32RoundInt_big (by omega) (by omega)]
    · simp only [if_true]
      rw [f32RoundInt_big_neg (by omega) (by omega)]

theorem f32Units_aligned_left (a b : F32) :
    f32Sig a * 2 ^ (f32Scale a - min (f32Scale a) (f32Scale b)) * 2 ^ min (f32Scale a) (f32Scale b) =
      f32Units a := by
  unfold f32Units
  rw [Nat.mul_assoc, ← pow_add]
  congr 2
  omega

theorem f32Units_aligned_right (a b : F32) :
    f32Sig b * 2 ^ (f32Scale b - min (f32Scale a) (f32Scale b)) * 2 ^ min (f32Scale a) (f32Scale b) =
      f32Units b := by
  unfold f32Units
  rw [Nat.mul_assoc, ← pow_add]
  congr 2
  omega

theorem two_pow_278_nat_facts : (2 : Nat) ^ 278 + 2 ^ 278 < 2 ^ 512 := by norm_num

/-- The sum of two patterns that are not NaN, unless they are opposite infinities, is the rounding
of the sum of their values. -/
theorem f32add_key {a b : F32} (ha : f32IsNaN a = false) (hb : f32IsNaN b = false)
    (hinf : ¬ (f32IsInf a = true ∧ f32IsInf b = true ∧ f32Sign a ≠ f32Sign b)) :
    f32IsNaN (f32add a b) = false ∧ f32Key (f32add a b) = f32RoundInt (f32Val a + f32Val b) := by
  unfold f32add
  rw [ha, hb]
  simp only [Bool.or_self, Bool.false_eq_true, if_false]
  by_cases hia : f32IsInf a = true
  · rw [if_pos hia]
    have hc : ¬ ((f32IsInf b && (f32Sign a != f32Sign b)) = true) := by
      intro h
      simp only [Bool.and_eq_true, bne_iff_ne] at h
      exact hinf ⟨hia, h.1, h.2⟩
    rw [if_neg hc, f32IsNaN_mod, f32Key_mod]
    exact ⟨ha, f32Key_inf_add hia (fun h => hinf ⟨hia, h.1, h.2⟩)⟩
  · rw [if_neg hia]
    by_cases hib : f32IsInf b = true
    · rw [if_pos hib, f32IsNaN_mod, f32Key_mod]
      refine ⟨hb, ?_⟩
      rw [add_comm]
      exact f32Key_inf_add hib (fun h => hia h.1)
    · rw [if_neg hib]
      have hia2 : f32IsInf a = false := by simpa using hia
      have hib2 : f32IsInf b = false := by simpa using hib
      have hA := f32Units_aligned_left a b
      have hB := f32Units_aligned_right a b
      have hua := f32Units_lt a
      have hub := f32Units_lt b
      have h512 := two_pow_278_nat_facts
      rw [f32Val_of_finite hia2, f32Val_of_finite hib2]
      generalize f32Sig a * 2 ^ (f32Scale a - min (f32Scale a) (f32Scale b)) = A at *
      generalize f32Sig b * 2 ^ (f32Scale b - min (f32Scale a) (f32Scale b)) = B at *
      generalize min (f32Scale a) (f32Scale b) = m at *
      have hpos : 0 < 2 ^ m := Nat.two_pow_pos m
      by_cases hs : f32Sign a = f32Sign b
      · rw [if_pos (by simp [hs])]
        have hsum : (A + B) * 2 ^ m = f32Units a + f32Units b := by
          rw [Nat.add_mul, hA, hB]
        rw [f32Round_eq_roundMag _ _ _ (by rw [hsum]; omega), hsum]
        refine ⟨f32IsNaN_pack _ (f32RoundMag_le _), ?_⟩
        rw [f32Key_pack_roundMag, ← hs]
        congr 1
        cases f32Sign a <;> simp <;> omega
      · rw [if_neg (by simp [hs])]
        by_cases hAB : A = B
        · rw [if_pos hAB]
          have hu : f32Units a = f32Units b := by rw [← hA, ← hB, hAB]
          refine ⟨by decide, ?_⟩
          have hz : (if f32Sign a = true then -((f32Units a : Nat) : Int) else ((f32Units a : Nat) : Int)) +
              (if f32Sign b = true then -((f32Units b : Nat) : Int) else ((f32Units b : Nat) : Int)) = 0 := by
            rw [hu]
            cases hsa : f32Sign a <;> cases hsb : f32Sign b <;> simp [hsa, hsb] at hs ⊢
          rw [hz]
          decide
        · rw [if_neg hAB]
          by_cases hlt : B < A
          · rw [if_pos hlt]
            have hult : f32Units b < f32Units a := by
              rw [← hA, ← hB]; exact Nat.mul_lt_mul_of_pos_right hlt hpos
            have hsub : (A - B) * 2 ^ m = f32Units a - f32Units b := by
              rw [Nat.sub_mul, hA, hB]
            rw [f32Round_eq_roundMag _ _ _ (by rw [hsub]; omega), hsub]
            refine ⟨f32IsNaN_pack _ (f32RoundMag_le _), ?_⟩
            rw [f32Key_pack_roundMag]
            congr 1
            cases hsa : f32Sign a <;> cases hsb : f32Sign b <;> simp [hsa, hsb] at hs ⊢ <;> omega
          · rw [if_neg hlt]
            have hlt2 : A < B := by omega
            have hult : f32Units a < f32Units b := by
              rw [← hA, ← hB]; exact Nat.mul_lt_mul_of_pos_right hlt2 hpos
            have hsub : (B - A) * 2 ^ m = f32Units b - f32Units a := by
              rw [Nat.sub_mul, hA, hB]
            rw [f32Round_eq_roundMag _ _ _ (by rw [hsub]; omega), hsub]
            refine ⟨f32IsNaN_pack _ (f32RoundMag_le _), ?_⟩
            rw [f32Key_pack_roundMag]
            congr 1
            cases hsa : f32Sign a <;> cases hsb : f32Sign b <;> simp [hsa, hsb] at hs ⊢ <;> omega

theorem f32le_iff (a b : F32) :
    f32le a b = true ↔ f32IsNaN a = false ∧ f32IsNaN b = false ∧ f32Key a ≤ f32Key b := by
  simp only [f32le, Bool.and_eq_true, Bool.not_eq_true', decide_eq_true_eq, and_assoc]

theorem f32lt_iff (a b : F32) :
    f32lt a b = true ↔ f32IsNaN a = false ∧ f32IsNaN b = false ∧ f32Key a < f32Key b := by
  simp only [f32lt, Bool.and_eq_true, Bool.not_eq_true', decide_eq_true_eq, and_assoc]

theorem f32eq_iff (a b : F32) :
    f32eq a b = true ↔ f32IsNaN a = false ∧ f32IsNaN b = false ∧ f32Key a = f32Key b := by
  simp only [f32eq, Bool.and_eq_true, Bool.not_eq_true', decide_eq_true_eq, and_assoc]

theorem f32Key_eq_of_inf {a b : F32} (ha : f32IsInf a = true) (hb : f32IsInf b = true)
    (hs : f32Sign a = f32Sign b) : f32Key a = f32Key b := by
  rw [f32Key_of_inf ha, f32Key_of_inf hb, hs]

/-- The difference of two patterns that are not NaN, unless they are the same infinity, is the
rounding of the difference of their values. -/
theorem f32sub_key {a b : F32} (ha : f32IsNaN a = false) (hb : f32IsNaN b = false)
    (hinf : ¬ (f32IsInf a = true ∧ f32IsInf b = true ∧ f32Sign a = f32Sign b)) :
    f32IsNaN (f32sub a b) = false ∧ f32Key (f32sub a b) = f32RoundInt (f32Val a - f32Val b) := by
  unfold f32sub
  rw [ha, hb]
  simp only [Bool.or_self, Bool.false_eq_true, if_false]
  have h := f32add_key ha ((f32IsNaN_neg b).trans hb) (b := f32neg b) (by
    rw [f32IsInf_neg, f32Sign_neg]
    intro hc
    apply hinf
    refine ⟨hc.1, hc.2.1, ?_⟩
    have := hc.2.2
    cases hsa : f32Sign a <;> cases hsb : f32Sign b <;> simp [hsa, hsb] at this ⊢)
  rw [f32Val_neg] at h
  rw [sub_eq_add_neg]
  exact h

theorem f32Key_ne_of_lt {a b : F32} (h : f32lt a b = true) :
    ¬ (f32IsInf a = true ∧ f32IsInf b = true ∧ f32Sign a = f32Sign b) := by
  intro hc
  have := f32Key_eq_of_inf hc.1 hc.2.1 hc.2.2
  have h2 := ((f32lt_iff a b).1 h).2.2
  omega

theorem f32Key_ne_of_gt {a b : F32} (h : f32lt a b = true) :
    ¬ (f32IsInf b = true ∧ f32IsInf a = true ∧ f32Sign b = f32Sign a) := by
  intro hc
  have := f32Key_eq_of_inf hc.1 hc.2.1 hc.2.2
  have h2 := ((f32lt_iff a b).1 h).2.2
  omega

theorem f32Val_sub_bounds (a b : F32) :
    -(2 ^ 512 : Int) < f32Val a - f32Val b ∧ f32Val a - f32Val b < 2 ^ 512 := by
  have h1 := f32Val_bounds a
  have h2 := f32Val_bounds b
  have h3 := two_pow_278_int_facts.2
  constructor <;> omega

theorem f32Val_add_bounds (a b : F32) :
    -(2 ^ 512 : Int) < f32Val a + f32Val b ∧ f32Val a + f32Val b < 2 ^ 512 := by
  have h1 := f32Val_bounds a
  have h2 := f32Val_bounds b
  have h3 := two_pow_278_int_facts.2
  constructor <;> omega

theorem f32RoundInt_zero : f32RoundInt 0 = 0 := by decide

theorem f32RoundInt_one : f32RoundInt 1 = 1 := by
  have h := f32RoundInt_natCast 1
  have h2 : f32RoundMag 1 = 1 := by
    have := f32RoundMag_units (a := 1) (by decide)
    have hu : f32Units 1 = 1 := by decide
    rw [hu] at this
    exact this
  rw [h2] at h
  exact_mod_cast h

/-- For `a < b` the difference `a - b` is not positive. -/
theorem f32sub_nonpos_of_lt {a b : F32} (h : f32lt a b = true) :
    f32le (f32sub a b) f32Zero = true := by
  obtain ⟨ha, hb, hk⟩ := (f32lt_iff a b).1 h
  obtain ⟨hn, hkey⟩ := f32sub_key ha hb (f32Key_ne_of_lt h)
  rw [f32le_iff]
  refine ⟨hn, by decide, ?_⟩
  rw [hkey, f32Key_zero, ← f32RoundInt_zero]
  have hv := (f32Key_lt_iff ha hb).1 hk
  have hbd := f32Val_sub_bounds a b
  exact f32RoundInt_mono hbd.1 (by norm_num) (by omega)

/-- For `a < b` the difference `b - a` is positive. -/
theorem f32sub_pos_of_lt {a b : F32} (h : f32lt a b = true) :
    f32gt (f32sub b a) f32Zero = true := by
  obtain ⟨ha, hb, hk⟩ := (f32lt_iff a b).1 h
  obtain ⟨hn, hkey⟩ := f32sub_key hb ha (f32Key_ne_of_gt h)
  unfold f32gt
  rw [f32lt_iff]
  refine ⟨by decide, hn, ?_⟩
  rw [hkey, f32Key_zero]
  have hv := (f32Key_lt_iff ha hb).1 hk
  have hbd := f32Val_sub_bounds b a
  have := @f32RoundInt_mono 1 _ (by norm_num) hbd.2 (by omega)
  rw [f32RoundInt_one] at this
  omega

/-- Subtraction is monotone in its first operand. -/
theorem f32sub_le_sub {a b c : F32} (hc : f32lt c a = true) (h : f32le a b = true) :
    f32le (f32sub a c) (f32sub b c) = true := by
  obtain ⟨ha, hb, hk⟩ := (f32le_iff a b).1 h
  obtain ⟨hcn, -, hck⟩ := (f32lt_iff c a).1 hc
  have hcb : f32lt c b = true := by
    rw [f32lt_iff]; exact ⟨hcn, hb, by omega⟩
  obtain ⟨hn1, hkey1⟩ := f32sub_key ha hcn (f32Key_ne_of_gt hc)
  obtain ⟨hn2, hkey2⟩ := f32sub_key hb hcn (f32Key_ne_of_gt hcb)
  rw [f32le_iff]
  refine ⟨hn1, hn2, ?_⟩
  rw [hkey1, hkey2]
  have hv := (f32Key_le_iff ha hb).1 hk
  exact f32RoundInt_mono (f32Val_sub_bounds a c).1 (f32Val_sub_bounds b c).2 (by omega)

theorem f32IsInf_false_of_key_nonneg_sign {a : F32} (h : 0 ≤ f32Key a) (hs : f32Sign a = true) :
    f32Mag a = 0 := by
  unfold f32Key at h
  rw [if_pos hs] at h
  omega

/-- Taking a non-negative amount from a finite non-negative value does not increase it. -/
theorem f32sub_le_self {s A : F32} (hs : f32le f32Zero s = true) (hA : f32le f32Zero A = true)
    (hfin : f32IsInf s = false) : f32le (f32sub s A) s = true := by
  obtain ⟨-, hsn, hsk⟩ := (f32le_iff _ _).1 hs
  obtain ⟨-, hAn, hAk⟩ := (f32le_iff _ _).1 hA
  rw [f32Key_zero] at hsk hAk
  obtain ⟨hn, hkey⟩ := f32sub_key hsn hAn (by rw [hfin]; simp)
  rw [f32le_iff]
  refine ⟨hn, hsn, ?_⟩
  rw [hkey]
  have hv := (f32Val_nonneg_iff hAn).1 hAk
  have := @f32RoundInt_mono _ (f32Val s) (f32Val_sub_bounds s A).1
    (by have := f32Val_bounds s; have := two_pow_300_int_lt; omega) (by omega)
  rw [f32RoundInt_val hsn] at this
  exact this

/-- The sum of two non-negative values is non-negative and not a NaN. -/
theorem f32add_nonneg {a b : F32} (ha : f32le f32Zero a = true) (hb : f32le f32Zero b = true) :
    f32le f32Zero (f32add a b) = true := by
  obtain ⟨-, han, hak⟩ := (f32le_iff _ _).1 ha
  obtain ⟨-, hbn, hbk⟩ := (f32le_iff _ _).1 hb
  rw [f32Key_zero] at hak hbk
  have hinf : ¬ (f32IsInf a = true ∧ f32IsInf b = true ∧ f32Sign a ≠ f32Sign b) := by
    intro hc
    have h1 := f32Key_of_inf hc.1
    have h2 := f32Key_of_inf hc.2.1
    apply hc.2.2
    cases hsa : f32Sign a <;> cases hsb : f32Sign b <;> simp [hsa, hsb] at h1 h2 ⊢ <;> omega
  obtain ⟨hn, hkey⟩ := f32add_key han hbn hinf
  rw [f32le_iff]
  refine ⟨by decide, hn, ?_⟩
  rw [hkey, f32Key_zero, ← f32RoundInt_zero]
  have hva := (f32Val_nonneg_iff han).1 hak
  have hvb := (f32Val_nonneg_iff hbn).1 hbk
  exact f32RoundInt_mono (by norm_num) (f32Val_add_bounds a b).2 (by omega)

theorem f32Val_of_mag_zero {z : F32} (hz : f32Mag z = 0) : f32Val z = 0 := by
  unfold f32Val
  rw [f32ExtUnits_of_mag_zero hz]
  simp

/-- Adding a zero of either sign gives a value that compares equal to the other operand. -/
theorem f32add_zero_right {p z : F32} (hp : f32IsNaN p = false) (hz : f32Mag z = 0) :
    f32eq (f32add p z) p = true := by
  have hzn : f32IsNaN z = false := by
    unfold f32IsNaN; rw [hz]; rfl
  have hzi : f32IsInf z = false := by
    unfold f32IsInf; rw [hz]; rfl
  obtain ⟨hn, hkey⟩ := f32add_key hp hzn (by rw [hzi]; simp)
  rw [f32eq_iff]
  refine ⟨hn, hp, ?_⟩
  rw [hkey, f32Val_of_mag_zero hz, add_zero, f32RoundInt_val hp]

/-- The result of `f32Round` carries the given sign and a magnitude up to infinity, zero when
the integer is zero. -/
theorem f32Round_pack (s : Bool) (N : Nat) (st : Bool) (k bias : Nat) :
    ∃ m : Nat, m ≤ 0x7F800000 ∧ f32Round s N st k bias = f32Pack s m ∧ (N = 0 → m = 0) := by
  unfold f32Round
  by_cases hN : N = 0
  · rw [if_pos hN]
    exact ⟨0, by decide, rfl, fun _ => rfl⟩
  · rw [if_neg hN]
    simp only []
    split_ifs with h1 h2 h3
    · exact ⟨0x7F800000, le_refl _, rfl, fun h => absurd h hN⟩
    · exact ⟨_, by omega, rfl, fun h => absurd h hN⟩
    · exact ⟨0x7F800000, le_refl _, rfl, fun h => absurd h hN⟩
    · exact ⟨_, by omega, rfl, fun h => absurd h hN⟩
    · exact ⟨0x7F800000, le_refl _, rfl, fun h => absurd h hN⟩
    · exact ⟨_, by omega, rfl, fun h => absurd h hN⟩

theorem f32Mag_zero_of_nonneg_sign {a : F32} (h : 0 ≤ f32Key a) (hs : f32Sign a = true) :
    f32Mag a = 0 := by
  unfold f32Key at h
  rw [if_pos hs] at h
  omega

theorem f32Mag_zero_of_nonpos_sign {a : F32} (h : f32Key a ≤ 0) (hs : f32Sign a = false) :
    f32Mag a = 0 := by
  unfold f32Key at h
  rw [hs] at h
  simp only [Bool.false_eq_true, if_false] at h
  omega

theorem f32Sign_of_key_pos {a : F32} (h : 0 < f32Key a) : f32Sign a = false := by
  unfold f32Key at h
  cases hs : f32Sign a
  · rfl
  · rw [hs] at h
    simp only [if_true] at h
    omega

theorem f32Sign_of_key_neg {a : F32} (h : f32Key a < 0) : f32Sign a = true := by
  unfold f32Key at h
  cases hs : f32Sign a
  · rw [hs] at h
    simp only [Bool.false_eq_true, if_false] at h
    omega
  · rfl

/-- The product of two finite non-negative values is non-negative and not a NaN. -/
theorem f32mul_nonneg {a b : F32} (ha : f32le f32Zero a = true) (hb : f32le f32Zero b = true)
    (hfa : f32IsInf a = false) (hfb : f32IsInf b = false) :
    f32le f32Zero (f32mul a b) = true := by
  obtain ⟨-, han, hak⟩ := (f32le_iff _ _).1 ha
  obtain ⟨-, hbn, hbk⟩ := (f32le_iff _ _).1 hb
  rw [f32Key_zero] at hak hbk
  unfold f32mul
  rw [han, hbn, hfa, hfb]
  simp only [Bool.or_self, Bool.false_eq_true, if_false]
  obtain ⟨m, hm, hr, hz⟩ := f32Round_pack (f32Sign a != f32Sign b) (f32Sig a * f32Sig b) false
    (f32Scale a + f32Scale b) 298
  rw [hr, f32le_iff]
  refine ⟨by decide, f32IsNaN_pack _ hm, ?_⟩
  rw [f32Key_pack _ hm, f32Key_zero]
  cases hsa : f32Sign a
  · cases hsb : f32Sign b
    · simp
    · have h0 := f32Sig_of_mag_zero (f32Mag_zero_of_nonneg_sign hbk hsb)
      rw [h0, Nat.mul_zero] at hz
      rw [hz rfl]
      simp
  · have h0 := f32Sig_of_mag_zero (f32Mag_zero_of_nonneg_sign hak hsa)
    rw [h0, Nat.zero_mul] at hz
    rw [hz rfl]
    cases f32Sign b <;> simp

/-- The product of a finite value with a zero of either sign is a zero. -/
theorem f32mul_zero_right {v z : F32} (hv : f32IsNaN v = false) (hfv : f32IsInf v = false)
    (hz : f32Mag z = 0) : f32Mag (f32mul v z) = 0 := by
  have hzn : f32IsNaN z = false := by
    unfold f32IsNaN; rw [hz]; rfl
  have hzi : f32IsInf z = false := by
    unfold f32IsInf; rw [hz]; rfl
  unfold f32mul
  rw [hv, hzn, hfv, hzi]
  simp only [Bool.or_self, Bool.false_eq_true, if_false]
  obtain ⟨m, hm, hr, hm0⟩ := f32Round_pack (f32Sign v != f32Sign z) (f32Sig v * f32Sig z) false
    (f32Scale v + f32Scale z) 298
  rw [f32Sig_of_mag_zero hz, Nat.mul_zero] at hm0
  rw [hr, hm0 rfl]
  exact f32Mag_pack _ (by decide)

/-- A value that is not positive divided by a positive value is not positive, unless both are
infinite. -/
theorem f32div_nonpos {x y : F32} (hx : f32le x f32Zero = true) (hy : f32gt y f32Zero = true)
    (hinf : ¬ (f32IsInf x = true ∧ f32IsInf y = true)) :
    f32le (f32div x y) f32Zero = true := by
  obtain ⟨hxn, -, hxk⟩ := (f32le_iff _ _).1 hx
  obtain ⟨-, hyn, hyk⟩ := (f32lt_iff _ _).1 hy
  rw [f32Key_zero] at hxk hyk
  have hsy := f32Sign_of_key_pos hyk
  have hmy : f32Mag y ≠ 0 := by
    intro h
    unfold f32Key at hyk
    rw [h] at hyk
    split_ifs at hyk <;> omega
  unfold f32div
  rw [hxn, hyn, hsy]
  simp only [Bool.or_self, Bool.false_eq_true, if_false, Bool.bne_false]
  rw [f32le_iff]
  by_cases hix : f32IsInf x = true
  · have hiy : f32IsInf y = false := by
      cases h : f32IsInf y
      · rfl
      · exact absurd ⟨hix, h⟩ hinf
    rw [if_pos hix, hiy]
    simp only [Bool.false_eq_true, if_false]
    have hsx : f32Sign x = true := by
      apply f32Sign_of_key_neg
      have := f32Key_of_inf hix
      cases hs : f32Sign x
      · rw [hs] at this; simp at this; omega
      · rw [hs] at this; simp at this; omega
    rw [hsx]
    exact ⟨by decide, by decide, by decide⟩
  · rw [if_neg hix]
    by_cases hiy : f32IsInf y = true
    · rw [if_pos hiy]
      refine ⟨f32IsNaN_pack _ (by decide), by decide, ?_⟩
      rw [f32Key_pack _ (by decide), f32Key_zero]
      cases f32Sign x <;> simp
    · rw [if_neg hiy, if_neg hmy]
      obtain ⟨m, hm, hr, hz⟩ := f32Round_pack (f32Sign x) (f32Sig x * 2 ^ 64 / f32Sig y)
        (f32Sig x * 2 ^ 64 % f32Sig y != 0) (f32Scale x + (253 - f32Scale y)) 317
      rw [hr]
      refine ⟨f32IsNaN_pack _ hm, by decide, ?_⟩
      rw [f32Key_pack _ hm, f32Key_zero]
      cases hsx : f32Sign x
      · have h0 := f32Sig_of_mag_zero (f32Mag_zero_of_nonpos_sign hxk hsx)
        rw [h0, Nat.zero_mul, Nat.zero_div] at hz
        rw [hz rfl]
        simp
      · simp

/-- A quantity of at least one rounds to at least one. -/
theorem f32Round_ge_one (s : Bool) (N : Nat) (st : Bool) (k bias : Nat) (hN : N < 2 ^ 512)
    (h : 2 ^ bias ≤ N * 2 ^ k) :
    ∃ m : Nat, 0x3F800000 ≤ m ∧ m ≤ 0x7F800000 ∧ f32Round s N st k bias = f32Pack s m := by
  have hNpos : 0 < N := by
    by_contra hc
    have h0 : N = 0 := by omega
    rw [h0, Nat.zero_mul] at h
    have := Nat.two_pow_pos bias
    omega
  obtain ⟨hlo, hhi, hone⟩ := (bitLength_spec 512 N hN).2 hNpos
  have hLk : bias + 1 ≤ bitLength 512 N + k := by
    by_contra hc
    have h1 : N * 2 ^ k < 2 ^ bitLength 512 N * 2 ^ k :=
      Nat.mul_lt_mul_of_pos_right hhi (Nat.two_pow_pos k)
    rw [← pow_add] at h1
    have h2 : 2 ^ (bitLength 512 N + k) ≤ 2 ^ bias := Nat.pow_le_pow_right (by decide) (by omega)
    omega
  have hM : ∀ M : Nat, 8388608 ≤ M →
      1065353216 ≤ (bitLength 512 N + k + 149 - 24 - bias) * 8388608 + M := by
    intro M hM
    have : 126 ≤ bitLength 512 N + k + 149 - 24 - bias := by omega
    omega
  unfold f32Round
  rw [if_neg (by omega)]
  simp only []
  have hmax : max (bitLength 512 N + k + 149) (bias + 24) = bitLength 512 N + k + 149 := by omega
  rw [hmax]
  have hfin : ∀ M : Nat, 8388608 ≤ M →
      ∃ m : Nat, 0x3F800000 ≤ m ∧ m ≤ 0x7F800000 ∧
        f32Pack s (if 0x7F800000 ≤ (bitLength 512 N + k + 149 - 24 - bias) * 8388608 + M
          then 0x7F800000 else (bitLength 512 N + k + 149 - 24 - bias) * 8388608 + M) =
          f32Pack s m := by
    intro M hM8
    have := hM M hM8
    by_cases hc : 0x7F800000 ≤ (bitLength 512 N + k + 149 - 24 - bias) * 8388608 + M
    · rw [if_pos hc]
      exact ⟨0x7F800000, by decide, le_refl _, rfl⟩
    · rw [if_neg hc]
      exact ⟨_, this, by omega, rfl⟩
  apply hfin
  by_cases hL24 : 24 ≤ bitLength 512 N
  · rw [if_pos (by omega)]
    have hd : bitLength 512 N + k + 149 - (k + 173) = bitLength 512 N - 24 := by omega
    rw [hd]
    have hq : 8388608 ≤ N / 2 ^ (bitLength 512 N - 24) := by
      by_cases hd1 : 1 ≤ bitLength 512 N - 24
      · exact (truncated_significand_bounds hN hd1).1
      · have hd0 : bitLength 512 N - 24 = 0 := by omega
        have hL : bitLength 512 N - 1 = 23 := by omega
        rw [hL] at hlo
        rw [hd0]
        have h23 : (2 : Nat) ^ 23 = 8388608 := by norm_num
        simp only [pow_zero, Nat.div_one]
        omega
    split_ifs <;> omega
  · rw [if_neg (by omega)]
    have he : k + 173 - (bitLength 512 N + k + 149) = 24 - bitLength 512 N := by omega
    rw [he]
    have h1 : 2 ^ (bitLength 512 N - 1) * 2 ^ (24 - bitLength 512 N) ≤
        N * 2 ^ (24 - bitLength 512 N) := Nat.mul_le_mul_right _ hlo
    rw [← pow_add] at h1
    have h2 : bitLength 512 N - 1 + (24 - bitLength 512 N) = 23 := by omega
    rw [h2] at h1
    have h23 : (2 : Nat) ^ 23 = 8388608 := by norm_num
    omega

theorem f32Sig_lt (a : Nat) : f32Sig a < 16777216 := by
  unfold f32Sig
  split_ifs <;> omega

theorem f32Sig_ge_of_scale {a : Nat} (h : 1 ≤ f32Scale a) : 8388608 ≤ f32Sig a := by
  unfold f32Scale at h
  have hne : ¬ (a / 8388608 % 256 = 0) := by omega
  unfold f32Sig
  rw [if_neg hne]
  omega

theorem f32Scale_le (a : Nat) : f32Scale a ≤ 254 := by
  unfold f32Scale
  omega

theorem f32Scale_le_of_finite {a : Nat} (ha : f32IsNaN a = false) (hf : f32IsInf a = false) :
    f32Scale a ≤ 253 := by
  have hmag := f32Mag_decompose a
  unfold f32IsNaN at ha
  unfold f32IsInf at hf
  simp only [decide_eq_false_iff_not, not_lt, beq_eq_false_iff_ne, ne_eq] at ha hf
  unfold f32Scale
  omega

/-- Of two finite values, the one with the greater magnitude has the greater exponent. -/
theorem f32Scale_le_of_units_le {x y : Nat} (h : f32Units y ≤ f32Units x) :
    f32Scale y ≤ f32Scale x := by
  by_contra hc
  have hlt : f32Scale x + 1 ≤ f32Scale y := by omega
  have hsy := f32Sig_ge_of_scale (a := y) (by omega)
  have hsx := f32Sig_lt x
  unfold f32Units at h
  have h1 : 8388608 * 2 ^ (f32Scale x + 1) ≤ f32Sig y * 2 ^ f32Scale y :=
    Nat.mul_le_mul hsy (Nat.pow_le_pow_right (by decide) hlt)
  have h2 : f32Sig x * 2 ^ f32Scale x < 16777216 * 2 ^ f32Scale x :=
    Nat.mul_lt_mul_of_pos_right hsx (Nat.two_pow_pos _)
  rw [pow_succ] at h1
  generalize 2 ^ f32Scale x = P at *
  omega

/-- The quotient of a positive value by a positive value that is not greater is at least one
or a NaN: it does not compare less than one. -/
theorem f32div_not_lt_one {x y : F32} (hy : f32gt y f32Zero = true) (hxy : f32le y x = true) :
    f32lt (f32div x y) f32One = false := by
  obtain ⟨-, hyn, hyk⟩ := (f32lt_iff _ _).1 hy
  obtain ⟨-, hxn, hk⟩ := (f32le_iff _ _).1 hxy
  rw [f32Key_zero] at hyk
  have hsy := f32Sign_of_key_pos hyk
  have hsx := f32Sign_of_key_pos (a := x) (by omega)
  have hmy : f32Mag y ≠ 0 := by
    intro h
    unfold f32Key at hyk
    rw [h] at hyk
    split_ifs at hyk <;> omega
  unfold f32div
  rw [hxn, hyn, hsy, hsx]
  simp only [Bool.or_self, Bool.false_eq_true, if_false, Bool.bne_false]
  by_cases hix : f32IsInf x = true
  · rw [if_pos hix]
    split_ifs <;> decide
  · have hix2 : f32IsInf x = false := by simpa using hix
    rw [if_neg hix]
    have hiy : f32IsInf y = false := by
      cases h : f32IsInf y
      · rfl
      · exfalso
        have hky := f32Key_of_inf h
        rw [hsy] at hky
        simp only [Bool.false_eq_true, if_false] at hky
        have hxm : f32Key x = f32Mag x := by
          unfold f32Key; rw [hsx]; simp
        unfold f32IsNaN at hxn
        unfold f32IsInf at hix2
        simp only [decide_eq_false_iff_not, not_lt, beq_eq_false_iff_ne, ne_eq] at hxn hix2
        omega
    rw [hiy]
    simp only [Bool.false_eq_true, if_false]
    rw [if_neg hmy]
    have hvx := f32Val_of_finite hix2
    have hvy := f32Val_of_finite hiy
    rw [hsx] at hvx
    rw [hsy] at hvy
    simp only [Bool.false_eq_true, if_false] at hvx hvy
    have hu : f32Units y ≤ f32Units x := by
      have := (f32Key_le_iff hyn hxn).1 hk
      rw [hvx, hvy] at this
      exact_mod_cast this
    have hupos : 0 < f32Units y := by
      have := (f32Key_lt_iff (by decide : f32IsNaN f32Zero = false) hyn).1
        (by rw [f32Key_zero]; exact hyk)
      rw [f32Val_zero, hvy] at this
      exact_mod_cast this
    have hscale := f32Scale_le_of_units_le hu
    have hsy253 := f32Scale_le_of_finite hyn hiy
    have hsigY : 0 < f32Sig y := by
      unfold f32Units at hupos
      exact Nat.pos_of_mul_pos_right hupos
    have hsigYlt := f32Sig_lt y
    have hsigXlt := f32Sig_lt x
    have hsigX : 0 < f32Sig x := by
      have : 0 < f32Units x := lt_of_lt_of_le hupos hu
      unfold f32Units at this
      exact Nat.pos_of_mul_pos_right this
    -- the integer quotient, scaled, is at least `2 ^ 317`
    have hNlt : f32Sig x * 2 ^ 64 / f32Sig y < 2 ^ 512 := by
      have h1 : f32Sig x * 2 ^ 64 / f32Sig y ≤ f32Sig x * 2 ^ 64 := Nat.div_le_self _ _
      have h2 : f32Sig x * 2 ^ 64 < 16777216 * 2 ^ 64 :=
        Nat.mul_lt_mul_of_pos_right hsigXlt (Nat.two_pow_pos _)
      have h3 : 16777216 * 2 ^ 64 < 2 ^ 512 := by norm_num
      omega
    have hmain : 2 ^ 317 ≤ f32Sig x * 2 ^ 64 / f32Sig y *
        2 ^ (f32Scale x + (253 - f32Scale y)) := by
      obtain ⟨δ, hδ⟩ : ∃ δ, f32Scale x = f32Scale y + δ := ⟨f32Scale x - f32Scale y, by omega⟩
      have hk2 : f32Scale x + (253 - f32Scale y) = δ + 253 := by omega
      rw [hk2]
      have hsig : f32Sig y ≤ f32Sig x * 2 ^ δ := by
        have e1 : 2 ^ f32Scale y * f32Sig y = f32Units y := by
          unfold f32Units; exact Nat.mul_comm _ _
        have e2 : 2 ^ f32Scale y * (f32Sig x * 2 ^ δ) = f32Units x := by
          unfold f32Units
          rw [hδ, pow_add]
          ring
        have hu2 : 2 ^ f32Scale y * f32Sig y ≤ 2 ^ f32Scale y * (f32Sig x * 2 ^ δ) := by
          rw [e1, e2]; exact hu
        exact Nat.le_of_mul_le_mul_left hu2 (Nat.two_pow_pos _)
      have hq : 2 ^ 64 ≤ f32Sig x * 2 ^ 64 / f32Sig y * 2 ^ δ := by
        by_cases hd : δ ≤ 64
        · have h1 : 2 ^ (64 - δ) ≤ f32Sig x * 2 ^ 64 / f32Sig y := by
            rw [Nat.le_div_iff_mul_le hsigY]
            have h64 : (2 : Nat) ^ 64 = 2 ^ δ * 2 ^ (64 - δ) := by
              rw [← pow_add]; congr 1; omega
            rw [h64, ← Nat.mul_assoc, Nat.mul_comm (2 ^ (64 - δ)) _]
            exact Nat.mul_le_mul_right _ hsig
          have h2 := Nat.mul_le_mul_right (2 ^ δ) h1
          rw [← pow_add] at h2
          have h3 : 64 - δ + δ = 64 := by omega
          rw [h3] at h2
          exact h2
        · have h1 : 1 ≤ f32Sig x * 2 ^ 64 / f32Sig y := by
            rw [Nat.le_div_iff_mul_le hsigY]
            have : f32Sig x * 1 ≤ f32Sig x * 2 ^ 64 :=
              Nat.mul_le_mul_left _ (Nat.one_le_two_pow)
            have h64 : (16777216 : Nat) ≤ 2 ^ 64 := by norm_num
            have : 1 * 2 ^ 64 ≤ f32Sig x * 2 ^ 64 := Nat.mul_le_mul_right _ hsigX
            omega
          have h2 : 2 ^ 64 ≤ 2 ^ δ := Nat.pow_le_pow_right (by decide) (by omega)
          calc 2 ^ 64 ≤ 1 * 2 ^ δ := by omega
            _ ≤ f32Sig x * 2 ^ 64 / f32Sig y * 2 ^ δ := Nat.mul_le_mul_right _ h1
      have h317 : (2 : Nat) ^ 317 = 2 ^ 64 * 2 ^ 253 := by rw [← pow_add]
      rw [h317, pow_add, ← Nat.mul_assoc]
      exact Nat.mul_le_mul_right _ hq
    obtain ⟨m, hm1, hm2, hr⟩ := f32Round_ge_one false (f32Sig x * 2 ^ 64 / f32Sig y)
      (f32Sig x * 2 ^ 64 % f32Sig y != 0) (f32Scale x + (253 - f32Scale y)) 317 hNlt hmain
    rw [hr]
    have hnot : ¬ (f32lt (f32Pack false m) f32One = true) := by
      rw [f32lt_iff, f32Key_pack _ hm2]
      intro hc
      have h1 : f32Key f32One = 1065353216 := by decide
      have := hc.2.2
      rw [h1] at this
      simp only [Bool.false_eq_true, if_false] at this
      omega
    simpa using hnot

/-! ## The range of the stamina (C23) -/

theorem f32le_refl_of_not_nan {a : F32} (h : f32IsNaN a = false) : f32le a a = true := by
  rw [f32le_iff]; exact ⟨h, h, le_refl _⟩

theorem consumeStamina_stamina (m : UPlayerMovementComponent) (Amount : F32) :
    (m.ConsumeStamina Amount).CurrentStamina = FMath.Max f32Zero (f32sub m.CurrentStamina Amount) ∧
    (m.ConsumeStamina Amount).MaxStamina = m.MaxStamina := by
  unfold UPlayerMovementComponent.ConsumeStamina
  simp only []
  split_ifs <;> exact ⟨rfl, rfl⟩

/-- `ConsumeStamina` keeps the stamina in its range when the stamina is finite. -/
theorem consumeStamina_in_range (m : UPlayerMovementComponent) (Amount : F32)
    (hr : m.StaminaInRange) (hfin : f32IsInf m.CurrentStamina = false)
    (hA : f32le f32Zero Amount = true) : (m.ConsumeStamina Amount).StaminaInRange := by
  obtain ⟨hlo, hhi⟩ := hr
  obtain ⟨h1, h2⟩ := consumeStamina_stamina m Amount
  have hsub := f32sub_le_self hlo hA hfin
  have hn := ((f32le_iff _ _).1 hsub).1
  unfold UPlayerMovementComponent.StaminaInRange
  rw [h1, h2]
  unfold FMath.Max
  by_cases hlt : f32lt (f32sub m.CurrentStamina Amount) f32Zero = true
  · rw [if_pos hlt]
    exact ⟨by decide, f32le_trans hlo hhi⟩
  · rw [if_neg hlt]
    exact ⟨f32le_of_not_lt hn (by decide) (by simpa using hlt), f32le_trans hsub hhi⟩

/-- `RegenerateStamina` keeps the stamina in its range for a finite rate and a finite time
step. -/
theorem regenerateStamina_in_range (m : UPlayerMovementComponent) (DeltaTime : F32)
    (hr : m.StaminaInRange) (hdt : f32le f32Zero DeltaTime = true)
    (hdtf : f32IsInf DeltaTime = false) (hrate : f32le f32Zero m.StaminaRegenRate = true)
    (hratef : f32IsInf m.StaminaRegenRate = false) :
    (m.RegenerateStamina DeltaTime).StaminaInRange := by
  obtain ⟨hlo, hhi⟩ := hr
  have hy := f32mul_nonneg hrate hdt hratef hdtf
  have hx := f32add_nonneg hlo hy
  have hxn := ((f32le_iff _ _).1 hx).2.1
  have hmn := ((f32le_iff _ _).1 hhi).2.1
  unfold UPlayerMovementComponent.StaminaInRange UPlayerMovementComponent.RegenerateStamina
  simp only []
  unfold FMath.Min
  by_cases hlt : f32lt m.MaxStamina
      (f32add m.CurrentStamina (f32mul m.StaminaRegenRate DeltaTime)) = true
  · rw [if_pos hlt]
    exact ⟨f32le_trans hlo hhi, f32le_refl_of_not_nan hmn⟩
  · rw [if_neg hlt]
    exact ⟨hx, f32le_of_not_lt hmn hxn (by simpa using hlt)⟩

theorem simulateMovementAccelerate_maxStamina (E : Engine) (s : UPlayerMovementComponent)
    (InputVector : FVector) (TargetSpeed DeltaTime : F32) :
    (SimulateMovementAccelerate E s InputVector TargetSpeed DeltaTime).MaxStamina =
      s.MaxStamina := by
  unfold SimulateMovementAccelerate
  simp only []
  split_ifs <;> rfl

/-- The stamina and its maximum after `SimulateMovement` are those after the sprint decision. -/
theorem simulateMovement_stamina (E : Engine) (m : UPlayerMovementComponent)
    (Location : FVector) (Input : FInputCommand) (DeltaTime : F32)
    (hu : m.UpdatedComponent = true) :
    (m.SimulateMovement E Location Input DeltaTime).Component.CurrentStamina =
      (SimulateMovementSprint m Input DeltaTime).1.CurrentStamina ∧
    (m.SimulateMovement E Location Input DeltaTime).Component.MaxStamina =
      (SimulateMovementSprint m Input DeltaTime).1.MaxStamina := by
  rw [SimulateMovement_staged E m Location Input DeltaTime hu,
    (SimulateMovementMove_component E _ Location DeltaTime).1,
    (SimulateMovementAccelerate_others E _ _ _ DeltaTime).1,
    simulateMovementAccelerate_maxStamina]
  exact ⟨rfl, rfl⟩

/-- The sprint decision of `SimulateMovement` keeps the stamina in its range. -/
theorem simulateMovementSprint_in_range (m : UPlayerMovementComponent) (Input : FInputCommand)
    (DeltaTime : F32) (hr : m.StaminaInRange) (hfin : f32IsInf m.CurrentStamina = false)
    (hdt : f32le f32Zero DeltaTime = true) (hdtf : f32IsInf DeltaTime = false)
    (hcost : f32le f32Zero m.SprintStaminaCostPerSecond = true)
    (hcostf : f32IsInf m.SprintStaminaCostPerSecond = false) :
    (SimulateMovementSprint m Input DeltaTime).1.StaminaInRange := by
  unfold SimulateMovementSprint
  simp only []
  split_ifs
  · exact consumeStamina_in_range
      { m with bIsSprinting := (Input.ActionFlags &&& FInputCommand.FLAG_SPRINT) != 0 }
      (f32mul m.SprintStaminaCostPerSecond DeltaTime) hr hfin
      (f32mul_nonneg hcost hdt hcostf hdtf)
  · exact hr

theorem f32IsInf_false_of_le_finite {s M : F32} (hlo : f32le f32Zero s = true)
    (hhi : f32le s M = true) (hM : f32IsInf M = false) : f32IsInf s = false := by
  obtain ⟨-, hsn, hsk⟩ := (f32le_iff _ _).1 hlo
  obtain ⟨-, hMn, hk⟩ := (f32le_iff _ _).1 hhi
  rw [f32Key_zero] at hsk
  cases h : f32IsInf s
  · rfl
  · exfalso
    have hks := f32Key_of_inf h
    have hMmag : f32Mag M < 0x7F800000 := by
      unfold f32IsNaN at hMn
      unfold f32IsInf at hM
      simp only [decide_eq_false_iff_not, not_lt, beq_eq_false_iff_ne, ne_eq] at hMn hM
      omega
    have hMk : f32Key M ≤ f32Mag M := by
      unfold f32Key; split_ifs <;> omega
    cases hs : f32Sign s
    · rw [hs] at hks
      simp only [Bool.false_eq_true, if_false] at hks
      omega
    · rw [hs] at hks
      simp only [if_true] at hks
      omega

/-- C23, counterexample: the sample component with a regeneration rate of zero has its stamina
in the range, and the time step `+infinity` and the rate are not negative, yet after
`RegenerateStamina` the stamina is a NaN (`0 * infinity`), which is not in the range. -/
theorem regenerateStamina_infinite_step_leaves_range :
    noRegenMovement.StaminaInRange ∧
    f32le f32Zero f32Infinity = true ∧
    f32le f32Zero noRegenMovement.StaminaRegenRate = true ∧
    (noRegenMovement.RegenerateStamina f32Infinity).CurrentStamina = f32QNaN ∧
    ¬ (noRegenMovement.RegenerateStamina f32Infinity).StaminaInRange := by
  decide

/-- C23, amended: when `0 <= CurrentStamina <= MaxStamina` holds before and `MaxStamina` is
finite, it holds after `ConsumeStamina` with an amount that is not negative, after
`RegenerateStamina` with a finite time step and a finite regeneration rate that are not negative,
and after `SimulateMovement` with a finite time step and a finite sprint cost that are not
negative; and when the updated component is set, the input asks for sprinting and the stamina is
positive, `SimulateMovement` sets the stamina to `FMath::Max(0, stamina - cost * dt)`. -/
theorem stamina_stays_in_range (E : Engine) (m : UPlayerMovementComponent) (Location : FVector)
    (Input : FInputCommand) (DeltaTime Amount : F32)
    (hr : m.StaminaInRange) (hmax : f32IsInf m.MaxStamina = false) :
    (f32le f32Zero Amount = true → (m.ConsumeStamina Amount).StaminaInRange) ∧
    (f32le f32Zero DeltaTime = true → f32IsInf DeltaTime = false →
      f32le f32Zero m.StaminaRegenRate = true → f32IsInf m.StaminaRegenRate = false →
      (m.RegenerateStamina DeltaTime).StaminaInRange) ∧
    (f32le f32Zero DeltaTime = true → f32IsInf DeltaTime = false →
      f32le f32Zero m.SprintStaminaCostPerSecond = true →
      f32IsInf m.SprintStaminaCostPerSecond = false →
      (m.SimulateMovement E Location Input DeltaTime).Component.StaminaInRange) ∧
    (m.UpdatedComponent = true → (Input.ActionFlags &&& FInputCommand.FLAG_SPRINT) ≠ 0 →
      f32gt m.CurrentStamina f32Zero = true →
      (m.SimulateMovement E Location Input DeltaTime).Component.CurrentStamina =
        FMath.Max f32Zero
          (f32sub m.CurrentStamina (f32mul m.SprintStaminaCostPerSecond DeltaTime))) := by
  have hfin := f32IsInf_false_of_le_finite hr.1 hr.2 hmax
  refine ⟨fun hA => consumeStamina_in_range m Amount hr hfin hA,
    fun hdt hdtf hrate hratef => regenerateStamina_in_range m DeltaTime hr hdt hdtf hrate hratef,
    fun hdt hdtf hcost hcostf => ?_, fun hu hflag hpos => ?_⟩
  · by_cases hu : m.UpdatedComponent = true
    · have hs := simulateMovementSprint_in_range m Input DeltaTime hr hfin hdt hdtf hcost hcostf
      obtain ⟨h1, h2⟩ := simulateMovement_stamina E m Location Input DeltaTime hu
      unfold UPlayerMovementComponent.StaminaInRange at hs ⊢
      rw [h1, h2]
      exact hs
    · unfold UPlayerMovementComponent.SimulateMovement
      rw [if_pos (by simpa using hu)]
      exact hr
  · rw [(simulateMovement_stamina E m Location Input DeltaTime hu).1]
    unfold SimulateMovementSprint
    simp only []
    rw [if_pos (by simp [hflag, hpos])]
    exact (consumeStamina_stamina _ _).1

set_option maxRecDepth 100000 in
/-- C23, witness: the sample component, the sprint command, a step of 1/60 s and an amount of
5. -/
theorem stamina_stays_in_range_witness :
    sampleMovement.StaminaInRange ∧ f32IsInf sampleMovement.MaxStamina = false ∧
    ((f32le f32Zero 0x40A00000 = true → (sampleMovement.ConsumeStamina 0x40A00000).StaminaInRange) ∧
    (f32le f32Zero f32OneSixtieth = true → f32IsInf f32OneSixtieth = false →
      f32le f32Zero sampleMovement.StaminaRegenRate = true →
      f32IsInf sampleMovement.StaminaRegenRate = false →
      (sampleMovement.RegenerateStamina f32OneSixtieth).StaminaInRange) ∧
    (f32le f32Zero f32OneSixtieth = true → f32IsInf f32OneSixtieth = false →
      f32le f32Zero sampleMovement.SprintStaminaCostPerSecond = true →
      f32IsInf sampleMovement.SprintStaminaCostPerSecond = false →
      (sampleMovement.SimulateMovement Engine.openField FVector.ZeroVector sprintCommand
        f32OneSixtieth).Component.StaminaInRange) ∧
    (sampleMovement.UpdatedComponent = true →
      (sprintCommand.ActionFlags &&& FInputCommand.FLAG_SPRINT) ≠ 0 →
      f32gt sampleMovement.CurrentStamina f32Zero = true →
      (sampleMovement.SimulateMovement Engine.openField FVector.ZeroVector sprintCommand
        f32OneSixtieth).Component.CurrentStamina =
        FMath.Max f32Zero (f32sub sampleMovement.CurrentStamina
          (f32mul sampleMovement.SprintStaminaCostPerSecond f32OneSixtieth)))) :=
  ⟨by decide, by decide,
    stamina_stays_in_range Engine.openField sampleMovement FVector.ZeroVector sprintCommand
      f32OneSixtieth 0x40A00000 (by decide) (by decide)⟩

/-! ## Extrapolation from the latest state (C28) -/

/-- In a buffer sorted by time stamp no entry has a time stamp greater than the last one. -/
theorem timestampAscending_getLast (l : List FStateUpdatePacket) (Latest : FStateUpdatePacket)
    (hs : TimestampAscending l) (hl : l.getLast? = some Latest) :
    ∀ State : FStateUpdatePacket, State ∈ l →
      f32lt Latest.ServerTimestamp State.ServerTimestamp = false := by
  intro State hmem
  rw [List.getLast?_eq_some_iff] at hl
  obtain ⟨ys, rfl⟩ := hl
  rw [timestampAscending_iff_pairwise, List.pairwise_append] at hs
  rcases List.mem_append.1 hmem with h | h
  · exact f32lt_false_of_le (hs.2.2 State h Latest (List.mem_singleton.2 rfl))
  · rw [List.mem_singleton] at h
    subst h
    simp [f32lt]

/-- A position advanced by a finite velocity over a time step of zero compares equal to the
position. -/
theorem extrapolate_zero_step (P V : FVector) (DeltaTime : F32) (hdt : f32Mag DeltaTime = 0)
    (hP : P.NoNaN) (hV : V.IsFinite) : (P.add (V.scale DeltaTime)).EqualTo P := by
  obtain ⟨hx, hy, hz⟩ := hP
  obtain ⟨⟨hvx, hvy, hvz⟩, hix, hiy, hiz⟩ := hV
  unfold FVector.EqualTo FVector.add FVector.scale
  exact ⟨f32add_zero_right hx (f32mul_zero_right hvx hix hdt),
    f32add_zero_right hy (f32mul_zero_right hvy hiy hdt),
    f32add_zero_right hz (f32mul_zero_right hvz hiz hdt)⟩

/-- C28, counterexample: a state with position (10,0,0) and an infinite velocity component is
added to the empty buffer by `AddServerState`; `ExtrapolatePosition` with a time step of zero
returns a position whose X component is a NaN (`infinity * 0`), not the latest position. -/
theorem extrapolatePosition_zero_step_infinite_velocity :
    (sampleInterpolation.AddServerState sortByTimestamp (some f32Zero)
      infiniteVelocityState).StateBuffer = [infiniteVelocityState] ∧
    (sampleInterpolation.AddServerState sortByTimestamp (some f32Zero)
      infiniteVelocityState).bEnableExtrapolation = true ∧
    (sampleInterpolation.AddServerState sortByTimestamp (some f32Zero)
      infiniteVelocityState).ExtrapolatePosition f32Zero =
        some { X := f32QNaN, Y := f32Zero, Z := f32Zero } ∧
    infiniteVelocityState.AuthoritativePosition = { X := f32Ten, Y := f32Zero, Z := f32Zero } := by
  decide

/-- C28, amended: with extrapolation enabled and a non-empty buffer sorted by time stamp,
`ExtrapolatePosition` returns `Latest.position + Latest.velocity * dt` for every `dt`, where
`Latest` is the last buffered state and no buffered state has a greater time stamp; for a time
step of zero (of either sign), a finite velocity and a position without NaN the result compares
equal to the latest position component by component. -/
theorem extrapolatePosition_latest (I : UNetworkInterpolation) (DeltaTime : F32)
    (hen : I.bEnableExtrapolation = true) (hne : I.StateBuffer ≠ [])
    (hs : TimestampAscending I.StateBuffer) :
    ∃ Latest : FStateUpdatePacket,
      I.StateBuffer.getLast? = some Latest ∧
      (∀ State : FStateUpdatePacket, State ∈ I.StateBuffer →
        f32lt Latest.ServerTimestamp State.ServerTimestamp = false) ∧
      I.ExtrapolatePosition DeltaTime =
        some (Latest.AuthoritativePosition.add (Latest.AuthoritativeVelocity.scale DeltaTime)) ∧
      (f32Mag DeltaTime = 0 → Latest.AuthoritativePosition.NoNaN →
        Latest.AuthoritativeVelocity.IsFinite →
        ∃ P : FVector, I.ExtrapolatePosition DeltaTime = some P ∧
          P.EqualTo Latest.AuthoritativePosition) := by
  obtain ⟨Latest, hl⟩ : ∃ Latest, I.StateBuffer.getLast? = some Latest := by
    cases h : I.StateBuffer.getLast? with
    | none => exact absurd (List.getLast?_eq_none_iff.1 h) hne
    | some x => exact ⟨x, rfl⟩
  have hex : I.ExtrapolatePosition DeltaTime =
      some (Latest.AuthoritativePosition.add (Latest.AuthoritativeVelocity.scale DeltaTime)) := by
    unfold UNetworkInterpolation.ExtrapolatePosition
    have hlen : I.StateBuffer.length ≠ 0 := fun h => hne (List.length_eq_zero.1 h)
    rw [if_neg (by simp [hen, hlen]), hl]
    rfl
  exact ⟨Latest, hl, timestampAscending_getLast _ _ hs hl, hex,
    fun hdt hP hV => ⟨_, hex, extrapolate_zero_step _ _ _ hdt hP hV⟩⟩

set_option maxRecDepth 100000 in
/-- C28, witness: the two-state buffer with a moving state appended, a time step of zero. -/
theorem extrapolatePosition_latest_witness :
    (twoStateInterpolation.AddServerState sortByTimestamp (some f32Zero)
      movingState).bEnableExtrapolation = true ∧
    (twoStateInterpolation.AddServerState sortByTimestamp (some f32Zero)
      movingState).StateBuffer ≠ [] ∧
    TimestampAscending (twoStateInterpolation.AddServerState sortByTimestamp (some f32Zero)
      movingState).StateBuffer ∧
    ∃ Latest : FStateUpdatePacket,
      (twoStateInterpolation.AddServerState sortByTimestamp (some f32Zero)
        movingState).StateBuffer.getLast? = some Latest ∧
      (∀ State : FStateUpdatePacket,
        State ∈ (twoStateInterpolation.AddServerState sortByTimestamp (some f32Zero)
          movingState).StateBuffer →
        f32lt Latest.ServerTimestamp State.ServerTimestamp = false) ∧
      (twoStateInterpolation.AddServerState sortByTimestamp (some f32Zero)
        movingState).ExtrapolatePosition f32Zero =
        some (Latest.AuthoritativePosition.add (Latest.AuthoritativeVelocity.scale f32Zero)) ∧
      (f32Mag f32Zero = 0 → Latest.AuthoritativePosition.NoNaN →
        Latest.AuthoritativeVelocity.IsFinite →
        ∃ P : FVector,
          (twoStateInterpolation.AddServerState sortByTimestamp (some f32Zero)
            movingState).ExtrapolatePosition f32Zero = some P ∧
          P.EqualTo Latest.AuthoritativePosition) :=
  ⟨by decide, by decide, by decide,
    extrapolatePosition_latest
      (twoStateInterpolation.AddServerState sortByTimestamp (some f32Zero) movingState) f32Zero
      (by decide) (by decide) (by decide)⟩

/-! ## The fallback of the interpolator (C29) -/

/-- When no adjacent pair brackets the target time the search loop runs to its end. -/
theorem getInterpolationStates_loop_none (StateBuffer : List FStateUpdatePacket)
    (TargetTime : F32)
    (hno : ∀ (k : Nat) (A B : FStateUpdatePacket), StateBuffer[k]? = some A →
      StateBuffer[k + 1]? = some B →
      ¬ (f32le A.ServerTimestamp TargetTime = true ∧ f32le TargetTime B.ServerTimestamp = true)) :
    ∀ n j : Nat, j + n + 1 ≤ StateBuffer.length →
      UNetworkInterpolation.GetInterpolationStates.Loop StateBuffer TargetTime n j =
        some none := by
  intro n
  induction n with
  | zero => intro j _; rfl
  | succ n ih =>
    intro j hj
    have hA : StateBuffer[j]? = some (StateBuffer[j]) := List.getElem?_eq_getElem (by omega)
    have hB : StateBuffer[j + 1]? = some (StateBuffer[j + 1]) :=
      List.getElem?_eq_getElem (by omega)
    unfold UNetworkInterpolation.GetInterpolationStates.Loop
    rw [(tarray_get_natCast StateBuffer j).1, (tarray_get_natCast StateBuffer j).2, hA, hB]
    simp only []
    have hrec := ih (j + 1) (by omega)
    by_cases h1 : f32le (StateBuffer[j]).ServerTimestamp TargetTime = true
    · rw [if_pos h1]
      have h2 : ¬ (f32ge (StateBuffer[j + 1]).ServerTimestamp TargetTime = true) := by
        intro h2
        exact hno j _ _ hA hB ⟨h1, h2⟩
      rw [if_neg h2]
      exact hrec
    · rw [if_neg h1]
      exact hrec

/-- Without a bracketing pair `GetInterpolationStates` returns the first two entries. -/
theorem getInterpolationStates_fallback (I : UNetworkInterpolation) (RenderTime : F32)
    (First Second : FStateUpdatePacket) (rest : List FStateUpdatePacket)
    (hbuf : I.StateBuffer = First :: Second :: rest)
    (hno : ∀ (k : Nat) (A B : FStateUpdatePacket), I.StateBuffer[k]? = some A →
      I.StateBuffer[k + 1]? = some B →
      ¬ (f32le A.ServerTimestamp (f32sub RenderTime I.InterpolationDelay) = true ∧
        f32le (f32sub RenderTime I.InterpolationDelay) B.ServerTimestamp = true)) :
    I.GetInterpolationStates RenderTime =
      some (First, Second,
        interpolationAlpha (f32sub RenderTime I.InterpolationDelay) First.ServerTimestamp
          Second.ServerTimestamp) := by
  have hlen : I.StateBuffer.length = rest.length + 2 := by rw [hbuf]; rfl
  have hloop := getInterpolationStates_loop_none I.StateBuffer
    (f32sub RenderTime I.InterpolationDelay) hno
    ((I.StateBuffer.length : Int) - 1).toNat 0 (by rw [hlen]; omega)
  unfold UNetworkInterpolation.GetInterpolationStates
  simp only []
  rw [hloop]
  simp only []
  have hmin : min (1 : Int) ((I.StateBuffer.length : Int) - 1) = 1 := by
    rw [hlen]; omega
  rw [hmin]
  have h0 : TArray.Get I.StateBuffer 0 = some First := by
    rw [hbuf]; rfl
  have h1 : TArray.Get I.StateBuffer 1 = some Second := by
    rw [hbuf]; simp [TArray.Get]
  rw [h0, h1]
  rfl

theorem getInterpolatedPosition_of_states (I : UNetworkInterpolation) (RenderTime : F32)
    (First Second : FStateUpdatePacket) (rest : List FStateUpdatePacket) (Alpha : F32)
    (hbuf : I.StateBuffer = First :: Second :: rest)
    (h : I.GetInterpolationStates RenderTime = some (First, Second, Alpha)) :
    I.GetInterpolatedPosition RenderTime =
      some (FMath.Lerp First.AuthoritativePosition Second.AuthoritativePosition Alpha) := by
  have hlen : I.StateBuffer.length = rest.length + 2 := by rw [hbuf]; rfl
  unfold UNetworkInterpolation.GetInterpolatedPosition
  rw [if_neg (by omega), if_neg (by omega), h]
  rfl

theorem f32lt_one_of_lt_zero {q : F32} (h : f32lt q f32Zero = true) : f32lt q f32One = true := by
  rw [f32lt_iff] at h ⊢
  have h1 : f32Key f32One = 1065353216 := by decide
  rw [f32Key_zero] at h
  exact ⟨h.1, by decide, by rw [h1]; omega⟩

/-- The interpolation factor is in `[0, 1]`. -/
theorem interpolationAlpha_unit_interval (TargetTime FromTime ToTime : F32) :
    f32le f32Zero (interpolationAlpha TargetTime FromTime ToTime) = true ∧
    f32le (interpolationAlpha TargetTime FromTime ToTime) f32One = true := by
  unfold interpolationAlpha
  split_ifs
  · exact clamp_unit_interval _
  · exact ⟨by decide, by decide⟩

/-- For a target time later than both time stamps the interpolation factor is one. -/
theorem interpolationAlpha_of_later (TargetTime FromTime ToTime : F32)
    (h01 : f32lt FromTime ToTime = true) (hT : f32lt ToTime TargetTime = true) :
    interpolationAlpha TargetTime FromTime ToTime = f32One := by
  have hpos := f32sub_pos_of_lt h01
  have hle := f32sub_le_sub h01 (f32le_of_lt hT)
  have hq := f32div_not_lt_one hpos hle
  have hq0 : f32lt (f32div (f32sub TargetTime FromTime) (f32sub ToTime FromTime)) f32Zero =
      false := by
    cases h : f32lt (f32div (f32sub TargetTime FromTime) (f32sub ToTime FromTime)) f32Zero
    · rfl
    · rw [f32lt_one_of_lt_zero h] at hq
      exact absurd hq (by decide)
  unfold interpolationAlpha FMath.Clamp
  rw [if_pos hpos, hq0, hq]
  rfl

/-- For a target time earlier than the first time stamp the interpolation factor is a zero,
unless both float differences are infinite. -/
theorem interpolationAlpha_of_earlier (TargetTime FromTime ToTime : F32)
    (hT : f32lt TargetTime FromTime = true)
    (hinf : ¬ (f32IsInf (f32sub TargetTime FromTime) = true ∧
      f32IsInf (f32sub ToTime FromTime) = true)) :
    f32Mag (interpolationAlpha TargetTime FromTime ToTime) = 0 := by
  unfold interpolationAlpha
  by_cases hpos : f32gt (f32sub ToTime FromTime) f32Zero = true
  · rw [if_pos hpos]
    have hx := f32sub_nonpos_of_lt hT
    have hq := f32div_nonpos hx hpos hinf
    obtain ⟨hqn, -, hqk⟩ := (f32le_iff _ _).1 hq
    rw [f32Key_zero] at hqk
    unfold FMath.Clamp
    by_cases h0 : f32lt (f32div (f32sub TargetTime FromTime) (f32sub ToTime FromTime)) f32Zero =
        true
    · rw [if_pos h0]; rfl
    · rw [if_neg h0]
      have hk0 : ¬ (f32Key (f32div (f32sub TargetTime FromTime) (f32sub ToTime FromTime)) <
          0) := by
        intro hc
        apply h0
        rw [f32lt_iff, f32Key_zero]
        exact ⟨hqn, by decide, hc⟩
      have h1 : f32lt (f32div (f32sub TargetTime FromTime) (f32sub ToTime FromTime)) f32One =
          true := by
        rw [f32lt_iff]
        have hone : f32Key f32One = 1065353216 := by decide
        exact ⟨hqn, by decide, by rw [hone]; omega⟩
      rw [if_pos h1]
      generalize f32div (f32sub TargetTime FromTime) (f32sub ToTime FromTime) = q at *
      unfold f32Key at hqk hk0
      split_ifs at hqk hk0 <;> omega
  · rw [if_neg hpos]; rfl

set_option maxRecDepth 100000 in
/-- C29, counterexample: the buffer holds position (600,0,0) at t = 0 and position (0.1,0,0) at
t = 1, the target time 10 is later than both distinct time stamps, and `GetInterpolatedPosition`
returns X = 0.0999755859375 (`600 + (0.1 - 600) * 1` in float arithmetic), which does not
compare equal to the X = 0.1 of the entry at index 1. -/
theorem getInterpolatedPosition_late_not_second_entry :
    TimestampAscending unevenInterpolation.StateBuffer ∧
    (∀ State : FStateUpdatePacket, State ∈ unevenInterpolation.StateBuffer →
      f32lt State.ServerTimestamp (f32sub f32Ten unevenInterpolation.InterpolationDelay) = true) ∧
    f32lt f32Zero f32One = true ∧
    unevenInterpolation.StateBuffer[1]?.map (fun State => State.AuthoritativePosition) =
      some { X := 0x3DCCCCCD, Y := f32Zero, Z := f32Zero } ∧
    unevenInterpolation.GetInterpolatedPosition f32Ten =
      some { X := 0x3DCCC000, Y := f32Zero, Z := f32Zero } ∧
    f32eq 0x3DCCC000 0x3DCCCCCD = false := by
  decide

/-- C29, amended: for a buffer with at least two entries, when no adjacent pair brackets the
target time `RenderTime - InterpolationDelay`, `GetInterpolationStates` returns the entries at
indices 0 and 1 with an interpolation factor in `[0, 1]` and `GetInterpolatedPosition` returns
their `FMath::Lerp`.  When the target time precedes every buffered time stamp, and the float
differences `target - first` and `second - first` are not both infinite, the factor is a zero
and the result compares equal to the position of the first entry (for a first position without
NaN and a finite position difference).  When the target time is later than every buffered time
stamp and the first two time stamps are strictly ascending, the factor is one and the result is
`FMath::Lerp(first, second, 1) = first + (second - first) * 1` in float arithmetic. -/
theorem getInterpolatedPosition_fallback (I : UNetworkInterpolation) (RenderTime : F32)
    (First Second : FStateUpdatePacket) (rest : List FStateUpdatePacket)
    (hbuf : I.StateBuffer = First :: Second :: rest) :
    ((∀ (k : Nat) (A B : FStateUpdatePacket), I.StateBuffer[k]? = some A →
        I.StateBuffer[k + 1]? = some B →
        ¬ (f32le A.ServerTimestamp (f32sub RenderTime I.InterpolationDelay) = true ∧
          f32le (f32sub RenderTime I.InterpolationDelay) B.ServerTimestamp = true)) →
      I.GetInterpolationStates RenderTime =
        some (First, Second,
          interpolationAlpha (f32sub RenderTime I.InterpolationDelay) First.ServerTimestamp
            Second.ServerTimestamp) ∧
      f32le f32Zero (interpolationAlpha (f32sub RenderTime I.InterpolationDelay)
        First.ServerTimestamp Second.ServerTimestamp) = true ∧
      f32le (interpolationAlpha (f32sub RenderTime I.InterpolationDelay)
        First.ServerTimestamp Second.ServerTimestamp) f32One = true ∧
      I.GetInterpolatedPosition RenderTime =
        some (FMath.Lerp First.AuthoritativePosition Second.AuthoritativePosition
          (interpolationAlpha (f32sub RenderTime I.InterpolationDelay) First.ServerTimestamp
            Second.ServerTimestamp))) ∧
    ((∀ State : FStateUpdatePacket, State ∈ I.StateBuffer →
        f32lt (f32sub RenderTime I.InterpolationDelay) State.ServerTimestamp = true) →
      ¬ (f32IsInf (f32sub (f32sub RenderTime I.InterpolationDelay) First.ServerTimestamp) = true ∧
        f32IsInf (f32sub Second.ServerTimestamp First.ServerTimestamp) = true) →
      (∃ Alpha : F32, I.GetInterpolationStates RenderTime = some (First, Second, Alpha) ∧
        f32Mag Alpha = 0) ∧
      (First.AuthoritativePosition.NoNaN →
        (Second.AuthoritativePosition.sub First.AuthoritativePosition).IsFinite →
        ∃ P : FVector, I.GetInterpolatedPosition RenderTime = some P ∧
          P.EqualTo First.AuthoritativePosition)) ∧
    ((∀ State : FStateUpdatePacket, State ∈ I.StateBuffer →
        f32lt State.ServerTimestamp (f32sub RenderTime I.InterpolationDelay) = true) →
      f32lt First.ServerTimestamp Second.ServerTimestamp = true →
      I.GetInterpolationStates RenderTime = some (First, Second, f32One) ∧
      I.GetInterpolatedPosition RenderTime =
        some (FMath.Lerp First.AuthoritativePosition Second.AuthoritativePosition f32One)) := by
  have hmem1 : First ∈ I.StateBuffer := by rw [hbuf]; simp
  have hmem2 : Second ∈ I.StateBuffer := by rw [hbuf]; simp
  refine ⟨fun hno => ?_, fun hpre hinf => ?_, fun hlate h01 => ?_⟩
  · have hst := getInterpolationStates_fallback I RenderTime First Second rest hbuf hno
    exact ⟨hst, (interpolationAlpha_unit_interval _ _ _).1,
      (interpolationAlpha_unit_interval _ _ _).2,
      getInterpolatedPosition_of_states I RenderTime First Second rest _ hbuf hst⟩
  · have hno : ∀ (k : Nat) (A B : FStateUpdatePacket), I.StateBuffer[k]? = some A →
        I.StateBuffer[k + 1]? = some B →
        ¬ (f32le A.ServerTimestamp (f32sub RenderTime I.InterpolationDelay) = true ∧
          f32le (f32sub RenderTime I.InterpolationDelay) B.ServerTimestamp = true) := by
      intro k A B hA _ hc
      have hlt := hpre A (List.getElem?_mem hA)
      have := f32lt_false_of_le hc.1
      rw [hlt] at this
      exact absurd this (by decide)
    have hst := getInterpolationStates_fallback I RenderTime First Second rest hbuf hno
    have hα := interpolationAlpha_of_earlier (f32sub RenderTime I.InterpolationDelay)
      First.ServerTimestamp Second.ServerTimestamp (hpre First hmem1) hinf
    exact ⟨⟨_, hst, hα⟩, fun hP hD =>
      ⟨_, getInterpolatedPosition_of_states I RenderTime First Second rest _ hbuf hst,
        extrapolate_zero_step _ _ _ hα hP hD⟩⟩
  · have hno : ∀ (k : Nat) (A B : FStateUpdatePacket), I.StateBuffer[k]? = some A →
        I.StateBuffer[k + 1]? = some B →
        ¬ (f32le A.ServerTimestamp (f32sub RenderTime I.InterpolationDelay) = true ∧
          f32le (f32sub RenderTime I.InterpolationDelay) B.ServerTimestamp = true) := by
      intro k A B _ hB hc
      have hlt := hlate B (List.getElem?_mem hB)
      have := f32lt_false_of_le hc.2
      rw [hlt] at this
      exact absurd this (by decide)
    have hst := getInterpolationStates_fallback I RenderTime First Second rest hbuf hno
    rw [interpolationAlpha_of_later _ _ _ h01 (hlate Second hmem2)] at hst
    exact ⟨hst, getInterpolatedPosition_of_states I RenderTime First Second rest _ hbuf hst⟩

set_option maxRecDepth 100000 in
/-- C29, witness: the two-state buffer (position (0,0,0) at t = 0, position (10,0,0) at t = 1)
with the render time 10, later than both time stamps, and with the render time -1, earlier than
both. -/
theorem getInterpolatedPosition_fallback_witness :
    twoStateInterpolation.StateBuffer =
      [stateAt f32Zero FVector.ZeroVector,
        stateAt f32One { X := f32Ten, Y := f32Zero, Z := f32Zero }] ∧
    (twoStateInterpolation.GetInterpolationStates f32Ten =
        some (stateAt f32Zero FVector.ZeroVector,
          stateAt f32One { X := f32Ten, Y := f32Zero, Z := f32Zero }, f32One) ∧
      twoStateInterpolation.GetInterpolatedPosition f32Ten =
        some (FMath.Lerp (stateAt f32Zero FVector.ZeroVector).AuthoritativePosition
          (stateAt f32One { X := f32Ten, Y := f32Zero, Z := f32Zero }).AuthoritativePosition
          f32One)) ∧
    (∃ P : FVector, twoStateInterpolation.GetInterpolatedPosition f32NegOne = some P ∧
      P.EqualTo (stateAt f32Zero FVector.ZeroVector).AuthoritativePosition) :=
  ⟨rfl,
    (getInterpolatedPosition_fallback twoStateInterpolation f32Ten
      (stateAt f32Zero FVector.ZeroVector)
      (stateAt f32One { X := f32Ten, Y := f32Zero, Z := f32Zero }) [] rfl).2.2
      (by decide) (by decide),
    ((getInterpolatedPosition_fallback twoStateInterpolation f32NegOne
      (stateAt f32Zero FVector.ZeroVector)
      (stateAt f32One { X := f32Ten, Y := f32Zero, Z := f32Zero }) [] rfl).2.1
      (by decide) (by decide)).2 (by decide) (by decide)⟩

/-! ## A NaN axis passes the server-side validation (C6) -/

set_option maxRecDepth 100000 in
/-- C6: the claim fails at `nanAxisInput`.  The packet is well formed, its checksum matches and
its action flags are two of the recognised flags, but the X axis of its movement input is a NaN, which is not
in `[-1, 1]`.  On `sampleGameState` (authority, validation enabled) `ValidateInput` accepts it,
and `ProcessClientInput` for controller 1 does not count a rejection (`InvalidInputsRejected`
stays 1) but processes the packet: `TotalInputsProcessed` goes from 3 to 4, the acknowledged
sequence of controller 1 goes from 5 to 7, and the velocity and the location of its character get
a NaN component. -/
theorem processClientInput_simulates_nan_axis :
    nanAxisInput.WellFormed ∧ nanAxisInput.Checksum = nanAxisInput.CalculateChecksum ∧
    nanAxisInput.ActionFlags = FInputPacket.FLAG_SPRINT ||| FInputPacket.FLAG_KICK ∧
    f32IsNaN nanAxisInput.MovementInput.X = true ∧ ¬ nanAxisInput.AxesInRange ∧
    sampleGameState.bHasAuthority = true ∧ sampleGameState.bEnableInputValidation = true ∧
    nanAxisInput.IsValid = true ∧ sampleGameState.ValidateInput nanAxisInput = true ∧
    (sampleGameState.ProcessClientInput Engine.openField (some 1)
      nanAxisInput).InvalidInputsRejected = sampleGameState.InvalidInputsRejected ∧
    (sampleGameState.ProcessClientInput Engine.openField (some 1)
      nanAxisInput).TotalInputsProcessed = sampleGameState.TotalInputsProcessed + 1 ∧
    TMap.Find sampleGameState.ClientAcknowledgedSequences 1 = some 5 ∧
    TMap.Find (sampleGameState.ProcessClientInput Engine.openField (some 1)
      nanAxisInput).ClientAcknowledgedSequences 1 = some 7 ∧
    ((sampleGameState.ProcessClientInput Engine.openField (some 1) nanAxisInput).GetCharacter 1).map
        (fun c => (c.Location, c.MovementComponent.map (fun m => m.Velocity))) =
      some ({ X := 0xC1700001, Y := f32QNaN, Z := f32Zero },
        some { X := 0xC4610000, Y := f32QNaN, Z := f32Zero }) := by
  refine ⟨by decide, by decide, by decide, by decide, by decide, by decide, by decide, by decide,
    by decide, by decide, by decide, by decide, by decide, by decide⟩

/-! ## The distance test of the reconciler (C8) -/

theorem f32Mag_eq_zero_iff_key (a : F32) : f32Mag a = 0 ↔ f32Key a = 0 := by
  unfold f32Key
  split_ifs <;> omega

theorem f32IsNaN_false_of_mag_zero {a : F32} (h : f32Mag a = 0) : f32IsNaN a = false := by
  unfold f32IsNaN; rw [h]; rfl

theorem f32IsInf_false_of_mag_zero {a : F32} (h : f32Mag a = 0) : f32IsInf a = false := by
  unfold f32IsInf; rw [h]; rfl

/-- A float square is not negative and not a NaN. -/
theorem f32mul_self_nonneg {a : F32} (ha : f32IsNaN a = false) :
    f32le f32Zero (f32mul a a) = true := by
  unfold f32mul
  rw [ha]
  simp only [Bool.or_self, Bool.false_eq_true, if_false, bne_self_eq_false]
  by_cases hinf : f32IsInf a = true
  · have hm : f32Mag a ≠ 0 := by
      unfold f32IsInf at hinf
      simp only [beq_iff_eq] at hinf
      omega
    rw [if_pos hinf, if_neg (by simp [hm])]
    decide
  · rw [if_neg hinf]
    obtain ⟨m, hm, hr, -⟩ := f32Round_pack false (f32Sig a * f32Sig a) false
      (f32Scale a + f32Scale a) 298
    rw [hr, f32le_iff, f32Key_pack _ hm, f32Key_zero]
    exact ⟨by decide, f32IsNaN_pack _ hm, by simp⟩

/-- The square root of a value that is not negative is not negative and not a NaN. -/
theorem f32sqrt_nonneg {a : F32} (ha : f32le f32Zero a = true) :
    f32le f32Zero (f32sqrt a) = true := by
  obtain ⟨-, han, hak⟩ := (f32le_iff _ _).1 ha
  rw [f32Key_zero] at hak
  unfold f32sqrt
  rw [han]
  simp only [Bool.false_eq_true, if_false]
  have hmod : f32le f32Zero (a % 4294967296) = true := by
    rw [f32le_iff, f32IsNaN_mod, f32Key_mod, f32Key_zero]
    exact ⟨by decide, han, hak⟩
  by_cases hm : f32Mag a = 0
  · rw [if_pos hm]; exact hmod
  · rw [if_neg hm]
    have hs : f32Sign a = false := by
      cases h : f32Sign a
      · rfl
      · exact absurd (f32Mag_zero_of_nonneg_sign hak h) hm
    rw [hs]
    simp only [Bool.false_eq_true, if_false]
    by_cases hinf : f32IsInf a = true
    · rw [if_pos hinf]; exact hmod
    · rw [if_neg hinf]
      obtain ⟨m, hm2, hr, -⟩ := f32Round_pack false
        (isqrtBits (f32Sig a * 2 ^ (if (f32Scale a + 1) % 2 = 0 then 120 else 121)) 80 0)
        (isqrtBits (f32Sig a * 2 ^ (if (f32Scale a + 1) % 2 = 0 then 120 else 121)) 80 0 *
            isqrtBits (f32Sig a * 2 ^ (if (f32Scale a + 1) % 2 = 0 then 120 else 121)) 80 0 !=
          f32Sig a * 2 ^ (if (f32Scale a + 1) % 2 = 0 then 120 else 121))
        (300 - (149 + (if (f32Scale a + 1) % 2 = 0 then 120 else 121) - f32Scale a) / 2) 300
      rw [hr, f32le_iff, f32Key_pack _ hm2, f32Key_zero]
      exact ⟨by decide, f32IsNaN_pack _ hm2, by simp⟩

theorem f32sqrt_mag_zero {a : F32} (h : f32Mag a = 0) : f32Mag (f32sqrt a) = 0 := by
  unfold f32sqrt
  rw [f32IsNaN_false_of_mag_zero h]
  simp only [Bool.false_eq_true, if_false]
  rw [if_pos h, f32Mag_mod]
  exact h

/-- The difference of a finite value and one that compares equal to it is a zero. -/
theorem f32sub_mag_zero_of_eq {a b : F32} (h : f32eq a b = true) (hfin : f32IsInf b = false) :
    f32Mag (f32sub a b) = 0 := by
  obtain ⟨ha, hb, hk⟩ := (f32eq_iff _ _).1 h
  obtain ⟨-, hkey⟩ := f32sub_key ha hb (by rw [hfin]; simp)
  rw [f32Mag_eq_zero_iff_key, hkey, f32Val_eq_of_key_eq hk, sub_self]
  exact f32RoundInt_zero

theorem f32mul_self_mag_zero {a : F32} (h : f32Mag a = 0) : f32Mag (f32mul a a) = 0 :=
  f32mul_zero_right (f32IsNaN_false_of_mag_zero h) (f32IsInf_false_of_mag_zero h) h

theorem f32add_mag_zero {a b : F32} (ha : f32Mag a = 0) (hb : f32Mag b = 0) :
    f32Mag (f32add a b) = 0 := by
  have h := f32add_zero_right (f32IsNaN_false_of_mag_zero ha) hb
  obtain ⟨-, -, hk⟩ := (f32eq_iff _ _).1 h
  rw [f32Mag_eq_zero_iff_key, hk]
  exact (f32Mag_eq_zero_iff_key a).1 ha

theorem f32sub_not_nan_of_finite {a b : F32} (ha : f32IsNaN a = false) (hb : f32IsNaN b = false)
    (hfin : f32IsInf b = false) : f32IsNaN (f32sub a b) = false :=
  (f32sub_key ha hb (by rw [hfin]; simp)).1

/-- The code's `FVector::Dist` is the Euclidean distance formula in binary32 arithmetic. -/
theorem dist_eq_roundedEuclideanDistance (A B : FVector) :
    FVector.Dist A B = roundedEuclideanDistance A B := rfl

/-- Between points with finite coordinates the computed distance is not negative and not a
NaN. -/
theorem roundedEuclideanDistance_nonneg (A B : FVector) (hA : A.IsFinite) (hB : B.IsFinite) :
    f32le f32Zero (roundedEuclideanDistance A B) = true := by
  obtain ⟨⟨hax, hay, haz⟩, hiax, hiay, hiaz⟩ := hA
  obtain ⟨⟨hbx, hby, hbz⟩, -, -, -⟩ := hB
  unfold roundedEuclideanDistance
  exact f32sqrt_nonneg (f32add_nonneg (f32add_nonneg
    (f32mul_self_nonneg (f32sub_not_nan_of_finite hbx hax hiax))
    (f32mul_self_nonneg (f32sub_not_nan_of_finite hby hay hiay)))
    (f32mul_self_nonneg (f32sub_not_nan_of_finite hbz haz hiaz)))

/-- Between a finite point and a point that compares equal to it the computed distance is a
zero. -/
theorem roundedEuclideanDistance_self (A B : FVector) (hA : A.IsFinite) (hB : B.EqualTo A) :
    f32Mag (roundedEuclideanDistance A B) = 0 := by
  obtain ⟨-, hiax, hiay, hiaz⟩ := hA
  obtain ⟨hx, hy, hz⟩ := hB
  unfold roundedEuclideanDistance
  exact f32sqrt_mag_zero (f32add_mag_zero (f32add_mag_zero
    (f32mul_self_mag_zero (f32sub_mag_zero_of_eq hx hiax))
    (f32mul_self_mag_zero (f32sub_mag_zero_of_eq hy hiay)))
    (f32mul_self_mag_zero (f32sub_mag_zero_of_eq hz hiaz)))

set_option maxRecDepth 100000 in
/-- C8, counterexample: the verdict differs from the exact Euclidean distance in both directions.
For the sample client at (0,0,0) with threshold 10 and the server position (10, 0.001, 0) the
exact distance exceeds 10, but `0.001 * 0.001` is absorbed in the binary32 sum, the computed
distance is exactly 10 and `NeedsReconciliation` returns false.  For the client at (0,0,0) with
threshold 1e30 and the server position (1e20, 0, 0) the exact distance does not exceed the
threshold, but the square overflows, the computed distance is `+infinity` and
`NeedsReconciliation` returns true. -/
theorem needsReconciliation_differs_from_exact_distance :
    (sampleClient.Owner = true ∧ sampleClient.Location = FVector.ZeroVector ∧
      sampleClient.Reconciler.CorrectionThreshold = f32Ten ∧
      ExactDistExceeds sampleClient.Location
        (updateAt f32Ten 0x3A83126F f32Zero).AuthoritativePosition f32Ten ∧
      FVector.Dist sampleClient.Location
        (updateAt f32Ten 0x3A83126F f32Zero).AuthoritativePosition = f32Ten ∧
      UNetworkReconciler.NeedsReconciliation sampleClient
        (updateAt f32Ten 0x3A83126F f32Zero) = false) ∧
    (lenientClient.Owner = true ∧ lenientClient.Location = FVector.ZeroVector ∧
      lenientClient.Reconciler.CorrectionThreshold = 0x7149F2CA ∧
      ¬ ExactDistExceeds lenientClient.Location
        (updateAt 0x60AD78EC f32Zero f32Zero).AuthoritativePosition 0x7149F2CA ∧
      FVector.Dist lenientClient.Location
        (updateAt 0x60AD78EC f32Zero f32Zero).AuthoritativePosition = f32Infinity ∧
      UNetworkReconciler.NeedsReconciliation lenientClient
        (updateAt 0x60AD78EC f32Zero f32Zero) = true) := by
  refine ⟨⟨by decide, by decide, by decide, by decide, by decide, by decide⟩,
    ⟨by decide, by decide, by decide, by decide, by decide, by decide⟩⟩

set_option maxRecDepth 100000 in
/-- C8, amended: with an owner present, `NeedsReconciliation` returns true exactly when the
Euclidean distance between the local position and `AuthoritativePosition` as binary32 arithmetic
computes it, `sqrt(dx * dx + dy * dy + dz * dz)` with every operation rounded, is strictly
greater than `CorrectionThreshold`; a computed distance equal to the threshold returns false.
For finite positions the computed distance is not negative, so a negative threshold returns true,
and for a server position that compares equal to a finite local position with a threshold that is
not negative it returns false.  With local position (0,0,0) and threshold 10, the server positions
(5,0,0), (10,0,0), (6,8,0) and (10,0.001,0) give false and (20,0,0), (0,0,-20) and (6,8,1)
give true; this is the verdict of the exact Euclidean distance in each of these cases but
(10,0.001,0). -/
theorem needsReconciliation_rounded_distance :
    (∀ (W : FClient) (ServerState : FStateUpdatePacket), W.Owner = true →
      UNetworkReconciler.NeedsReconciliation W ServerState =
        f32gt (roundedEuclideanDistance W.Location ServerState.AuthoritativePosition)
          W.Reconciler.CorrectionThreshold) ∧
    (∀ (W : FClient) (ServerState : FStateUpdatePacket), W.Owner = true →
      f32eq (roundedEuclideanDistance W.Location ServerState.AuthoritativePosition)
          W.Reconciler.CorrectionThreshold = true →
      UNetworkReconciler.NeedsReconciliation W ServerState = false) ∧
    (∀ (W : FClient) (ServerState : FStateUpdatePacket), W.Owner = true →
      W.Location.IsFinite → ServerState.AuthoritativePosition.IsFinite →
      f32lt W.Reconciler.CorrectionThreshold f32Zero = true →
      UNetworkReconciler.NeedsReconciliation W ServerState = true) ∧
    (∀ (W : FClient) (ServerState : FStateUpdatePacket), W.Owner = true →
      W.Location.IsFinite → ServerState.AuthoritativePosition.EqualTo W.Location →
      f32le f32Zero W.Reconciler.CorrectionThreshold = true →
      UNetworkReconciler.NeedsReconciliation W ServerState = false) ∧
    (∀ (W : FClient) (ServerState : FStateUpdatePacket), W.Owner = true →
      W.Location = { X := f32Zero, Y := f32Zero, Z := f32Zero } →
      W.Reconciler.CorrectionThreshold = f32Ten →
      (ServerState.AuthoritativePosition = { X := 0x40A00000, Y := f32Zero, Z := f32Zero } →
        UNetworkReconciler.NeedsReconciliation W ServerState = false ∧
        ¬ ExactDistExceeds W.Location ServerState.AuthoritativePosition
          W.Reconciler.CorrectionThreshold) ∧
      (ServerState.AuthoritativePosition = { X := f32Ten, Y := f32Zero, Z := f32Zero } →
        UNetworkReconciler.NeedsReconciliation W ServerState = false ∧
        ¬ ExactDistExceeds W.Location ServerState.AuthoritativePosition
          W.Reconciler.CorrectionThreshold) ∧
      (ServerState.AuthoritativePosition = { X := 0x40C00000, Y := 0x41000000, Z := f32Zero } →
        UNetworkReconciler.NeedsReconciliation W ServerState = false ∧
        ¬ ExactDistExceeds W.Location ServerState.AuthoritativePosition
          W.Reconciler.CorrectionThreshold) ∧
      (ServerState.AuthoritativePosition = { X := f32Ten, Y := 0x3A83126F, Z := f32Zero } →
        UNetworkReconciler.NeedsReconciliation W ServerState = false ∧
        ExactDistExceeds W.Location ServerState.AuthoritativePosition
          W.Reconciler.CorrectionThreshold) ∧
      (ServerState.AuthoritativePosition = { X := 0x41A00000, Y := f32Zero, Z := f32Zero } →
        UNetworkReconciler.NeedsReconciliation W ServerState = true ∧
        ExactDistExceeds W.Location ServerState.AuthoritativePosition
          W.Reconciler.CorrectionThreshold) ∧
      (ServerState.AuthoritativePosition = { X := f32Zero, Y := f32Zero, Z := 0xC1A00000 } →
        UNetworkReconciler.NeedsReconciliation W ServerState = true ∧
        ExactDistExceeds W.Location ServerState.AuthoritativePosition
          W.Reconciler.CorrectionThreshold) ∧
      (ServerState.AuthoritativePosition = { X := 0x40C00000, Y := 0x41000000, Z := f32One } →
        UNetworkReconciler.NeedsReconciliation W ServerState = true ∧
        ExactDistExceeds W.Location ServerState.AuthoritativePosition
          W.Reconciler.CorrectionThreshold)) := by
  have hform : ∀ (W : FClient) (ServerState : FStateUpdatePacket), W.Owner = true →
      UNetworkReconciler.NeedsReconciliation W ServerState =
        f32gt (roundedEuclideanDistance W.Location ServerState.AuthoritativePosition)
          W.Reconciler.CorrectionThreshold := by
    intro W s ho
    unfold UNetworkReconciler.NeedsReconciliation
    rw [if_neg (by simp [ho])]
    rfl
  refine ⟨hform, fun W s ho he => ?_, fun W s ho hW hS hT => ?_, fun W s ho hW hS hT => ?_,
    fun W s ho hl ht => ⟨fun hp => ?_, fun hp => ?_, fun hp => ?_, fun hp => ?_, fun hp => ?_,
      fun hp => ?_, fun hp => ?_⟩⟩
  · rw [hform W s ho]
    exact f32gt_false_of_eq he
  · rw [hform W s ho]
    obtain ⟨-, hdn, hdk⟩ := (f32le_iff _ _).1 (roundedEuclideanDistance_nonneg _ _ hW hS)
    obtain ⟨htn, -, htk⟩ := (f32lt_iff _ _).1 hT
    unfold f32gt
    rw [f32lt_iff]
    exact ⟨htn, hdn, by omega⟩
  · rw [hform W s ho]
    have hm := roundedEuclideanDistance_self _ _ hW hS
    obtain ⟨-, htn, htk⟩ := (f32le_iff _ _).1 hT
    have hk := (f32Mag_eq_zero_iff_key _).1 hm
    cases hc : f32gt (roundedEuclideanDistance W.Location s.AuthoritativePosition)
      W.Reconciler.CorrectionThreshold
    · rfl
    · unfold f32gt at hc
      rw [f32lt_iff] at hc
      have := hc.2.2
      rw [f32Key_zero] at htk
      omega
  · rw [hform W s ho, hl, ht, hp]; exact ⟨by decide, by decide⟩
  · rw [hform W s ho, hl, ht, hp]; exact ⟨by decide, by decide⟩
  · rw [hform W s ho, hl, ht, hp]; exact ⟨by decide, by decide⟩
  · rw [hform W s ho, hl, ht, hp]; exact ⟨by decide, by decide⟩
  · rw [hform W s ho, hl, ht, hp]; exact ⟨by decide, by decide⟩
  · rw [hform W s ho, hl, ht, hp]; exact ⟨by decide, by decide⟩
  · rw [hform W s ho, hl, ht, hp]; exact ⟨by decide, by decide⟩

set_option maxRecDepth 100000 in
/-- C8, witness: the client at (1,2,3) with threshold 7 and the server positions (3,5,9), at the
computed distance 7, and (1,2,3); the sample client at the origin with threshold 10 and the
server positions (5,0,0) and (20,0,0). -/
theorem needsReconciliation_rounded_distance_witness :
    offsetClient.Owner = true ∧
    roundedEuclideanDistance offsetClient.Location
      (updateAt 0x40400000 0x40A00000 0x41100000).AuthoritativePosition = 0x40E00000 ∧
    UNetworkReconciler.NeedsReconciliation offsetClient
      (updateAt 0x40400000 0x40A00000 0x41100000) =
        f32gt (roundedEuclideanDistance offsetClient.Location
          (updateAt 0x40400000 0x40A00000 0x41100000).AuthoritativePosition)
          offsetClient.Reconciler.CorrectionThreshold ∧
    UNetworkReconciler.NeedsReconciliation offsetClient
      (updateAt 0x40400000 0x40A00000 0x41100000) = false ∧
    UNetworkReconciler.NeedsReconciliation offsetClient
      (updateAt f32One 0x40000000 0x40400000) = false ∧
    UNetworkReconciler.NeedsReconciliation sampleClient (updateAt 0x40A00000 f32Zero f32Zero) =
      false ∧
    UNetworkReconciler.NeedsReconciliation sampleClient (updateAt 0x41A00000 f32Zero f32Zero) =
      true :=
  ⟨by decide, by decide,
    needsReconciliation_rounded_distance.1 offsetClient _ (by decide),
    needsReconciliation_rounded_distance.2.1 offsetClient _ (by decide) (by decide),
    needsReconciliation_rounded_distance.2.2.2.1 offsetClient _ (by decide) (by decide)
      (by decide) (by decide),
    ((needsReconciliation_rounded_distance.2.2.2.2 sampleClient _ (by decide) (by decide)
      (by decide)).1 (by decide)).1,
    ((needsReconciliation_rounded_distance.2.2.2.2 sampleClient _ (by decide) (by decide)
      (by decide)).2.2.2.2.1 (by decide)).1⟩

end PocketStriker
